import Mathlib

/-!
# emailverifygo: request building, error normalisation and response decoding

A shallow embedding of the Go package `emailverifygo` (utility.go, api.go,
batch_validate.go, email_finder.go, account_balance.go).

Conventions of the embedding

* A Go `string` is a Lean `String` (so only valid UTF-8 texts are covered).
* A Go `error` is an `Option GoError`; `none` is `nil`.
* The package variables `URI`, `API_KEY` and the record of the requests handed to
  `httpClient.Do` form the explicit state `World`, which every operation threads.
* What the package takes from outside (`url.JoinPath`, the URL check of
  `http.NewRequest`, `httpClient.Do`, the iteration order of a Go map, the range
  check of `strconv.ParseFloat`) is the parameter `Env`; the theorems hold for
  every `Env`.
* `encoding/json` is modelled concretely: `scanStep` follows the byte-at-a-time
  scanner of the decoder, `Decoder_scan` the way `Decoder.Decode` delimits the
  first value of the stream, and the `store*` functions the typed assignment.
-/

namespace EmailVerify

/-! ## Go errors -/

/-- A Go error value. `ErrMissingAPIKey` is the package sentinel, `New` an error made by
`errors.New`, by `fmt.Errorf` without `%w`, or by a library; `Wrap pfx inner` is
`fmt.Errorf(pfx + "%w", inner)`. -/
inductive GoError where
  | ErrMissingAPIKey : GoError
  | New (msg : String) : GoError
  | Wrap (pfx : String) (inner : GoError) : GoError
  deriving DecidableEq, Repr

/-- The text returned by the `Error()` method. -/
def GoError.Error : GoError → String
  | .ErrMissingAPIKey => "API key not set. Use SetApiKey() or LoadEnvFromFile() to set it"
  | .New msg => msg
  | .Wrap pfx inner => pfx ++ inner.Error

/-- The test `errors.Is(e, target)`: `target` occurs on the unwrap chain of `e`. -/
def GoError.Is : GoError → GoError → Bool
  | .Wrap pfx inner, target => (GoError.Wrap pfx inner == target) || inner.Is target
  | e, target => e == target

/-- A Go `error` interface value; `none` is `nil`. -/
abbrev error := Option GoError

/-- The substring test `strings.Contains(s, sub)`, as a proposition. -/
def Contains (s sub : String) : Prop := sub.data <:+: s.data

instance (s sub : String) : Decidable (Contains s sub) := by
  unfold Contains; infer_instance

/-! ## JSON values and the decoder's scanner -/

/-- A decoded JSON value; a number keeps its literal text. -/
inductive JValue where
  | null : JValue
  | bool (b : Bool) : JValue
  | number (lit : String) : JValue
  | string (s : String) : JValue
  | array (items : List JValue) : JValue
  | object (members : List (String × JValue)) : JValue
  deriving Repr

/-- One unit of a string literal: a character, or the code unit of a `\uXXXX` escape. -/
inductive StrUnit where
  | ch (c : Char) : StrUnit
  | u (code : Nat) : StrUnit
  deriving DecidableEq, Repr

/-- The rune of a single `\uXXXX` unit: a surrogate half becomes U+FFFD. -/
def runeOfUnit (a : Nat) : Char :=
  if 0xD800 ≤ a ∧ a < 0xE000 then Char.ofNat 0xFFFD else Char.ofNat a

/-- The characters of a string literal, as `unquote` produces them: a high surrogate
escape directly followed by a low surrogate escape is one rune, every other surrogate
half is U+FFFD. -/
def unquoteUnits : List StrUnit → List Char
  | [] => []
  | .ch c :: r => c :: unquoteUnits r
  | .u a :: .u b :: r =>
      if 0xD800 ≤ a ∧ a < 0xDC00 ∧ 0xDC00 ≤ b ∧ b < 0xE000 then
        Char.ofNat ((a - 0xD800) * 0x400 + (b - 0xDC00) + 0x10000) :: unquoteUnits r
      else runeOfUnit a :: unquoteUnits (.u b :: r)
  | .u a :: r => runeOfUnit a :: unquoteUnits r

/-- The test `isSpace` of the scanner. -/
def isSpace (c : Char) : Bool := c = ' ' || c = '\t' || c = '\r' || c = '\n'

/-- Decimal digit test. -/
def isDigit (c : Char) : Bool := decide ('0'.toNat ≤ c.toNat ∧ c.toNat ≤ '9'.toNat)

/-- The value of a hexadecimal digit, if `c` is one. -/
def hexVal (c : Char) : Option Nat :=
  if '0'.toNat ≤ c.toNat ∧ c.toNat ≤ '9'.toNat then some (c.toNat - '0'.toNat)
  else if 'a'.toNat ≤ c.toNat ∧ c.toNat ≤ 'f'.toNat then some (c.toNat - 'a'.toNat + 10)
  else if 'A'.toNat ≤ c.toNat ∧ c.toNat ≤ 'F'.toNat then some (c.toNat - 'A'.toNat + 10)
  else none

/-- A container under construction; elements and members are kept newest first. -/
inductive Frame where
  | arr (items : List JValue) : Frame
  | obj (members : List (String × JValue)) (key : Option String) : Frame

/-- The scanner's step function state (the `state*` functions of scanner.go). Texts
under construction are kept newest first. -/
inductive Mode where
  | beginValue : Mode
  | beginValueOrEmpty : Mode
  | beginString : Mode
  | beginStringOrEmpty : Mode
  | inString (acc : List StrUnit) : Mode
  | inStringEsc (acc : List StrUnit) : Mode
  | inStringEscU (acc : List StrUnit) (digits : List Nat) : Mode
  | neg (lit : List Char) : Mode
  | zero (lit : List Char) : Mode
  | int (lit : List Char) : Mode
  | dot (lit : List Char) : Mode
  | dot0 (lit : List Char) : Mode
  | e (lit : List Char) : Mode
  | eSign (lit : List Char) : Mode
  | e0 (lit : List Char) : Mode
  | lit (rest : List Char) (v : JValue) : Mode
  | afterKey : Mode
  | afterElem : Mode
  | endTop (v : JValue) : Mode

/-- The scanner together with the value built so far. `done v`: the first value of the
stream is complete (what follows is not looked at); `fail`: a syntax error. -/
inductive Scan where
  | run (mode : Mode) (stack : List Frame) : Scan
  | done (v : JValue) : Scan
  | fail : Scan

/-- The nesting limit of the scanner. -/
def maxNestingDepth : Nat := 10000

/-- A scalar value `v` is complete: hand it to the enclosing container, or wait at top
level for the byte that ends it. -/
def attach (stack : List Frame) (v : JValue) : Scan :=
  match stack with
  | [] => .run (.endTop v) []
  | .arr items :: rest => .run .afterElem (.arr (v :: items) :: rest)
  | .obj members (some k) :: rest => .run .afterElem (.obj ((k, v) :: members) none :: rest)
  | .obj members none :: rest =>
      match v with
      | .string s => .run .afterKey (.obj members (some s) :: rest)
      | _ => .fail

/-- A closing bracket ends the innermost container; at top level the value is complete at
once (`scanEndObject`, `scanEndArray` in `readValue`). -/
def close (stack : List Frame) (isObject : Bool) : Scan :=
  match stack, isObject with
  | .arr items :: rest, false =>
      match rest with
      | [] => .done (.array items.reverse)
      | _ => attach rest (.array items.reverse)
  | .obj members none :: rest, true =>
      match rest with
      | [] => .done (.object members.reverse)
      | _ => attach rest (.object members.reverse)
  | _, _ => .fail

/-- The function `pushParseState`: open a container unless the nesting limit is exceeded. -/
def push (stack : List Frame) (f : Frame) (m : Mode) : Scan :=
  if stack.length + 1 ≤ maxNestingDepth then .run m (f :: stack) else .fail

/-- The function `stateBeginValue`. -/
def stepBeginValue (stack : List Frame) (c : Char) : Scan :=
  if isSpace c then .run .beginValue stack
  else if c = '{' then push stack (.obj [] none) .beginStringOrEmpty
  else if c = '[' then push stack (.arr []) .beginValueOrEmpty
  else if c = '"' then .run (.inString []) stack
  else if c = '-' then .run (.neg [c]) stack
  else if c = '0' then .run (.zero [c]) stack
  else if isDigit c then .run (.int [c]) stack
  else if c = 't' then .run (.lit ['r', 'u', 'e'] (.bool true)) stack
  else if c = 'f' then .run (.lit ['a', 'l', 's', 'e'] (.bool false)) stack
  else if c = 'n' then .run (.lit ['u', 'l', 'l'] .null) stack
  else .fail

/-- The function `stateBeginString`. -/
def stepBeginString (stack : List Frame) (c : Char) : Scan :=
  if isSpace c then .run .beginString stack
  else if c = '"' then .run (.inString []) stack
  else .fail

/-- The function `stateEndValue` (with `stateEndTop` for an empty stack): the byte after a
complete value. -/
def stepEndValue (s : Scan) (c : Char) : Scan :=
  match s with
  | .run (.endTop v) _ => .done v
  | .run .afterKey stack =>
      if isSpace c then .run .afterKey stack
      else if c = ':' then .run .beginValue stack
      else .fail
  | .run .afterElem (.arr items :: rest) =>
      if isSpace c then .run .afterElem (.arr items :: rest)
      else if c = ',' then .run .beginValue (.arr items :: rest)
      else if c = ']' then close (.arr items :: rest) false
      else .fail
  | .run .afterElem (.obj members key :: rest) =>
      if isSpace c then .run .afterElem (.obj members key :: rest)
      else if c = ',' then .run .beginString (.obj members key :: rest)
      else if c = '}' then close (.obj members key :: rest) true
      else .fail
  | .done v => .done v
  | _ => .fail

/-- A number literal ends before `c`. -/
def endNumber (stack : List Frame) (lit : List Char) (c : Char) : Scan :=
  stepEndValue (attach stack (.number (String.mk lit.reverse))) c

/-- The escape characters of `stateInStringEsc` other than `u`. -/
def escapeChar (c : Char) : Option Char :=
  if c = 'b' then some (Char.ofNat 8)
  else if c = 'f' then some (Char.ofNat 12)
  else if c = 'n' then some '\n'
  else if c = 'r' then some '\r'
  else if c = 't' then some '\t'
  else if c = '\\' then some '\\'
  else if c = '/' then some '/'
  else if c = '"' then some '"'
  else none

/-- One byte through the scanner. -/
def scanStep (s : Scan) (c : Char) : Scan :=
  match s with
  | .done v => .done v
  | .fail => .fail
  | .run mode stack =>
    match mode with
    | .beginValue => stepBeginValue stack c
    | .beginValueOrEmpty =>
        if isSpace c then .run .beginValueOrEmpty stack
        else if c = ']' then close stack false
        else stepBeginValue stack c
    | .beginString => stepBeginString stack c
    | .beginStringOrEmpty =>
        if isSpace c then .run .beginStringOrEmpty stack
        else if c = '}' then close stack true
        else stepBeginString stack c
    | .inString acc =>
        if c = '"' then attach stack (.string (String.mk (unquoteUnits acc.reverse)))
        else if c = '\\' then .run (.inStringEsc acc) stack
        else if c.toNat < 0x20 then .fail
        else .run (.inString (.ch c :: acc)) stack
    | .inStringEsc acc =>
        if c = 'u' then .run (.inStringEscU acc []) stack
        else match escapeChar c with
          | some x => .run (.inString (.ch x :: acc)) stack
          | none => .fail
    | .inStringEscU acc digits =>
        match hexVal c with
        | none => .fail
        | some d =>
            match digits with
            | [d2, d1, d0] =>
                .run (.inString (.u (((d0 * 16 + d1) * 16 + d2) * 16 + d) :: acc)) stack
            | _ => .run (.inStringEscU acc (d :: digits)) stack
    | .neg lit =>
        if c = '0' then .run (.zero (c :: lit)) stack
        else if isDigit c then .run (.int (c :: lit)) stack
        else .fail
    | .int lit =>
        if isDigit c then .run (.int (c :: lit)) stack
        else if c = '.' then .run (.dot (c :: lit)) stack
        else if c = 'e' || c = 'E' then .run (.e (c :: lit)) stack
        else endNumber stack lit c
    | .zero lit =>
        if c = '.' then .run (.dot (c :: lit)) stack
        else if c = 'e' || c = 'E' then .run (.e (c :: lit)) stack
        else endNumber stack lit c
    | .dot lit => if isDigit c then .run (.dot0 (c :: lit)) stack else .fail
    | .dot0 lit =>
        if isDigit c then .run (.dot0 (c :: lit)) stack
        else if c = 'e' || c = 'E' then .run (.e (c :: lit)) stack
        else endNumber stack lit c
    | .e lit =>
        if c = '+' || c = '-' then .run (.eSign (c :: lit)) stack
        else if isDigit c then .run (.e0 (c :: lit)) stack
        else .fail
    | .eSign lit => if isDigit c then .run (.e0 (c :: lit)) stack else .fail
    | .e0 lit =>
        if isDigit c then .run (.e0 (c :: lit)) stack
        else endNumber stack lit c
    | .lit rest v =>
        match rest with
        | [] => .fail
        | x :: more =>
            if c = x then
              match more with
              | [] => attach stack v
              | _ => .run (.lit more v) stack
            else .fail
    | .afterKey => stepEndValue s c
    | .afterElem => stepEndValue s c
    | .endTop _ => stepEndValue s c

/-- The scanner run over a text, from the start state. -/
def scanAll (cs : List Char) : Scan := cs.foldl scanStep (.run .beginValue [])

/-- Why `Decoder.Decode` did not deliver a value. -/
inductive ScanFault where
  | syntaxError : ScanFault
  | eof : ScanFault
  | unexpectedEOF : ScanFault
  | readError (e : GoError) : ScanFault

/-- The text of a body as a stream: `data` is what can be read, `readErr` the error that
ends the stream instead of a clean end of file, if any. -/
structure Body where
  data : String
  readErr : Option GoError := none
  deriving DecidableEq, Repr

/-- The function `io.ReadAll` on a body. -/
def ReadAll (b : Body) : Except GoError String :=
  match b.readErr with
  | some e => .error e
  | none => .ok b.data

/-- The first JSON value of a stream, as `Decoder.readValue` delimits it. A container is
complete at its closing bracket; a number, string or literal at top level is complete at
the next byte or at a clean end of file. Nothing after the first value is examined. -/
def Decoder_scan (b : Body) : Except ScanFault JValue :=
  match scanAll b.data.data with
  | .done v => .ok v
  | .fail => .error .syntaxError
  | .run mode stack =>
      let pending : Option JValue :=
        match mode, stack with
        | .endTop v, [] => some v
        | .zero lit, [] => some (.number (String.mk lit.reverse))
        | .int lit, [] => some (.number (String.mk lit.reverse))
        | .dot0 lit, [] => some (.number (String.mk lit.reverse))
        | .e0 lit, [] => some (.number (String.mk lit.reverse))
        | _, _ => none
      match b.readErr, pending with
      | some e, _ => .error (.readError e)
      | none, some v => .ok v
      | none, none =>
          if b.data.data.all isSpace then .error .eof else .error .unexpectedEOF

/-- The Go error of a scan fault: `io.EOF`, `io.ErrUnexpectedEOF`, the read error of the
stream, or a `SyntaxError`, whose text stands for the library's message (its exact wording,
which names the offending byte, is not modelled). -/
def ScanFault.toError : ScanFault → GoError
  | .syntaxError => .New "invalid character in JSON input"
  | .eof => .New "EOF"
  | .unexpectedEOF => .New "unexpected EOF"
  | .readError e => e

/-! ## Typed assignment (decode.go) -/

/-- The error `UnmarshalTypeError`. Only the fact that it is an error matters below: the
text stands for the library's message, whose exact wording (it names the struct field) is
not modelled. -/
def typeError (what target : String) : GoError :=
  .New ("json: cannot unmarshal " ++ what ++ " into Go value of type " ++ target)

/-- The function `saveError`: the first error is kept. -/
def saveError (saved new : error) : error :=
  match saved with
  | some e => some e
  | none => new

/-- The JSON kind named in a type error. -/
def JValue.kind : JValue → String
  | .null => "null"
  | .bool _ => "bool"
  | .number lit => "number " ++ lit
  | .string _ => "string"
  | .array _ => "array"
  | .object _ => "object"

/-- A JSON value assigned to a Go `string`: a string is stored, `null` leaves the target
as it is, anything else is a type error that leaves the target as it is. -/
def storeString (v : JValue) (cur : String) : String × error :=
  match v with
  | .string s => (s, none)
  | .null => (cur, none)
  | other => (cur, some (typeError other.kind "string"))

/-- The value of a run of decimal digits. -/
def digitsVal (cs : List Char) : Option Nat :=
  cs.foldl (fun acc c => acc.bind fun n =>
    if isDigit c then some (n * 10 + (c.toNat - '0'.toNat)) else none) (some 0)

/-- The function `strconv.ParseInt(lit, 10, 64)` on a JSON number literal. -/
def parseInt64 (lit : String) : Option Int :=
  let signed : Option Int :=
    match lit.data with
    | '-' :: ds => (digitsVal ds).map fun n => -(n : Int)
    | ds => (digitsVal ds).map fun n => (n : Int)
  signed.bind fun n => if -(2 ^ 63 : Int) ≤ n ∧ n < (2 ^ 63 : Int) then some n else none

/-- A JSON value assigned to a Go `int` (64 bits). -/
def storeInt (v : JValue) (cur : Int) : Int × error :=
  match v with
  | .number lit =>
      match parseInt64 lit with
      | some n => (n, none)
      | none => (cur, some (typeError ("number " ++ lit) "int"))
  | .null => (cur, none)
  | other => (cur, some (typeError other.kind "int"))

/-- A Go `float64` obtained from a number literal: the literal stands for the value
`strconv.ParseFloat` gives it. -/
structure Float64 where
  lit : String := "0"
  deriving DecidableEq, Repr

/-- A JSON value assigned to a Go `float64`; `outOfRange` is the range check of
`strconv.ParseFloat`. -/
def storeFloat (outOfRange : String → Bool) (v : JValue) (cur : Float64) : Float64 × error :=
  match v with
  | .number lit =>
      if outOfRange lit then (cur, some (typeError ("number " ++ lit) "float64"))
      else ({ lit := lit }, none)
  | .null => (cur, none)
  | other => (cur, some (typeError other.kind "float64"))

/-- Case folding of a key for the field lookup (`foldName`): ASCII letters, and the two
runes outside ASCII whose fold orbit contains an ASCII letter. -/
def foldChar (c : Char) : Char :=
  if 'a'.toNat ≤ c.toNat ∧ c.toNat ≤ 'z'.toNat then Char.ofNat (c.toNat - 32)
  else if c.toNat = 0x17F then 'S'
  else if c.toNat = 0x212A then 'K'
  else c

/-- A JSON key selects the struct field tagged `name`: exactly, or else up to case
folding. The tags of one struct in this package stay different under folding, so the
two lookups agree. -/
def fieldMatches (key name : String) : Bool :=
  key.data.map foldChar = name.data.map foldChar

/-- A JSON value assigned to a struct: the members of an object are assigned in order by
`setField`, `null` leaves the struct as it is, anything else is a type error. -/
def unmarshalStruct {T : Type} (typeName : String)
    (setField : String → JValue → T → T × error) (v : JValue) (t : T) : T × error :=
  match v with
  | .object members =>
      members.foldl (fun (acc : T × error) (m : String × JValue) =>
        let r := setField m.1 m.2 acc.1
        (r.1, saveError acc.2 r.2)) (t, none)
  | .null => (t, none)
  | other => (t, some (typeError other.kind typeName))

/-- The elements of a JSON array assigned in order: element `i` is decoded into the
`i`-th element already in the slice, or into a zero value beyond its length (the slice is
taken to have no spare capacity; every slice of this package starts out nil). -/
def storeElems {T : Type} (elem : JValue → T → T × error) (zero : T) :
    List JValue → List T → List T × error
  | [], _ => ([], none)
  | j :: js, cur =>
      let r := elem j (cur.headD zero)
      let rs := storeElems elem zero js cur.tail
      (r.1 :: rs.1, saveError r.2 rs.2)

/-- A JSON value assigned to a slice: an array is stored element by element and sets the
length, `null` empties the slice, anything else is a type error. -/
def storeSlice {T : Type} (typeName : String) (elem : JValue → T → T × error) (zero : T)
    (v : JValue) (cur : List T) : List T × error :=
  match v with
  | .array items => storeElems elem zero items cur
  | .null => ([], none)
  | other => (cur, some (typeError other.kind typeName))

/-- A Go map with string keys and values, as its entries; keys are kept distinct. -/
abbrev StringMap := List (String × String)

/-- The assignment `m[k] = v`. -/
def StringMap.set (m : StringMap) (k v : String) : StringMap :=
  m.filter (fun p => p.1 ≠ k) ++ [(k, v)]

/-- The members of an object assigned in order to a map of strings: each key gets the
string of its member (a `null` member gives the empty string), and the first type error
is kept. -/
def stringMapFold (members : List (String × JValue)) (acc : StringMap × error) :
    StringMap × error :=
  members.foldl (fun (acc : StringMap × error) (m : String × JValue) =>
    let s := storeString m.2 ""
    (acc.1.set m.1 s.1, saveError acc.2 s.2)) acc

/-- The call `Decode(&errorResponse)` for `var errorResponse map[string]string`: `null`
gives the nil map, an object gives one entry per key (the last member of a key wins, a
`null` member gives the empty string), and any member that is not a string or `null`,
or any other top-level value, is a type error. -/
def Decode_stringMap (b : Body) : Except GoError StringMap :=
  match Decoder_scan b with
  | .error f => .error f.toError
  | .ok .null => .ok []
  | .ok (.object members) =>
      match stringMapFold members ([], none) with
      | (_, some e) => .error e
      | (m, none) => .ok m
  | .ok other => .error (typeError other.kind "map[string]string")

/-- The JSON values that `Decode_stringMap` accepts: `null`, and an object whose member
values are all strings or `null`. -/
def decodesAsStringMap (v : JValue) : Bool :=
  match v with
  | .null => true
  | .object members =>
      members.all fun m =>
        match m.2 with
        | .string _ => true
        | .null => true
        | _ => false
  | _ => false

/-! ## Query parameters (net/url) -/

/-- The type `url.Values`, a non-nil map from a key to its list of values, as its entries;
in a map no key occurs twice, and `Set` leaves its key exactly once. A `url.Values` that
may be nil is an `Option Values`, with `none` for the nil map. -/
abbrev Values := List (String × List String)

/-- The method `Values.Set`: the key gets exactly the one value. -/
def Values.Set (v : Values) (key value : String) : Values :=
  (key, [value]) :: v.filter (fun p => p.1 ≠ key)

/-- All values of a key (`v[key]`), empty if the key is absent. -/
def Values.values (v : Values) (key : String) : List String :=
  (v.lookup key).getD []

/-- The method `Values.Get`: the first value of the key, or the empty string. -/
def Values.Get (v : Values) (key : String) : String :=
  (v.values key).headD ""

/-- The UTF-8 bytes of a character. -/
def utf8Bytes (c : Char) : List Nat :=
  let n := c.toNat
  if n < 0x80 then [n]
  else if n < 0x800 then [0xC0 + n / 0x40, 0x80 + n % 0x40]
  else if n < 0x10000 then [0xE0 + n / 0x1000, 0x80 + n / 0x40 % 0x40, 0x80 + n % 0x40]
  else [0xF0 + n / 0x40000, 0x80 + n / 0x1000 % 0x40, 0x80 + n / 0x40 % 0x40, 0x80 + n % 0x40]

/-- An upper-case hexadecimal digit. -/
def upperhex (d : Nat) : Char :=
  if d < 10 then Char.ofNat ('0'.toNat + d) else Char.ofNat ('A'.toNat + (d - 10))

/-- The bytes `shouldEscape` leaves alone in a query component: letters, digits and
`-`, `_`, `.`, `~`. -/
def unreserved (b : Nat) : Bool :=
  decide (('a'.toNat ≤ b ∧ b ≤ 'z'.toNat) ∨ ('A'.toNat ≤ b ∧ b ≤ 'Z'.toNat) ∨
    ('0'.toNat ≤ b ∧ b ≤ '9'.toNat) ∨ b = '-'.toNat ∨ b = '_'.toNat ∨ b = '.'.toNat ∨
    b = '~'.toNat)

/-- One byte escaped for a query component. -/
def escapeByte (b : Nat) : List Char :=
  if unreserved b then [Char.ofNat b]
  else if b = ' '.toNat then ['+']
  else ['%', upperhex (b / 16), upperhex (b % 16)]

/-- The function `url.QueryEscape`. -/
def QueryEscape (s : String) : String :=
  String.mk (s.data.flatMap fun c => (utf8Bytes c).flatMap escapeByte)

/-- Byte-wise order of two strings (the order of `sort.Strings`); on UTF-8 texts it is
the order of the code points. -/
def strLE : List Char → List Char → Bool
  | [], _ => true
  | _ :: _, [] => false
  | a :: as, b :: bs => a.toNat < b.toNat || (a.toNat = b.toNat && strLE as bs)

/-- Insertion of an entry into a list of entries sorted by key. -/
def insertEntry (e : String × List String) : Values → Values
  | [] => [e]
  | x :: xs => if strLE e.1.data x.1.data then e :: x :: xs else x :: insertEntry e xs

/-- The entries sorted by key. -/
def sortEntries (v : Values) : Values := v.foldr insertEntry []

/-- The `key=value` pairs that `Values.Encode` writes, in its order: keys ascending, the
values of one key in their order. -/
def encodedPairs (v : Values) : List String :=
  (sortEntries v).flatMap fun e => e.2.map fun x => QueryEscape e.1 ++ "=" ++ QueryEscape x

/-- The method `Values.Encode`. -/
def Values.Encode (v : Values) : String := "&".intercalate (encodedPairs v)

/-- The raw query of a URL text, as `url.Parse` splits it off: what follows the first `?`
of the part before the first `#`. -/
def rawQuery (u : String) : String :=
  String.mk (((u.data.takeWhile (· ≠ '#')).dropWhile (· ≠ '?')).drop 1)

/-! ## The JSON text of a batch request (encode.go) -/

/-- A lower-case hexadecimal digit. -/
def lowerhex (d : Nat) : Char :=
  if d < 10 then Char.ofNat ('0'.toNat + d) else Char.ofNat ('a'.toNat + (d - 10))

/-- One character of a string as the encoder writes it, with HTML escaping on (the
default of `json.Encoder`). -/
def jsonEscapeChar (c : Char) : List Char :=
  if c = '"' ∨ c = '\\' then ['\\', c]
  else if c.toNat = 8 then ['\\', 'b']
  else if c.toNat = 12 then ['\\', 'f']
  else if c = '\n' then ['\\', 'n']
  else if c = '\r' then ['\\', 'r']
  else if c = '\t' then ['\\', 't']
  else if c.toNat < 0x20 ∨ c = '<' ∨ c = '>' ∨ c = '&' then
    ['\\', 'u', '0', '0', lowerhex (c.toNat / 16), lowerhex (c.toNat % 16)]
  else if c.toNat = 0x2028 then ['\\', 'u', '2', '0', '2', '8']
  else if c.toNat = 0x2029 then ['\\', 'u', '2', '0', '2', '9']
  else [c]

/-- A Go string as a JSON string literal. -/
def jsonQuote (s : String) : String :=
  "\"" ++ String.mk (s.data.flatMap jsonEscapeChar) ++ "\""

/-- EmailAddress represents one email address unit to be validated in a batch. -/
structure EmailAddress where
  Address : String := ""
  deriving DecidableEq, Repr

/-- BatchValidateRequest represents the structure of the batch validation request. -/
structure BatchValidateRequest where
  Title : String := ""
  Key : String := ""
  EmailBatch : List EmailAddress := []
  deriving DecidableEq, Repr

/-- The text `json.NewEncoder(w).Encode(requestData)` writes for a batch request: the
fields in declaration order under their tags, then a newline. Encoding a struct of
strings cannot fail. -/
def BatchValidateRequest.Encode (r : BatchValidateRequest) : Except GoError String :=
  .ok ("\x7b\"title\":" ++ jsonQuote r.Title ++ ",\"key\":" ++ jsonQuote r.Key ++
    ",\"email_batch\":[" ++
    ",".intercalate
      (r.EmailBatch.map fun a => "\x7b\"address\":" ++ jsonQuote a.Address ++ "\x7d") ++
    "]\x7d\n")

/-! ## HTTP, the environment and the package state -/

/-- An HTTP request as `http.NewRequest` builds it; `URL` is the text it was built from. -/
structure Request where
  Method : String
  URL : String
  ContentType : Option String := none
  Payload : Option String := none
  deriving DecidableEq, Repr

/-- An HTTP response. -/
structure Response where
  StatusCode : Int
  Body : Body
  deriving DecidableEq, Repr

/-- What the package takes from outside.
* `JoinPath`: the function `url.JoinPath`.
* `ParseURL`: the error of `url.Parse`, by which alone `http.NewRequest` fails here.
* `Do`: the method of the current `httpClient`.
* `mapRange`: the order in which `range` visits the entries of a map.
* `floatOutOfRange`: the range check of `strconv.ParseFloat`. -/
structure Env where
  JoinPath : String → String → Except GoError String
  ParseURL : String → Option GoError
  Do : Request → Except GoError Response
  mapRange : StringMap → StringMap
  mapRange_perm : ∀ m, (mapRange m).Perm m
  floatOutOfRange : String → Bool

/-- The package variables `URI` and `API_KEY`, and the requests handed to
`httpClient.Do` so far, oldest first. -/
structure World where
  URI : String
  API_KEY : String
  sent : List Request := []
  deriving DecidableEq, Repr

/-- The endpoint constant `ENDPOINT_VALIDATE`. -/
def ENDPOINT_VALIDATE : String := "/api/v1/validate"
/-- The endpoint constant `ENDPOINT_VALIDATE_BATCH`. -/
def ENDPOINT_VALIDATE_BATCH : String := "/api/v1/validate-batch"
/-- The endpoint constant `ENDPOINT_EMAIL_FINDER`. -/
def ENDPOINT_EMAIL_FINDER : String := "/api/v1/finder"
/-- The endpoint constant `ENDPOINT_ACCOUNT_BALANCE`. -/
def ENDPOINT_ACCOUNT_BALANCE : String := "/api/v1/check-account-balance"
/-- The endpoint constant `ENDPOINT_BATCH_RESULT`. -/
def ENDPOINT_BATCH_RESULT : String := "/api/v1/get-result-bulk-verification-task"
/-- The status constant `STATUS_VALID`. -/
def STATUS_VALID : String := "valid"

/-- Getenv gets an environment variable or returns a default value if it is not set;
`value` is what `os.Getenv(key)` returned. -/
def Getenv (value fallback : String) : String :=
  if value ≠ "" then value else fallback

/-- The package state at start-up, from the values of the environment variables
`EMAIL_VERIFY_URI` and `EMAIL_VERIFY_API_KEY` (empty when unset). -/
def World.init (envURI envKey : String) : World :=
  { URI := Getenv envURI "https://app.emailverify.io", API_KEY := envKey }

/-- GetBaseURI returns the current base URI for the API. -/
def GetBaseURI (w : World) : String := w.URI

/-- SetApiKey sets the API key for all future requests. -/
def SetApiKey (newApiKey : String) (w : World) : World :=
  { w with API_KEY := newApiKey }

/-- SetURI updates the base URI for the API. -/
def SetURI (newURI : String) (w : World) : World :=
  if newURI ≠ "" then { w with URI := newURI } else w

/-- What a call of `PrepareURL` leaves behind: the two results, the caller's parameter
map (a Go map is shared with the caller; `none` is the nil map), the package state, and
the run-time panic that ended the call in place of a return, if there was one (then
nothing is returned, and `url` and `err` hold no result). -/
structure PrepareURLResult where
  url : String
  err : error
  params : Option Values
  world : World
  panic : Option String := none
  deriving DecidableEq, Repr

/-- PrepareURL prepares the URL for a request by attaching the API key and params. The
parameter map may be nil: a nil map can be read, but the assignment in `params.Set`
panics on it. (The endpoint functions pass a map made by `url.Values{}`, which is not
nil.) -/
def PrepareURL (env : Env) (endpoint : String) (params : Option Values) (w : World) :
    PrepareURLResult :=
  if w.API_KEY = "" then
    { url := "", err := some .ErrMissingAPIKey, params := params, world := w }
  else
    match params with
    | none =>
        { url := "", err := none, params := none, world := w,
          panic := some "assignment to entry in nil map" }
    | some params =>
        let params := params.Set "key" w.API_KEY
        match env.JoinPath w.URI endpoint with
        | .error err =>
            { url := "", err := some (.Wrap "failed to join URL paths: " err),
              params := some params, world := w }
        | .ok finalURL =>
            { url := finalURL ++ "?" ++ params.Encode, err := none, params := some params,
              world := w }

/-- ErrorFromResponse parses an error response from the API. -/
def ErrorFromResponse (env : Env) (response : Response) : error :=
  match ReadAll response.Body with
  | .error err => some (.Wrap "failed to read error response: " err)
  | .ok responseBody =>
      match Decode_stringMap { data := responseBody } with
      | .error _ =>
          some (.New ("API error (status " ++ toString response.StatusCode ++ "): " ++
            responseBody))
      | .ok errorResponse =>
          let errorStrings := (env.mapRange errorResponse).map Prod.snd
          some (.New ("API error " ++ toString response.StatusCode ++ ": " ++
            ", ".intercalate errorStrings))

/-- A type that a response is decoded into: `unmarshal` is the typed assignment of a JSON
value to a value of the type. -/
class JSONTarget (T : Type) where
  unmarshal : Env → JValue → T → T × error

/-- The call `json.NewDecoder(body).Decode(&object)`, `object` holding a pointer to a
`T`: the first value of the stream is assigned to the target. -/
def Decode {T : Type} [JSONTarget T] (env : Env) (b : Body) (object : T) : T × error :=
  match Decoder_scan b with
  | .error f => (object, some f.toError)
  | .ok v => JSONTarget.unmarshal env v object

/-- The function `http.NewRequest`. -/
def NewRequest (env : Env) (method url : String) (payload : Option String) :
    Except GoError Request :=
  match env.ParseURL url with
  | some err => .error err
  | none => .ok { Method := method, URL := url, Payload := payload }

/-- What a request executor leaves behind: its error, the caller's target and the state. -/
structure DoResult (T : Type) where
  err : error
  object : T
  world : World
  deriving DecidableEq, Repr

/-- DoGetRequest performs a GET request to the API. The request is recorded in `sent`
when it is handed to `httpClient.Do`. -/
def DoGetRequest {T : Type} [JSONTarget T] (env : Env) (url : String) (object : T)
    (w : World) : DoResult T :=
  match NewRequest env "GET" url none with
  | .error err =>
      { err := some (.Wrap "failed to create request: " err), object := object, world := w }
  | .ok req =>
      let w := { w with sent := w.sent ++ [req] }
      match env.Do req with
      | .error err =>
          { err := some (.Wrap "HTTP request failed: " err), object := object, world := w }
      | .ok response =>
          if response.StatusCode ≠ 200 then
            { err := ErrorFromResponse env response, object := object, world := w }
          else
            match Decode env response.Body object with
            | (object, some err) =>
                { err := some (.Wrap "failed to decode JSON response: " err), object := object,
                  world := w }
            | (object, none) => { err := none, object := object, world := w }

/-- DoPostRequest performs a POST request to the API. -/
def DoPostRequest {T : Type} [JSONTarget T] (env : Env) (url : String) (payload : String)
    (object : T) (w : World) : DoResult T :=
  match NewRequest env "POST" url (some payload) with
  | .error err =>
      { err := some (.Wrap "failed to create request: " err), object := object, world := w }
  | .ok req =>
      let req := { req with ContentType := some "application/json" }
      let w := { w with sent := w.sent ++ [req] }
      match env.Do req with
      | .error err =>
          { err := some (.Wrap "HTTP request failed: " err), object := object, world := w }
      | .ok response =>
          if response.StatusCode ≠ 200 then
            { err := ErrorFromResponse env response, object := object, world := w }
          else
            match Decode env response.Body object with
            | (object, some err) =>
                { err := some (.Wrap "failed to decode JSON response: " err), object := object,
                  world := w }
            | (object, none) => { err := none, object := object, world := w }

/-! ## The endpoint functions -/

/-- What an endpoint function leaves behind: the returned pointer (`none` is `nil`), the
returned error and the state. -/
structure Outcome (T : Type) where
  response : Option T
  err : error
  world : World
  deriving DecidableEq, Repr

/-- ValidateResponse contains the fields that are returned by the API for single email
validation requests. -/
structure ValidateResponse where
  Email : String := ""
  Status : String := ""
  SubStatus : String := ""
  deriving DecidableEq, Repr

/-- The assignment of one JSON member to a `ValidateResponse`, by the field tags. -/
def ValidateResponse.setField (key : String) (v : JValue) (r : ValidateResponse) :
    ValidateResponse × error :=
  if fieldMatches key "email" then
    let s := storeString v r.Email; ({ r with Email := s.1 }, s.2)
  else if fieldMatches key "status" then
    let s := storeString v r.Status; ({ r with Status := s.1 }, s.2)
  else if fieldMatches key "sub_status" then
    let s := storeString v r.SubStatus; ({ r with SubStatus := s.1 }, s.2)
  else (r, none)

instance : JSONTarget ValidateResponse where
  unmarshal _ v r :=
    unmarshalStruct "emailverifygo.ValidateResponse" ValidateResponse.setField v r

/-- IsValid returns true if the email status is "valid". -/
def ValidateResponse.IsValid (v : ValidateResponse) : Bool := v.Status == STATUS_VALID

/-- Validate performs validation on a single email address. -/
def Validate (env : Env) (email : String) (w : World) : Outcome ValidateResponse :=
  if email = "" then
    { response := none, err := some (.New "email cannot be empty"), world := w }
  else
    let params : Values := Values.Set [] "email" email
    let response : ValidateResponse := {}
    let p := PrepareURL env ENDPOINT_VALIDATE (some params) w
    match p.err with
    | some err =>
        { response := some response, err := some (.Wrap "failed to prepare URL: " err),
          world := p.world }
    | none =>
        let r := DoGetRequest env p.url response p.world
        { response := some r.object, err := r.err, world := r.world }

/-- EmailBatchResult represents a single result in the batch validation. -/
structure EmailBatchResult where
  Address : String := ""
  Status : String := ""
  SubStatus : String := ""
  deriving DecidableEq, Repr

/-- The assignment of one JSON member to an `EmailBatchResult`, by the field tags. -/
def EmailBatchResult.setField (key : String) (v : JValue) (r : EmailBatchResult) :
    EmailBatchResult × error :=
  if fieldMatches key "address" then
    let s := storeString v r.Address; ({ r with Address := s.1 }, s.2)
  else if fieldMatches key "status" then
    let s := storeString v r.Status; ({ r with Status := s.1 }, s.2)
  else if fieldMatches key "sub_status" then
    let s := storeString v r.SubStatus; ({ r with SubStatus := s.1 }, s.2)
  else (r, none)

/-- BatchValidateResultsWrapper wraps the email_batch results from the API. -/
structure BatchValidateResultsWrapper where
  EmailBatch : List EmailBatchResult := []
  deriving DecidableEq, Repr

/-- The assignment of one JSON member to a `BatchValidateResultsWrapper`. -/
def BatchValidateResultsWrapper.setField (key : String) (v : JValue)
    (r : BatchValidateResultsWrapper) : BatchValidateResultsWrapper × error :=
  if fieldMatches key "email_batch" then
    let s := storeSlice "[]emailverifygo.EmailBatchResult"
      (unmarshalStruct "emailverifygo.EmailBatchResult" EmailBatchResult.setField) {} v
      r.EmailBatch
    ({ r with EmailBatch := s.1 }, s.2)
  else (r, none)

/-- BatchValidateResponse represents the structure of a batch validate response. -/
structure BatchValidateResponse where
  Status : String := ""
  TaskID : Int := 0
  CountSubmitted : Int := 0
  CountDuplicatesRemoved : Int := 0
  CountRejected : Int := 0
  CountProcessing : Int := 0
  deriving DecidableEq, Repr

/-- The assignment of one JSON member to a `BatchValidateResponse`, by the field tags. -/
def BatchValidateResponse.setField (key : String) (v : JValue) (r : BatchValidateResponse) :
    BatchValidateResponse × error :=
  if fieldMatches key "status" then
    let s := storeString v r.Status; ({ r with Status := s.1 }, s.2)
  else if fieldMatches key "task_id" then
    let s := storeInt v r.TaskID; ({ r with TaskID := s.1 }, s.2)
  else if fieldMatches key "count_submitted" then
    let s := storeInt v r.CountSubmitted; ({ r with CountSubmitted := s.1 }, s.2)
  else if fieldMatches key "count_duplicates_removed" then
    let s := storeInt v r.CountDuplicatesRemoved; ({ r with CountDuplicatesRemoved := s.1 }, s.2)
  else if fieldMatches key "count_rejected_emails" then
    let s := storeInt v r.CountRejected; ({ r with CountRejected := s.1 }, s.2)
  else if fieldMatches key "count_processing" then
    let s := storeInt v r.CountProcessing; ({ r with CountProcessing := s.1 }, s.2)
  else (r, none)

instance : JSONTarget BatchValidateResponse where
  unmarshal _ v r :=
    unmarshalStruct "emailverifygo.BatchValidateResponse" BatchValidateResponse.setField v r

/-- The response of the batch result endpoint. -/
structure BatchResultResponse where
  CountChecked : Int := 0
  CountTotal : Int := 0
  TaskID : Int := 0
  Name : String := ""
  Status : String := ""
  ProgressPercentage : Float64 := {}
  Results : BatchValidateResultsWrapper := {}
  deriving DecidableEq, Repr

/-- The assignment of one JSON member to a `BatchResultResponse`, by the field tags. -/
def BatchResultResponse.setField (env : Env) (key : String) (v : JValue)
    (r : BatchResultResponse) : BatchResultResponse × error :=
  if fieldMatches key "count_checked" then
    let s := storeInt v r.CountChecked; ({ r with CountChecked := s.1 }, s.2)
  else if fieldMatches key "count_total" then
    let s := storeInt v r.CountTotal; ({ r with CountTotal := s.1 }, s.2)
  else if fieldMatches key "task_id" then
    let s := storeInt v r.TaskID; ({ r with TaskID := s.1 }, s.2)
  else if fieldMatches key "name" then
    let s := storeString v r.Name; ({ r with Name := s.1 }, s.2)
  else if fieldMatches key "status" then
    let s := storeString v r.Status; ({ r with Status := s.1 }, s.2)
  else if fieldMatches key "progress_percentage" then
    let s := storeFloat env.floatOutOfRange v r.ProgressPercentage
    ({ r with ProgressPercentage := s.1 }, s.2)
  else if fieldMatches key "results" then
    let s := unmarshalStruct "emailverifygo.BatchValidateResultsWrapper"
      BatchValidateResultsWrapper.setField v r.Results
    ({ r with Results := s.1 }, s.2)
  else (r, none)

instance : JSONTarget BatchResultResponse where
  unmarshal env v r :=
    unmarshalStruct "emailverifygo.BatchResultResponse" (BatchResultResponse.setField env) v r

/-- ValidateBatch submits a batch of emails for verification. -/
def ValidateBatch (env : Env) (title : String) (emails : List String) (w : World) :
    Outcome BatchValidateResponse :=
  let response : BatchValidateResponse := {}
  if title = "" then
    { response := some response, err := some (.New "Title is required"), world := w }
  else if emails.length = 0 then
    { response := some response, err := some (.New "Email list cannot be empty"), world := w }
  else
    let emailBatch : List EmailAddress := emails.map fun email => { Address := email }
    let requestData : BatchValidateRequest :=
      { Title := title, Key := w.API_KEY, EmailBatch := emailBatch }
    match requestData.Encode with
    | .error err =>
        { response := some response, err := some (.Wrap "failed to encode request data: " err),
          world := w }
    | .ok requestBody =>
        match env.JoinPath w.URI ENDPOINT_VALIDATE_BATCH with
        | .error err =>
            { response := some response,
              err := some (.Wrap ("invalid URL (" ++ w.URI ++ ") or endpoint (" ++
                ENDPOINT_VALIDATE_BATCH ++ "): ") err),
              world := w }
        | .ok urlToRequest =>
            let r := DoPostRequest env urlToRequest requestBody response w
            { response := some r.object, err := r.err, world := r.world }

/-- GetBatchResults retrieves the results of a previously submitted batch validation
task. -/
def GetBatchResults (env : Env) (taskID : Int) (w : World) : Outcome BatchResultResponse :=
  let response : BatchResultResponse := {}
  if taskID ≤ 0 then
    { response := some response, err := some (.New "TaskID must be greater than 0"),
      world := w }
  else
    let params : Values := Values.Set [] "task_id" (toString taskID)
    let p := PrepareURL env ENDPOINT_BATCH_RESULT (some params) w
    match p.err with
    | some err =>
        { response := some response, err := some (.Wrap "failed to prepare URL: " err),
          world := p.world }
    | none =>
        let r := DoGetRequest env p.url response p.world
        { response := some r.object, err := r.err, world := r.world }

/-- FindEmailResponse response structure for the Email Finder API. -/
structure FindEmailResponse where
  Email : String := ""
  Status : String := ""
  deriving DecidableEq, Repr

/-- The assignment of one JSON member to a `FindEmailResponse`, by the field tags. -/
def FindEmailResponse.setField (key : String) (v : JValue) (r : FindEmailResponse) :
    FindEmailResponse × error :=
  if fieldMatches key "email" then
    let s := storeString v r.Email; ({ r with Email := s.1 }, s.2)
  else if fieldMatches key "status" then
    let s := storeString v r.Status; ({ r with Status := s.1 }, s.2)
  else (r, none)

instance : JSONTarget FindEmailResponse where
  unmarshal _ v r :=
    unmarshalStruct "emailverifygo.FindEmailResponse" FindEmailResponse.setField v r

/-- IsFound checks if an email was found. -/
def FindEmailResponse.IsFound (f : FindEmailResponse) : Bool := f.Status == "found"

/-- FindEmail uses a combined name parameter and domain to find a valid business email. -/
def FindEmail (env : Env) (name domain : String) (w : World) : Outcome FindEmailResponse :=
  if name = "" ∨ domain = "" then
    { response := none, err := some (.New "Both name and domain are required"), world := w }
  else
    let response : FindEmailResponse := {}
    let request_parameters : Values := (Values.Set [] "name" name).Set "domain" domain
    let p := PrepareURL env ENDPOINT_EMAIL_FINDER (some request_parameters) w
    match p.err with
    | some err =>
        { response := some response, err := some (.Wrap "failed to prepare URL: " err),
          world := p.world }
    | none =>
        let r := DoGetRequest env p.url response p.world
        { response := some r.object, err := r.err, world := r.world }

/-- AccountBalanceResponse represents the response from the account balance API. -/
structure AccountBalanceResponse where
  APIStatus : String := ""
  DailyCreditsLimit : Int := 0
  ReferralCredits : Int := 0
  RemainingCredits : Int := 0
  RemainingDailyCredits : Int := 0
  BonusCredits : Int := 0
  deriving DecidableEq, Repr

/-- The assignment of one JSON member to an `AccountBalanceResponse`, by the field tags. -/
def AccountBalanceResponse.setField (key : String) (v : JValue) (r : AccountBalanceResponse) :
    AccountBalanceResponse × error :=
  if fieldMatches key "api_status" then
    let s := storeString v r.APIStatus; ({ r with APIStatus := s.1 }, s.2)
  else if fieldMatches key "daily_credits_limit" then
    let s := storeInt v r.DailyCreditsLimit; ({ r with DailyCreditsLimit := s.1 }, s.2)
  else if fieldMatches key "referral_credits" then
    let s := storeInt v r.ReferralCredits; ({ r with ReferralCredits := s.1 }, s.2)
  else if fieldMatches key "remaining_credits" then
    let s := storeInt v r.RemainingCredits; ({ r with RemainingCredits := s.1 }, s.2)
  else if fieldMatches key "remaining_daily_credits" then
    let s := storeInt v r.RemainingDailyCredits; ({ r with RemainingDailyCredits := s.1 }, s.2)
  else if fieldMatches key "bonus_credits" then
    let s := storeInt v r.BonusCredits; ({ r with BonusCredits := s.1 }, s.2)
  else (r, none)

instance : JSONTarget AccountBalanceResponse where
  unmarshal _ v r :=
    unmarshalStruct "emailverifygo.AccountBalanceResponse" AccountBalanceResponse.setField v r

/-- GetAccountBalance gets the current account balance and credits information. -/
def GetAccountBalance (env : Env) (w : World) : Outcome AccountBalanceResponse :=
  let response : AccountBalanceResponse := {}
  let p := PrepareURL env ENDPOINT_ACCOUNT_BALANCE (some []) w
  match p.err with
  | some error_ => { response := some response, err := some error_, world := p.world }
  | none =>
      let r := DoGetRequest env p.url response p.world
      { response := some r.object, err := r.err, world := r.world }

/-! ## A joining function and environments for the worked examples -/

/-- A text without its trailing slashes. -/
def trimRightSlash (s : List Char) : List Char := (s.reverse.dropWhile (· = '/')).reverse

/-- Modelled from the spec: `url.JoinPath` is library code outside the source files; §4.1
says that it "joins base URI and endpoint path (normalizing exactly one slash between
them)". The model drops the slashes at the end of the base and at the start of the
element and puts one slash between the two; it is the spec's reading only (it does not
clean dot segments and knows nothing of queries or fragments), and agrees with the library
on a base of the form `scheme://host` followed by plain segments and an element of plain
segments. -/
def specJoinPath (base elem : String) : Except GoError String :=
  .ok (String.mk (trimRightSlash base.data ++ '/' :: elem.data.dropWhile (· = '/')))

/-- An environment for worked examples: `specJoinPath` joins, every URL text parses, maps
are visited in the order of their entries, and the transport is `answer`. -/
def exampleEnv (answer : Request → Except GoError Response) : Env :=
  { JoinPath := specJoinPath
    ParseURL := fun _ => none
    Do := answer
    mapRange := id
    mapRange_perm := fun _ => List.Perm.refl _
    floatOutOfRange := fun _ => false }

/-- An environment in which no URL can be joined (a malformed base URI). -/
def brokenJoinEnv (answer : Request → Except GoError Response) : Env :=
  { exampleEnv answer with JoinPath := fun _ _ => .error (.New "parse: invalid URL") }

/-- A transport that answers every request with the given status and body. -/
def answerWith (status : Int) (body : String) : Request → Except GoError Response :=
  fun _ => .ok { StatusCode := status, Body := { data := body } }

/-- The package state of the tests: the default base URI and the given API key. -/
def testWorld (key : String) : World := World.init "" key

/-! ## Notions used in the statements -/

/-- The step of the fold in `unmarshalStruct`. -/
def memberStep {T : Type} (setField : String → JValue → T → T × error) (acc : T × error)
    (m : String × JValue) : T × error :=
  ((setField m.1 m.2 acc.1).1, saveError acc.2 (setField m.1 m.2 acc.1).2)

/-- What the members of an object give a string field tagged `tag`: no member selects the
field and it keeps its value `cur`, or exactly one member selects it and is the string
`target`. -/
def FieldGiven (tag : String) (members : List (String × JValue)) (cur target : String) : Prop :=
  (members.filter (fun m => fieldMatches m.1 tag) = [] ∧ target = cur)
  ∨ ∃ k, members.filter (fun m => fieldMatches m.1 tag) = [(k, JValue.string target)]

/-- Decoding an object never changes the field seen by `view` when no member selects the
tag of that field. -/
def KeepsField {T α : Type} (setField : String → JValue → T → T × error) (tag : String)
    (view : T → α) : Prop :=
  ∀ (members : List (String × JValue)) (t : T),
    (∀ m ∈ members, fieldMatches m.1 tag = false) →
      view (unmarshalStruct "" setField (.object members) t).1 = view t

/-- The JSON tags of the fields of `ValidateResponse`. -/
def ValidateResponse.tags : List String :=
  ["email", "status", "sub_status"]

/-- The JSON tags of the fields of `BatchValidateResponse`. -/
def BatchValidateResponse.tags : List String :=
  ["status", "task_id", "count_submitted", "count_duplicates_removed", "count_rejected_emails",
   "count_processing"]

/-- The JSON tags of the fields of `BatchResultResponse`. -/
def BatchResultResponse.tags : List String :=
  ["count_checked", "count_total", "task_id", "name", "status", "progress_percentage",
   "results"]

/-- The JSON tags of the fields of `FindEmailResponse`. -/
def FindEmailResponse.tags : List String :=
  ["email", "status"]

/-- The JSON tags of the fields of `AccountBalanceResponse`. -/
def AccountBalanceResponse.tags : List String :=
  ["api_status", "daily_credits_limit", "referral_credits", "remaining_credits",
   "remaining_daily_credits", "bonus_credits"]

/-- The JSON tags of the fields of `EmailBatchResult`. -/
def EmailBatchResult.tags : List String :=
  ["address", "status", "sub_status"]

/-- The JSON tags of the fields of `BatchValidateResultsWrapper`. -/
def BatchValidateResultsWrapper.tags : List String :=
  ["email_batch"]

/-! ## What the response types take without a type error -/

/-- The JSON values a Go `string` takes without a type error: a string, and `null`. -/
def fitsString : JValue → Bool
  | .string _ => true
  | .null => true
  | _ => false

/-- The JSON values a Go `int` takes without a type error: a number whose literal is a
64-bit integer, and `null`. -/
def fitsInt : JValue → Bool
  | .number lit => (parseInt64 lit).isSome
  | .null => true
  | _ => false

/-- The JSON values a Go `float64` takes without a type error: a number in range, and
`null`. -/
def fitsFloat (outOfRange : String → Bool) : JValue → Bool
  | .number lit => !outOfRange lit
  | .null => true
  | _ => false

/-- The JSON values a slice takes without a type error: an array whose elements all fit
the element type, and `null`. -/
def fitsSlice (elem : JValue → Bool) : JValue → Bool
  | .array items => items.all elem
  | .null => true
  | _ => false

/-- A member fits a struct with the given fields (JSON tag and the values the field's type
takes): its value fits every field its key selects. A key that selects no field fits. -/
def fitsFields (fields : List (String × (JValue → Bool))) (m : String × JValue) : Bool :=
  fields.all fun f => !fieldMatches m.1 f.1 || f.2 m.2

/-- The JSON values a struct with the given fields takes without a type error: an object
whose members all fit, and `null`. -/
def fitsStruct (fields : List (String × (JValue → Bool))) : JValue → Bool
  | .object members => members.all (fitsFields fields)
  | .null => true
  | _ => false

/-- The fields of `ValidateResponse`, as declared: tag and type. -/
def ValidateResponse.fields : List (String × (JValue → Bool)) :=
  [("email", fitsString), ("status", fitsString), ("sub_status", fitsString)]

/-- The fields of `EmailBatchResult`, as declared: tag and type. -/
def EmailBatchResult.fields : List (String × (JValue → Bool)) :=
  [("address", fitsString), ("status", fitsString), ("sub_status", fitsString)]

/-- The field of `BatchValidateResultsWrapper`, as declared: a slice of
`EmailBatchResult`. -/
def BatchValidateResultsWrapper.fields : List (String × (JValue → Bool)) :=
  [("email_batch", fitsSlice (fitsStruct EmailBatchResult.fields))]

/-- The fields of `BatchValidateResponse`, as declared: tag and type. -/
def BatchValidateResponse.fields : List (String × (JValue → Bool)) :=
  [("status", fitsString), ("task_id", fitsInt), ("count_submitted", fitsInt),
   ("count_duplicates_removed", fitsInt), ("count_rejected_emails", fitsInt),
   ("count_processing", fitsInt)]

/-- The fields of `BatchResultResponse`, as declared: tag and type. -/
def BatchResultResponse.fields (env : Env) : List (String × (JValue → Bool)) :=
  [("count_checked", fitsInt), ("count_total", fitsInt), ("task_id", fitsInt),
   ("name", fitsString), ("status", fitsString),
   ("progress_percentage", fitsFloat env.floatOutOfRange),
   ("results", fitsStruct BatchValidateResultsWrapper.fields)]

/-- The fields of `FindEmailResponse`, as declared: tag and type. -/
def FindEmailResponse.fields : List (String × (JValue → Bool)) :=
  [("email", fitsString), ("status", fitsString)]

/-- The fields of `AccountBalanceResponse`, as declared: tag and type. -/
def AccountBalanceResponse.fields : List (String × (JValue → Bool)) :=
  [("api_status", fitsString), ("daily_credits_limit", fitsInt), ("referral_credits", fitsInt),
   ("remaining_credits", fitsInt), ("remaining_daily_credits", fitsInt),
   ("bonus_credits", fitsInt)]

/-! ## Loading the environment, sequences of calls -/

/-- LoadEnvFromFile loads environment variables from a .env file and sets the API key and
URI. `loaded` tells whether `godotenv.Load(".env")` succeeded; `envKey` and `envURI` are
what `os.Getenv` then returns for `EMAIL_VERIFY_API_KEY` and `EMAIL_VERIFY_URI`. -/
def LoadEnvFromFile (loaded : Bool) (envKey envURI : String) (w : World) : Bool × World :=
  if loaded = false then (false, w)
  else (true, SetURI envURI (SetApiKey envKey w))

/-- A call of an exported function of the package. -/
inductive Call where
  | SetApiKey (newApiKey : String) : Call
  | SetURI (newURI : String) : Call
  | LoadEnvFromFile (loaded : Bool) (envKey envURI : String) : Call
  | PrepareURL (endpoint : String) (params : Option Values) : Call
  | Validate (email : String) : Call
  | ValidateBatch (title : String) (emails : List String) : Call
  | GetBatchResults (taskID : Int) : Call
  | FindEmail (name domain : String) : Call
  | GetAccountBalance : Call

/-- The package state after a call. -/
def Call.run (env : Env) (c : Call) (w : World) : World :=
  match c with
  | .SetApiKey newApiKey => EmailVerify.SetApiKey newApiKey w
  | .SetURI newURI => EmailVerify.SetURI newURI w
  | .LoadEnvFromFile loaded envKey envURI => (EmailVerify.LoadEnvFromFile loaded envKey envURI w).2
  | .PrepareURL endpoint params => (EmailVerify.PrepareURL env endpoint params w).world
  | .Validate email => (EmailVerify.Validate env email w).world
  | .ValidateBatch title emails => (EmailVerify.ValidateBatch env title emails w).world
  | .GetBatchResults taskID => (EmailVerify.GetBatchResults env taskID w).world
  | .FindEmail name domain => (EmailVerify.FindEmail env name domain w).world
  | .GetAccountBalance => (EmailVerify.GetAccountBalance env w).world

/-- The package state after a sequence of calls, starting from the state at start-up. -/
def runCalls (env : Env) (envURI envKey : String) (calls : List Call) : World :=
  calls.foldl (fun w c => c.run env w) (World.init envURI envKey)

/-! ## Batch results: entries and the mock body of the tests -/

/-- A JSON value is the entry of a result array that stands for `r`: an object with exactly
one member for each of the fields address, status and sub_status, each the string that
`r` holds. -/
def EntryOf (v : JValue) (r : EmailBatchResult) : Prop :=
  ∃ ems, v = .object ems
    ∧ (∃ k, ems.filter (fun m => fieldMatches m.1 "address") = [(k, JValue.string r.Address)])
    ∧ (∃ k, ems.filter (fun m => fieldMatches m.1 "status") = [(k, JValue.string r.Status)])
    ∧ (∃ k, ems.filter (fun m => fieldMatches m.1 "sub_status") =
        [(k, JValue.string r.SubStatus)])

/-- The mock body `MOCK_BATCH_RESULTS_RESPONSE` of the tests. -/
def MOCK_BATCH_RESULTS_RESPONSE : String :=
  "\x7b\n\t\t\"count_checked\": 3,\n\t\t\"count_total\": 3,\n\t\t\"name\": \"Test Batch\",\n\t\t\"progress_percentage\": 100,\n\t\t\"task_id\": 12345,\n\t\t\"status\": \"verified\",\n\t\t\"results\": \x7b\n\t\t\t\"email_batch\": [\n\t\t\t\t\x7b\n\t\t\t\t\t\"address\": \"valid@example.com\",\n\t\t\t\t\t\"status\": \"valid\",\n\t\t\t\t\t\"sub_status\": \"permitted\"\n\t\t\t\t\x7d,\n\t\t\t\t\x7b\n\t\t\t\t\t\"address\": \"invalid@example.com\",\n\t\t\t\t\t\"status\": \"invalid\",\n\t\t\t\t\t\"sub_status\": \"mailbox_not_found\"\n\t\t\t\t\x7d,\n\t\t\t\t\x7b\n\t\t\t\t\t\"address\": \"test@example.com\",\n\t\t\t\t\t\"status\": \"invalid\", \n\t\t\t\t\t\"sub_status\": \"no_dns_entries\"\n\t\t\t\t\x7d\n\t\t\t]\n\t\t\x7d\n\t\x7d"

/-! ## Helper lemmas -/

theorem Contains_append_right (s t sub : String) (h : Contains s sub) :
    Contains (s ++ t) sub := by
  unfold Contains at *
  obtain ⟨a, b, hab⟩ := h
  exact ⟨a, b ++ t.data, by simp [String.data_append, ← hab]⟩

theorem Contains_append_left (s t sub : String) (h : Contains t sub) :
    Contains (s ++ t) sub := by
  unfold Contains at *
  obtain ⟨a, b, hab⟩ := h
  exact ⟨s.data ++ a, b, by simp [String.data_append, ← hab]⟩

theorem Contains_self (s : String) : Contains s s := List.infix_refl _

theorem values_Set_same (v : Values) (key value : String) :
    (v.Set key value).values key = [value] := by
  simp [Values.Set, Values.values, List.lookup]

theorem lookup_filter_ne (v : Values) (key k : String) (hk : k ≠ key) :
    (v.filter (fun p => p.1 ≠ key)).lookup k = v.lookup k := by
  induction v with
  | nil => rfl
  | cons x xs ih =>
      obtain ⟨a, b⟩ := x
      by_cases hak : a = key
      · have hka : (k == a) = false := by
          rw [hak]; exact beq_false_of_ne hk
        have hf : ((a, b) :: xs).filter (fun p => p.1 ≠ key) =
            xs.filter (fun p => p.1 ≠ key) := by
          rw [List.filter_cons_of_neg]; simpa using hak
        rw [hf, ih]
        simp only [List.lookup, hka]
      · have hf : ((a, b) :: xs).filter (fun p => p.1 ≠ key) =
            (a, b) :: xs.filter (fun p => p.1 ≠ key) := by
          rw [List.filter_cons_of_pos]; simpa using hak
        rw [hf]
        cases hka : k == a with
        | true => simp only [List.lookup, hka]
        | false => simp only [List.lookup, hka, ih]

theorem values_Set_other (v : Values) (key value k : String) (hk : k ≠ key) :
    (v.Set key value).values k = v.values k := by
  have hkk : (k == key) = false := beq_false_of_ne hk
  unfold Values.Set Values.values
  simp only [List.lookup, hkk]
  rw [lookup_filter_ne v key k hk]

theorem trimRightSlash_of_not_suffix (s : List Char) (h : s.getLast? ≠ some '/') :
    trimRightSlash s = s := by
  unfold trimRightSlash
  cases hs : s.reverse with
  | nil => simp [List.reverse_eq_nil_iff.mp hs]
  | cons c cs =>
      have hc : c ≠ '/' := by
        intro hc
        apply h
        rw [List.getLast?_eq_head?_reverse, hs, hc]
        rfl
      have : (c :: cs).dropWhile (· = '/') = c :: cs := by simp [List.dropWhile, hc]
      rw [this, ← hs, List.reverse_reverse]

theorem trimRightSlash_append_slash (s : List Char) :
    trimRightSlash (s ++ ['/']) = trimRightSlash s := by
  simp [trimRightSlash, List.dropWhile]

theorem dropWhile_slash_of_not_prefix (s : List Char) (h : s.head? ≠ some '/') :
    s.dropWhile (· = '/') = s := by
  cases s with
  | nil => rfl
  | cons c cs =>
      have hc : c ≠ '/' := by intro hc; apply h; simp [hc]
      simp [List.dropWhile, hc]

/-- The model of the join puts exactly one slash between a base without a final slash and
an element without an initial slash, and a final slash of the base or an initial slash of
the element changes nothing. -/
theorem specJoinPath_one_slash (base ep b e : String)
    (hbase : base.data.getLast? ≠ some '/') (hep : ep.data.head? ≠ some '/')
    (hb : b = base ∨ b = base ++ "/") (he : e = ep ∨ e = "/" ++ ep) :
    specJoinPath b e = .ok (base ++ "/" ++ ep) := by
  have h1 : trimRightSlash b.data = base.data := by
    rcases hb with rfl | rfl
    · exact trimRightSlash_of_not_suffix _ hbase
    · rw [String.data_append]
      exact (trimRightSlash_append_slash _).trans (trimRightSlash_of_not_suffix _ hbase)
  have h2 : e.data.dropWhile (· = '/') = ep.data := by
    rcases he with rfl | rfl
    · exact dropWhile_slash_of_not_prefix _ hep
    · rw [String.data_append]
      show List.dropWhile (· = '/') ('/' :: ep.data) = ep.data
      simp [List.dropWhile, dropWhile_slash_of_not_prefix _ hep]
  unfold specJoinPath
  rw [h1, h2]
  congr 1
  apply String.ext
  simp [String.data_append]

theorem Contains_intercalate_go (sep x : String) (rest : List String) (acc : String)
    (h : Contains acc x ∨ x ∈ rest) : Contains (String.intercalate.go acc sep rest) x := by
  induction rest generalizing acc with
  | nil =>
      rcases h with h | h
      · exact h
      · cases h
  | cons a as ih =>
      show Contains (String.intercalate.go (acc ++ sep ++ a) sep as) x
      apply ih
      rcases h with h | h
      · exact Or.inl (Contains_append_right _ _ _ (Contains_append_right _ _ _ h))
      · rcases List.mem_cons.mp h with h | h
        · exact Or.inl (Contains_append_left _ _ _ (h ▸ Contains_self x))
        · exact Or.inr h

theorem Contains_intercalate (sep x : String) (xs : List String) (h : x ∈ xs) :
    Contains (sep.intercalate xs) x := by
  cases xs with
  | nil => cases h
  | cons a as =>
      show Contains (String.intercalate.go a sep as) x
      apply Contains_intercalate_go
      rcases List.mem_cons.mp h with h | h
      · exact Or.inl (h ▸ Contains_self x)
      · exact Or.inr h

theorem StringMap.set_keys_nodup (m : StringMap) (k v : String)
    (h : (m.map Prod.fst).Nodup) : ((m.set k v).map Prod.fst).Nodup := by
  unfold StringMap.set
  rw [List.map_append, List.nodup_append]
  refine ⟨(List.filter_sublist m).map Prod.fst |>.nodup h, by simp, ?_⟩
  intro a ha hb
  simp only [List.map_cons, List.map_nil, List.mem_singleton] at hb
  subst hb
  obtain ⟨p, hp, rfl⟩ := List.mem_map.mp ha
  simpa using (List.mem_filter.mp hp).2

theorem stringMapFold_keys_nodup (members : List (String × JValue)) (acc : StringMap × error)
    (h : (acc.1.map Prod.fst).Nodup) : ((stringMapFold members acc).1.map Prod.fst).Nodup := by
  induction members generalizing acc with
  | nil => exact h
  | cons m ms ih =>
      show ((stringMapFold ms _).1.map Prod.fst).Nodup
      exact ih _ (StringMap.set_keys_nodup _ _ _ h)

theorem stringMapFold_error (members : List (String × JValue)) (acc : StringMap × error) :
    (stringMapFold members acc).2 = none ↔
      acc.2 = none ∧ decodesAsStringMap (.object members) = true := by
  induction members generalizing acc with
  | nil => simp [stringMapFold, decodesAsStringMap]
  | cons m ms ih =>
      show (stringMapFold ms _).2 = none ↔ _
      rw [ih]
      obtain ⟨k, v⟩ := m
      obtain ⟨a, e⟩ := acc
      cases e <;> cases v <;>
        simp [decodesAsStringMap, storeString, saveError, List.all_cons]

theorem Decode_stringMap_keys_nodup (b : Body) (m : StringMap)
    (h : Decode_stringMap b = .ok m) : (m.map Prod.fst).Nodup := by
  unfold Decode_stringMap at h
  split at h
  · cases h
  · cases h; simp
  · rename_i members _
    have hn := stringMapFold_keys_nodup members (([] : StringMap), (none : error)) (by simp)
    split at h
    · cases h
    · rename_i hfold
      cases h
      rw [hfold] at hn
      exact hn
  · cases h

theorem Decode_stringMap_error_of_not_accepted (b : Body)
    (h : ∀ v, Decoder_scan b = .ok v → decodesAsStringMap v = false) :
    ∃ e, Decode_stringMap b = .error e := by
  unfold Decode_stringMap
  split
  · exact ⟨_, rfl⟩
  · rename_i hv
    have := h _ hv
    simp [decodesAsStringMap] at this
  · rename_i members hv
    have hf := h _ hv
    have he := (stringMapFold_error members (([] : StringMap), (none : error))).not.mpr
      (by simp [hf])
    split
    · exact ⟨_, rfl⟩
    · rename_i hfold
      rw [hfold] at he
      exact absurd rfl he
  · exact ⟨_, rfl⟩

theorem StringMap.set_of_not_mem (m : StringMap) (k v : String)
    (h : k ∉ m.map Prod.fst) : m.set k v = m ++ [(k, v)] := by
  unfold StringMap.set
  congr 1
  apply List.filter_eq_self.mpr
  intro p hp
  have : p.1 ≠ k := fun hk => h (hk ▸ List.mem_map_of_mem Prod.fst hp)
  simpa using this

theorem stringMapFold_of_strings (pairs : List (String × String)) (acc : StringMap × error)
    (hdisj : ∀ p ∈ pairs, p.1 ∉ acc.1.map Prod.fst) (hnodup : (pairs.map Prod.fst).Nodup) :
    stringMapFold (pairs.map fun p => (p.1, JValue.string p.2)) acc =
      (acc.1 ++ pairs, acc.2) := by
  induction pairs generalizing acc with
  | nil => simp [stringMapFold]
  | cons p ps ih =>
      obtain ⟨k, x⟩ := p
      rw [List.map_cons, List.nodup_cons] at hnodup
      have hk : k ∉ acc.1.map Prod.fst := hdisj (k, x) (List.mem_cons_self _ _)
      show stringMapFold (ps.map fun p => (p.1, JValue.string p.2))
        (acc.1.set k x, saveError acc.2 none) = _
      rw [StringMap.set_of_not_mem _ _ _ hk, ih _ _ hnodup.2]
      · cases h : acc.2 <;> simp [saveError, h]
      · intro q hq hmem
        simp only [List.map_append, List.map_cons, List.map_nil, List.mem_append,
          List.mem_singleton] at hmem
        rcases hmem with hmem | hmem
        · exact hdisj q (List.mem_cons_of_mem _ hq) hmem
        · have hq2 : q.1 ∈ ps.map Prod.fst := List.mem_map_of_mem Prod.fst hq
          rw [hmem] at hq2
          exact hnodup.1 hq2

theorem Decode_stringMap_of_strings (b : Body) (pairs : List (String × String))
    (hscan : Decoder_scan b = .ok (.object (pairs.map fun p => (p.1, JValue.string p.2))))
    (hnodup : (pairs.map Prod.fst).Nodup) : Decode_stringMap b = .ok pairs := by
  unfold Decode_stringMap
  rw [hscan]
  simp only []
  rw [stringMapFold_of_strings pairs _ (by simp) hnodup]
  simp

theorem scanStep_done_foldl (v : JValue) (t : List Char) :
    t.foldl scanStep (.done v) = .done v := by
  induction t with
  | nil => rfl
  | cons c cs ih => exact ih

theorem scanAll_append_of_done (cs t : List Char) (v : JValue) (h : scanAll cs = .done v) :
    scanAll (cs ++ t) = .done v := by
  unfold scanAll at *
  rw [List.foldl_append, h, scanStep_done_foldl]

theorem Decode_stringMap_append_of_done (body trailing : String) (v : JValue)
    (h : scanAll body.data = .done v) :
    Decode_stringMap { data := body ++ trailing } = Decode_stringMap { data := body } := by
  have h2 := scanAll_append_of_done body.data trailing.data v h
  have e1 : Decoder_scan { data := body ++ trailing } = .ok v := by
    simp [Decoder_scan, String.data_append, h2]
  have e2 : Decoder_scan { data := body } = .ok v := by
    simp [Decoder_scan, h]
  simp only [Decode_stringMap, e1, e2]

theorem unmarshalStruct_object {T : Type} (typeName : String)
    (setField : String → JValue → T → T × error) (members : List (String × JValue)) (t : T) :
    unmarshalStruct typeName setField (.object members) t =
      members.foldl (memberStep setField) (t, none) := rfl

theorem fieldMatches_other (k a b : String) (hab : a.data.map foldChar ≠ b.data.map foldChar)
    (h : fieldMatches k a = true) : fieldMatches k b = false := by
  unfold fieldMatches at *
  simp only [decide_eq_true_eq, decide_eq_false_iff_not] at *
  rw [h]
  exact hab

theorem foldl_memberStep_view {T α : Type} (setField : String → JValue → T → T × error)
    (tag : String) (view : T → α)
    (hmiss : ∀ k v t, fieldMatches k tag = false → view (setField k v t).1 = view t)
    (members : List (String × JValue)) (acc : T × error)
    (h : ∀ m ∈ members, fieldMatches m.1 tag = false) :
    view (members.foldl (memberStep setField) acc).1 = view acc.1 := by
  induction members generalizing acc with
  | nil => rfl
  | cons m ms ih =>
      rw [List.foldl_cons, ih _ (fun x hx => h x (List.mem_cons_of_mem _ hx))]
      exact hmiss _ _ _ (h m (List.mem_cons_self _ _))

theorem KeepsField_of_step {T α : Type} (setField : String → JValue → T → T × error)
    (tag : String) (view : T → α)
    (hmiss : ∀ k v t, fieldMatches k tag = false → view (setField k v t).1 = view t) :
    KeepsField setField tag view := by
  intro members t h
  rw [unmarshalStruct_object]
  exact foldl_memberStep_view setField tag view hmiss members _ h

theorem foldl_memberStep_string {T : Type} (setField : String → JValue → T → T × error)
    (tag : String) (view : T → String)
    (hmiss : ∀ k v t, fieldMatches k tag = false → view (setField k v t).1 = view t)
    (hhit : ∀ k v t, fieldMatches k tag = true →
      view (setField k v t).1 = (storeString v (view t)).1)
    (members : List (String × JValue)) (acc : T × error) (target : String)
    (h : FieldGiven tag members (view acc.1) target) :
    view (members.foldl (memberStep setField) acc).1 = target := by
  induction members generalizing acc with
  | nil =>
      rcases h with ⟨_, h⟩ | ⟨k, h⟩
      · exact h.symm
      · cases h
  | cons m ms ih =>
      rw [List.foldl_cons]
      cases hm : fieldMatches m.1 tag with
      | false =>
          apply ih
          have hv : view (memberStep setField acc m).1 = view acc.1 := hmiss _ _ _ hm
          rw [hv]
          unfold FieldGiven at h ⊢
          rw [List.filter_cons_of_neg (by simp [hm])] at h
          exact h
      | true =>
          unfold FieldGiven at h
          rw [List.filter_cons_of_pos (by simp [hm])] at h
          rcases h with ⟨h, _⟩ | ⟨k, h⟩
          · cases h
          · have h1 : m = (k, JValue.string target) := (List.cons.inj h).1
            have h2 := (List.cons.inj h).2
            apply ih
            refine Or.inl ⟨h2, ?_⟩
            have hv : view (memberStep setField acc m).1 =
                (storeString m.2 (view acc.1)).1 := hhit _ _ _ hm
            rw [hv, h1]
            rfl

theorem saveError_none (e : error) : saveError none e = e := rfl

theorem foldl_memberStep_no_error {T : Type} (setField : String → JValue → T → T × error)
    (members : List (String × JValue)) (t : T)
    (h : ∀ m ∈ members, ∀ t, (setField m.1 m.2 t).2 = none) :
    (members.foldl (memberStep setField) (t, none)).2 = none := by
  induction members generalizing t with
  | nil => rfl
  | cons m ms ih =>
      rw [List.foldl_cons]
      have hm := h m (List.mem_cons_self _ _) t
      have : memberStep setField (t, none) m = ((setField m.1 m.2 t).1, none) := by
        simp [memberStep, saveError_none, hm]
      rw [this]
      exact ih _ (fun x hx => h x (List.mem_cons_of_mem _ hx))

theorem mem_singleton_filter {m : String × JValue} {members : List (String × JValue)}
    {tag k : String} {x : JValue} (hm : m ∈ members) (hsel : fieldMatches m.1 tag = true)
    (hf : members.filter (fun m => fieldMatches m.1 tag) = [(k, x)]) : m.2 = x := by
  have : m ∈ members.filter (fun m => fieldMatches m.1 tag) :=
    List.mem_filter.mpr ⟨hm, hsel⟩
  rw [hf] at this
  rw [List.mem_singleton.mp this]

theorem ValidateResponse.setField_eq (key : String) (v : JValue) (r : ValidateResponse) :
    (fieldMatches key "email" = false → (ValidateResponse.setField key v r).1.Email = r.Email)
    ∧ (fieldMatches key "status" = false →
        (ValidateResponse.setField key v r).1.Status = r.Status)
    ∧ (fieldMatches key "sub_status" = false →
        (ValidateResponse.setField key v r).1.SubStatus = r.SubStatus)
    ∧ (fieldMatches key "email" = true →
        (ValidateResponse.setField key v r).1.Email = (storeString v r.Email).1)
    ∧ (fieldMatches key "status" = true →
        (ValidateResponse.setField key v r).1.Status = (storeString v r.Status).1)
    ∧ (fieldMatches key "sub_status" = true →
        (ValidateResponse.setField key v r).1.SubStatus = (storeString v r.SubStatus).1)
    ∧ ((∃ s, v = .string s) ∨ (fieldMatches key "email" = false
          ∧ fieldMatches key "status" = false ∧ fieldMatches key "sub_status" = false) →
        (ValidateResponse.setField key v r).2 = none) := by
  have x1 := fieldMatches_other key "email" "status" (by decide)
  have x2 := fieldMatches_other key "email" "sub_status" (by decide)
  have x3 := fieldMatches_other key "status" "sub_status" (by decide)
  unfold ValidateResponse.setField
  cases h1 : fieldMatches key "email" <;> cases h2 : fieldMatches key "status" <;>
    cases h3 : fieldMatches key "sub_status" <;>
    simp_all [storeString]

/-- The object of a well-formed validation answer assigned to a `ValidateResponse`. -/
theorem ValidateResponse.unmarshal_given (members : List (String × JValue))
    (r : ValidateResponse) (e s ss : String)
    (hE : FieldGiven "email" members r.Email e) (hS : FieldGiven "status" members r.Status s)
    (hSS : FieldGiven "sub_status" members r.SubStatus ss)
    (hstr : ∀ m ∈ members, (∃ x, m.2 = .string x) ∨ (fieldMatches m.1 "email" = false
          ∧ fieldMatches m.1 "status" = false ∧ fieldMatches m.1 "sub_status" = false)) :
    unmarshalStruct "emailverifygo.ValidateResponse" ValidateResponse.setField
        (.object members) r = ({ Email := e, Status := s, SubStatus := ss }, none) := by
  rw [unmarshalStruct_object]
  have h1 := foldl_memberStep_string ValidateResponse.setField "email" (·.Email)
    (fun k v t => (ValidateResponse.setField_eq k v t).1)
    (fun k v t => (ValidateResponse.setField_eq k v t).2.2.2.1) members (r, none) e hE
  have h2 := foldl_memberStep_string ValidateResponse.setField "status" (·.Status)
    (fun k v t => (ValidateResponse.setField_eq k v t).2.1)
    (fun k v t => (ValidateResponse.setField_eq k v t).2.2.2.2.1) members (r, none) s hS
  have h3 := foldl_memberStep_string ValidateResponse.setField "sub_status" (·.SubStatus)
    (fun k v t => (ValidateResponse.setField_eq k v t).2.2.1)
    (fun k v t => (ValidateResponse.setField_eq k v t).2.2.2.2.2.1) members (r, none) ss hSS
  have h4 := foldl_memberStep_no_error ValidateResponse.setField members r
    (fun m hm t => (ValidateResponse.setField_eq m.1 m.2 t).2.2.2.2.2.2 (hstr m hm))
  generalize members.foldl (memberStep ValidateResponse.setField) (r, none) = res at *
  obtain ⟨⟨a, b, c⟩, err⟩ := res
  simp only at h1 h2 h3 h4
  rw [h1, h2, h3, h4]

/-! ### Unknown keys and absent members, struct by struct -/

theorem ValidateResponse_setField_unknown_key (key : String) (v : JValue) (r : ValidateResponse)
    (h : ∀ tag ∈ ValidateResponse.tags, fieldMatches key tag = false) :
    ValidateResponse.setField key v r = (r, none) := by
  simp only [ValidateResponse.tags, List.mem_cons, List.mem_singleton, List.not_mem_nil,
    or_false, forall_eq_or_imp, forall_eq] at h
  simp [ValidateResponse.setField, h]

theorem ValidateResponse_keeps_fields :
    KeepsField ValidateResponse.setField "email" (·.Email)
    ∧ KeepsField ValidateResponse.setField "status" (·.Status)
    ∧ KeepsField ValidateResponse.setField "sub_status" (·.SubStatus) :=
  ⟨KeepsField_of_step _ _ _ (by
      intro k v t h
      simp only [ValidateResponse.setField, h, Bool.false_eq_true, if_false]
      split_ifs <;> rfl),
    KeepsField_of_step _ _ _ (by
      intro k v t h
      simp only [ValidateResponse.setField, h, Bool.false_eq_true, if_false]
      split_ifs <;> rfl),
    KeepsField_of_step _ _ _ (by
      intro k v t h
      simp only [ValidateResponse.setField, h, Bool.false_eq_true, if_false]
      split_ifs <;> rfl)⟩

theorem BatchValidateResponse_setField_unknown_key (key : String) (v : JValue)
    (r : BatchValidateResponse)
    (h : ∀ tag ∈ BatchValidateResponse.tags, fieldMatches key tag = false) :
    BatchValidateResponse.setField key v r = (r, none) := by
  simp only [BatchValidateResponse.tags, List.mem_cons, List.mem_singleton, List.not_mem_nil,
    or_false,
    forall_eq_or_imp, forall_eq] at h
  simp [BatchValidateResponse.setField, h]

theorem BatchValidateResponse_keeps_fields :
    KeepsField BatchValidateResponse.setField "status" (·.Status)
    ∧ KeepsField BatchValidateResponse.setField "task_id" (·.TaskID)
    ∧ KeepsField BatchValidateResponse.setField "count_submitted" (·.CountSubmitted)
    ∧ KeepsField BatchValidateResponse.setField "count_duplicates_removed"
        (·.CountDuplicatesRemoved)
    ∧ KeepsField BatchValidateResponse.setField "count_rejected_emails" (·.CountRejected)
    ∧ KeepsField BatchValidateResponse.setField "count_processing" (·.CountProcessing) :=
  ⟨KeepsField_of_step _ _ _ (by
      intro k v t h
      simp only [BatchValidateResponse.setField, h, Bool.false_eq_true, if_false]
      split_ifs <;> rfl),
    KeepsField_of_step _ _ _ (by
      intro k v t h
      simp only [BatchValidateResponse.setField, h, Bool.false_eq_true, if_false]
      split_ifs <;> rfl),
    KeepsField_of_step _ _ _ (by
      intro k v t h
      simp only [BatchValidateResponse.setField, h, Bool.false_eq_true, if_false]
      split_ifs <;> rfl),
    KeepsField_of_step _ _ _ (by
      intro k v t h
      simp only [BatchValidateResponse.setField, h, Bool.false_eq_true, if_false]
      split_ifs <;> rfl),
    KeepsField_of_step _ _ _ (by
      intro k v t h
      simp only [BatchValidateResponse.setField, h, Bool.false_eq_true, if_false]
      split_ifs <;> rfl),
    KeepsField_of_step _ _ _ (by
      intro k v t h
      simp only [BatchValidateResponse.setField, h, Bool.false_eq_true, if_false]
      split_ifs <;> rfl)⟩

theorem BatchResultResponse_setField_unknown_key (env : Env) (key : String) (v : JValue)
    (r : BatchResultResponse)
    (h : ∀ tag ∈ BatchResultResponse.tags, fieldMatches key tag = false) :
    BatchResultResponse.setField env key v r = (r, none) := by
  simp only [BatchResultResponse.tags, List.mem_cons, List.mem_singleton, List.not_mem_nil,
    or_false, forall_eq_or_imp, forall_eq] at h
  simp [BatchResultResponse.setField, h]

theorem BatchResultResponse_keeps_fields (env : Env) :
    KeepsField (BatchResultResponse.setField env) "count_checked" (·.CountChecked)
    ∧ KeepsField (BatchResultResponse.setField env) "count_total" (·.CountTotal)
    ∧ KeepsField (BatchResultResponse.setField env) "task_id" (·.TaskID)
    ∧ KeepsField (BatchResultResponse.setField env) "name" (·.Name)
    ∧ KeepsField (BatchResultResponse.setField env) "status" (·.Status)
    ∧ KeepsField (BatchResultResponse.setField env) "progress_percentage"
        (·.ProgressPercentage)
    ∧ KeepsField (BatchResultResponse.setField env) "results" (·.Results) :=
  ⟨KeepsField_of_step _ _ _ (by
      intro k v t h
      simp only [BatchResultResponse.setField, h, Bool.false_eq_true, if_false]
      split_ifs <;> rfl),
    KeepsField_of_step _ _ _ (by
      intro k v t h
      simp only [BatchResultResponse.setField, h, Bool.false_eq_true, if_false]
      split_ifs <;> rfl),
    KeepsField_of_step _ _ _ (by
      intro k v t h
      simp only [BatchResultResponse.setField, h, Bool.false_eq_true, if_false]
      split_ifs <;> rfl),
    KeepsField_of_step _ _ _ (by
      intro k v t h
      simp only [BatchResultResponse.setField, h, Bool.false_eq_true, if_false]
      split_ifs <;> rfl),
    KeepsField_of_step _ _ _ (by
      intro k v t h
      simp only [BatchResultResponse.setField, h, Bool.false_eq_true, if_false]
      split_ifs <;> rfl),
    KeepsField_of_step _ _ _ (by
      intro k v t h
      simp only [BatchResultResponse.setField, h, Bool.false_eq_true, if_false]
      split_ifs <;> rfl),
    KeepsField_of_step _ _ _ (by
      intro k v t h
      simp only [BatchResultResponse.setField, h, Bool.false_eq_true, if_false]
      split_ifs <;> rfl)⟩

theorem FindEmailResponse_setField_unknown_key (key : String) (v : JValue) (r : FindEmailResponse)
    (h : ∀ tag ∈ FindEmailResponse.tags, fieldMatches key tag = false) :
    FindEmailResponse.setField key v r = (r, none) := by
  simp only [FindEmailResponse.tags, List.mem_cons, List.mem_singleton, List.not_mem_nil,
    or_false, forall_eq_or_imp, forall_eq] at h
  simp [FindEmailResponse.setField, h]

theorem FindEmailResponse_keeps_fields :
    KeepsField FindEmailResponse.setField "email" (·.Email)
    ∧ KeepsField FindEmailResponse.setField "status" (·.Status) :=
  ⟨KeepsField_of_step _ _ _ (by
      intro k v t h
      simp only [FindEmailResponse.setField, h, Bool.false_eq_true, if_false]
      split_ifs <;> rfl),
    KeepsField_of_step _ _ _ (by
      intro k v t h
      simp only [FindEmailResponse.setField, h, Bool.false_eq_true, if_false]
      split_ifs <;> rfl)⟩

theorem AccountBalanceResponse_setField_unknown_key (key : String) (v : JValue)
    (r : AccountBalanceResponse)
    (h : ∀ tag ∈ AccountBalanceResponse.tags, fieldMatches key tag = false) :
    AccountBalanceResponse.setField key v r = (r, none) := by
  simp only [AccountBalanceResponse.tags, List.mem_cons, List.mem_singleton, List.not_mem_nil,
    or_false, forall_eq_or_imp, forall_eq] at h
  simp [AccountBalanceResponse.setField, h]

theorem AccountBalanceResponse_keeps_fields :
    KeepsField AccountBalanceResponse.setField "api_status" (·.APIStatus)
    ∧ KeepsField AccountBalanceResponse.setField "daily_credits_limit" (·.DailyCreditsLimit)
    ∧ KeepsField AccountBalanceResponse.setField "referral_credits" (·.ReferralCredits)
    ∧ KeepsField AccountBalanceResponse.setField "remaining_credits" (·.RemainingCredits)
    ∧ KeepsField AccountBalanceResponse.setField "remaining_daily_credits"
        (·.RemainingDailyCredits)
    ∧ KeepsField AccountBalanceResponse.setField "bonus_credits" (·.BonusCredits) :=
  ⟨KeepsField_of_step _ _ _ (by
      intro k v t h
      simp only [AccountBalanceResponse.setField, h, Bool.false_eq_true, if_false]
      split_ifs <;> rfl),
    KeepsField_of_step _ _ _ (by
      intro k v t h
      simp only [AccountBalanceResponse.setField, h, Bool.false_eq_true, if_false]
      split_ifs <;> rfl),
    KeepsField_of_step _ _ _ (by
      intro k v t h
      simp only [AccountBalanceResponse.setField, h, Bool.false_eq_true, if_false]
      split_ifs <;> rfl),
    KeepsField_of_step _ _ _ (by
      intro k v t h
      simp only [AccountBalanceResponse.setField, h, Bool.false_eq_true, if_false]
      split_ifs <;> rfl),
    KeepsField_of_step _ _ _ (by
      intro k v t h
      simp only [AccountBalanceResponse.setField, h, Bool.false_eq_true, if_false]
      split_ifs <;> rfl),
    KeepsField_of_step _ _ _ (by
      intro k v t h
      simp only [AccountBalanceResponse.setField, h, Bool.false_eq_true, if_false]
      split_ifs <;> rfl)⟩

theorem EmailBatchResult_setField_unknown_key (key : String) (v : JValue) (r : EmailBatchResult)
    (h : ∀ tag ∈ EmailBatchResult.tags, fieldMatches key tag = false) :
    EmailBatchResult.setField key v r = (r, none) := by
  simp only [EmailBatchResult.tags, List.mem_cons, List.mem_singleton, List.not_mem_nil,
    or_false, forall_eq_or_imp, forall_eq] at h
  simp [EmailBatchResult.setField, h]

theorem EmailBatchResult_keeps_fields :
    KeepsField EmailBatchResult.setField "address" (·.Address)
    ∧ KeepsField EmailBatchResult.setField "status" (·.Status)
    ∧ KeepsField EmailBatchResult.setField "sub_status" (·.SubStatus) :=
  ⟨KeepsField_of_step _ _ _ (by
      intro k v t h
      simp only [EmailBatchResult.setField, h, Bool.false_eq_true, if_false]
      split_ifs <;> rfl),
    KeepsField_of_step _ _ _ (by
      intro k v t h
      simp only [EmailBatchResult.setField, h, Bool.false_eq_true, if_false]
      split_ifs <;> rfl),
    KeepsField_of_step _ _ _ (by
      intro k v t h
      simp only [EmailBatchResult.setField, h, Bool.false_eq_true, if_false]
      split_ifs <;> rfl)⟩

theorem BatchValidateResultsWrapper_setField_unknown_key (key : String) (v : JValue)
    (r : BatchValidateResultsWrapper)
    (h : ∀ tag ∈ BatchValidateResultsWrapper.tags, fieldMatches key tag = false) :
    BatchValidateResultsWrapper.setField key v r = (r, none) := by
  simp only [BatchValidateResultsWrapper.tags, List.mem_cons, List.mem_singleton, List.not_mem_nil,
    or_false, forall_eq_or_imp, forall_eq] at h
  simp [BatchValidateResultsWrapper.setField, h]

theorem BatchValidateResultsWrapper_keeps_fields :
    KeepsField BatchValidateResultsWrapper.setField "email_batch" (·.EmailBatch) :=
  KeepsField_of_step _ _ _ (by
      intro k v t h
      simp only [BatchValidateResultsWrapper.setField, h, Bool.false_eq_true, if_false])

/-! ### Type conflicts -/

theorem storeString_no_error_iff (v : JValue) (cur : String) :
    (storeString v cur).2 = none ↔ (v = .null ∨ ∃ s, v = .string s) := by
  cases v <;> simp [storeString]

theorem storeInt_no_error_iff (v : JValue) (cur : Int) :
    (storeInt v cur).2 = none ↔
      (v = .null ∨ ∃ lit n, v = .number lit ∧ parseInt64 lit = some n) := by
  cases v with
  | number lit =>
      cases h : parseInt64 lit <;> simp [storeInt, h]
  | _ => simp [storeInt]

theorem storeFloat_no_error_iff (outOfRange : String → Bool) (v : JValue) (cur : Float64) :
    (storeFloat outOfRange v cur).2 = none ↔
      (v = .null ∨ ∃ lit, v = .number lit ∧ outOfRange lit = false) := by
  cases v with
  | number lit =>
      cases h : outOfRange lit <;> simp [storeFloat, h]
  | _ => simp [storeFloat]

theorem unmarshalStruct_of_scalar {T : Type} (typeName : String)
    (setField : String → JValue → T → T × error) (v : JValue) (t : T)
    (hnull : v ≠ .null) (hobj : ∀ members, v ≠ .object members) :
    unmarshalStruct typeName setField v t = (t, some (typeError v.kind typeName)) := by
  cases v with
  | null => exact absurd rfl hnull
  | object members => exact absurd rfl (hobj members)
  | _ => rfl

theorem storeSlice_of_non_array {T : Type} (typeName : String) (elem : JValue → T → T × error)
    (zero : T) (v : JValue) (cur : List T) (hnull : v ≠ .null)
    (harr : ∀ items, v ≠ .array items) :
    storeSlice typeName elem zero v cur = (cur, some (typeError v.kind typeName)) := by
  cases v with
  | null => exact absurd rfl hnull
  | array items => exact absurd rfl (harr items)
  | _ => rfl

/-! ### The query string -/

theorem Char_toNat_ofNat (n : Nat) : (Char.ofNat n).toNat = n ∨ (Char.ofNat n).toNat = 0 := by
  unfold Char.ofNat
  split
  · left
    simp [Char.ofNatAux, Char.toNat, UInt32.toNat]
  · right
    rfl

theorem Char_ofNat_ne (n : Nat) (c : Char) (h : n ≠ c.toNat) (h0 : c.toNat ≠ 0) :
    Char.ofNat n ≠ c := by
  intro hc
  rcases Char_toNat_ofNat n with h1 | h1
  · rw [hc] at h1; exact h h1.symm
  · rw [hc] at h1; exact h0 h1

theorem upperhex_ne_hash (d : Nat) : upperhex d ≠ '#' := by
  unfold upperhex
  split
  · exact Char_ofNat_ne _ _ (by simp only [show '0'.toNat = 48 from rfl,
      show '#'.toNat = 35 from rfl]; omega) (by decide)
  · exact Char_ofNat_ne _ _ (by simp only [show 'A'.toNat = 65 from rfl,
      show '#'.toNat = 35 from rfl]; omega) (by decide)

theorem escapeByte_ne_hash (b : Nat) (c : Char) (h : c ∈ escapeByte b) : c ≠ '#' := by
  unfold escapeByte at h
  split at h
  · rename_i hu
    rw [List.mem_singleton] at h
    subst h
    apply Char_ofNat_ne _ _ _ (by decide)
    intro hb
    rw [hb] at hu
    exact absurd hu (by decide)
  · split at h
    · rw [List.mem_singleton] at h
      subst h
      decide
    · simp only [List.mem_cons, List.mem_singleton, List.not_mem_nil, or_false] at h
      rcases h with h | h | h
      · subst h; decide
      · subst h; exact upperhex_ne_hash _
      · subst h; exact upperhex_ne_hash _

theorem QueryEscape_no_hash (s : String) : '#' ∉ (QueryEscape s).data := by
  intro h
  unfold QueryEscape at h
  simp only [List.mem_flatMap] at h
  obtain ⟨c, _, b, _, hb⟩ := h
  exact escapeByte_ne_hash b _ hb rfl

theorem mem_intercalate_go_data (sep : String) (rest : List String) (acc : String) (c : Char)
    (h : c ∈ (String.intercalate.go acc sep rest).data) :
    c ∈ acc.data ∨ c ∈ sep.data ∨ ∃ x ∈ rest, c ∈ x.data := by
  induction rest generalizing acc with
  | nil => exact Or.inl h
  | cons a as ih =>
      have h2 := ih (acc ++ sep ++ a) h
      simp only [String.data_append, List.mem_append] at h2
      rcases h2 with (h2 | h2) | h2 | ⟨x, hx, hc⟩
      · rcases h2 with h2 | h2
        · exact Or.inl h2
        · exact Or.inr (Or.inl h2)
      · exact Or.inr (Or.inr ⟨a, List.mem_cons_self _ _, h2⟩)
      · exact Or.inr (Or.inl h2)
      · exact Or.inr (Or.inr ⟨x, List.mem_cons_of_mem _ hx, hc⟩)

theorem mem_intercalate_data (sep : String) (xs : List String) (c : Char)
    (h : c ∈ (sep.intercalate xs).data) : c ∈ sep.data ∨ ∃ x ∈ xs, c ∈ x.data := by
  cases xs with
  | nil => cases h
  | cons a as =>
      rcases mem_intercalate_go_data sep as a c h with h | h | ⟨x, hx, hc⟩
      · exact Or.inr ⟨a, List.mem_cons_self _ _, h⟩
      · exact Or.inl h
      · exact Or.inr ⟨x, List.mem_cons_of_mem _ hx, hc⟩

theorem Encode_no_hash (v : Values) : '#' ∉ v.Encode.data := by
  intro h
  rcases mem_intercalate_data _ _ _ h with h | ⟨x, hx, hc⟩
  · exact absurd h (by decide)
  · unfold encodedPairs at hx
    simp only [List.mem_flatMap, List.mem_map] at hx
    obtain ⟨e, _, y, _, rfl⟩ := hx
    simp only [String.data_append, List.mem_append] at hc
    rcases hc with (hc | hc) | hc
    · exact QueryEscape_no_hash _ hc
    · exact absurd hc (by decide)
    · exact QueryEscape_no_hash _ hc

theorem rawQuery_append (f q : String) (hf1 : '?' ∉ f.data) (hf2 : '#' ∉ f.data)
    (hq : '#' ∉ q.data) : rawQuery (f ++ "?" ++ q) = q := by
  unfold rawQuery
  have h1 : (f ++ "?" ++ q).data = f.data ++ '?' :: q.data := by
    simp [String.data_append]
  have h2 : (f.data ++ '?' :: q.data).takeWhile (· ≠ '#') = f.data ++ '?' :: q.data := by
    apply List.takeWhile_eq_self_iff.mpr
    intro x hx
    simp only [List.mem_append, List.mem_cons] at hx
    rcases hx with hx | hx | hx
    · have : x ≠ '#' := fun h => hf2 (h ▸ hx)
      simpa using this
    · subst hx; decide
    · have : x ≠ '#' := fun h => hq (h ▸ hx)
      simpa using this
  have h3 : (f.data ++ '?' :: q.data).dropWhile (· ≠ '?') = '?' :: q.data := by
    rw [List.dropWhile_append_of_pos]
    · simp [List.dropWhile]
    · intro x hx
      have : x ≠ '?' := fun h => hf1 (h ▸ hx)
      simpa using this
  rw [h1, h2, h3]
  rfl

theorem mem_insertEntry (e x : String × List String) (v : Values) :
    x ∈ insertEntry e v ↔ x = e ∨ x ∈ v := by
  induction v with
  | nil => simp [insertEntry]
  | cons y ys ih =>
      unfold insertEntry
      split
      · simp
      · simp only [List.mem_cons, ih]
        tauto

theorem mem_sortEntries (x : String × List String) (v : Values) :
    x ∈ sortEntries v ↔ x ∈ v := by
  induction v with
  | nil => simp [sortEntries]
  | cons y ys ih =>
      show x ∈ insertEntry y (sortEntries ys) ↔ _
      rw [mem_insertEntry, ih, List.mem_cons]

theorem key_pair_mem_encodedPairs (params : Values) (key : String) :
    ("key=" ++ QueryEscape key) ∈ encodedPairs (params.Set "key" key) := by
  unfold encodedPairs
  rw [List.mem_flatMap]
  refine ⟨("key", [key]), (mem_sortEntries _ _).mpr (List.mem_cons_self _ _), ?_⟩
  simp only [List.map_cons, List.map_nil, List.mem_singleton]
  rfl

theorem DoGetRequest_world {T : Type} [JSONTarget T] (env : Env) (url : String) (object : T)
    (w : World) :
    (DoGetRequest env url object w).world =
      match env.ParseURL url with
      | some _ => w
      | none => { w with sent := w.sent ++ [{ Method := "GET", URL := url }] } := by
  unfold DoGetRequest NewRequest
  cases env.ParseURL url with
  | some e => rfl
  | none =>
      simp only []
      cases env.Do _ with
      | error e => rfl
      | ok response =>
          by_cases hs : response.StatusCode = 200
          · simp only [hs, ne_eq, not_true_eq_false, if_false]
            cases Decode env response.Body object with
            | mk o e => cases e <;> rfl
          · simp only [hs, ne_eq, not_false_eq_true, if_true]

theorem DoPostRequest_world {T : Type} [JSONTarget T] (env : Env) (url payload : String)
    (object : T) (w : World) :
    (DoPostRequest env url payload object w).world =
      match env.ParseURL url with
      | some _ => w
      | none => { w with sent := w.sent ++
          [{ Method := "POST", URL := url, ContentType := some "application/json",
             Payload := some payload }] } := by
  unfold DoPostRequest NewRequest
  cases env.ParseURL url with
  | some e => rfl
  | none =>
      simp only []
      cases env.Do _ with
      | error e => rfl
      | ok response =>
          by_cases hs : response.StatusCode = 200
          · simp only [hs, ne_eq, not_true_eq_false, if_false]
            cases Decode env response.Body object with
            | mk o e => cases e <;> rfl
          · simp only [hs, ne_eq, not_false_eq_true, if_true]

/-! ## Missing API key and input validation -/

/-- C1 at its failing input, the call of the test TestValidateBatchWithInvalidAPIKey:
with an empty API key and valid arguments ValidateBatch does not stop. The POST request,
with an empty key in its body, reaches the transport; when the service answers 400 the
error returned is the normalised answer, not the missing-API-key error, and when the
transport answers 200 the error returned is nil. -/
theorem ValidateBatch_empty_key_reaches_transport :
    (ValidateBatch (exampleEnv (answerWith 400 "\x7b\"error\": \"Missing parameter: key.\"\x7d"))
        "Test Batch" ["test@example.com"] (testWorld "")).world.sent =
      [{ Method := "POST", URL := "https://app.emailverify.io/api/v1/validate-batch",
         ContentType := some "application/json",
         Payload := some
          "\x7b\"title\":\"Test Batch\",\"key\":\"\",\"email_batch\":[\x7b\"address\":\"test@example.com\"\x7d]\x7d\n" }]
    ∧ (ValidateBatch (exampleEnv (answerWith 400 "\x7b\"error\": \"Missing parameter: key.\"\x7d"))
        "Test Batch" ["test@example.com"] (testWorld "")).err =
      some (.New "API error 400: Missing parameter: key.")
    ∧ (GoError.New "API error 400: Missing parameter: key.").Is .ErrMissingAPIKey = false
    ∧ ¬ Contains (GoError.New "API error 400: Missing parameter: key.").Error "API key not set"
    ∧ (ValidateBatch (exampleEnv (answerWith 200 "\x7b\"status\":\"success\",\"task_id\":12345\x7d"))
        "Test Batch" ["test@example.com"] (testWorld "")).err = none
    ∧ (ValidateBatch (exampleEnv (answerWith 200 "\x7b\"status\":\"success\",\"task_id\":12345\x7d"))
        "Test Batch" ["test@example.com"] (testWorld "")).world.sent ≠ [] := by
  decide

/-- The part of C1 that holds, and what ValidateBatch does instead: with an empty API key
and otherwise valid arguments, Validate, GetBatchResults, FindEmail and GetAccountBalance
return an error that is, or wraps, ErrMissingAPIKey, whose message contains
"API key not set", and leave the state as it was, so the transport is not invoked,
whatever it would answer. ValidateBatch has no such check: once the URL is joined and
accepted, it hands the POST request, with an empty key in its body, to the transport. -/
theorem empty_key_stops_get_endpoints (env : Env) (w : World) (hkey : w.API_KEY = "") :
    (∀ email, email ≠ "" →
      Validate env email w =
        { response := some {}, err := some (.Wrap "failed to prepare URL: " .ErrMissingAPIKey),
          world := w })
    ∧ (∀ taskID : Int, 0 < taskID →
      GetBatchResults env taskID w =
        { response := some {}, err := some (.Wrap "failed to prepare URL: " .ErrMissingAPIKey),
          world := w })
    ∧ (∀ name domain, name ≠ "" → domain ≠ "" →
      FindEmail env name domain w =
        { response := some {}, err := some (.Wrap "failed to prepare URL: " .ErrMissingAPIKey),
          world := w })
    ∧ GetAccountBalance env w =
        { response := some {}, err := some .ErrMissingAPIKey, world := w }
    ∧ (GoError.Wrap "failed to prepare URL: " .ErrMissingAPIKey).Is .ErrMissingAPIKey = true
    ∧ GoError.ErrMissingAPIKey.Is .ErrMissingAPIKey = true
    ∧ Contains (GoError.Wrap "failed to prepare URL: " .ErrMissingAPIKey).Error "API key not set"
    ∧ Contains GoError.ErrMissingAPIKey.Error "API key not set"
    ∧ (∀ title emails finalURL, title ≠ "" → emails ≠ [] →
      env.JoinPath w.URI ENDPOINT_VALIDATE_BATCH = .ok finalURL → env.ParseURL finalURL = none →
      ∃ body, BatchValidateRequest.Encode
          { Title := title, Key := "", EmailBatch := emails.map fun a => { Address := a } } =
            .ok body
        ∧ (ValidateBatch env title emails w).world.sent =
          w.sent ++ [{ Method := "POST", URL := finalURL,
                       ContentType := some "application/json", Payload := some body }]) := by
  refine ⟨?_, ?_, ?_, ?_, by decide, by decide, by decide, by decide, ?_⟩
  · intro email he
    simp [Validate, PrepareURL, hkey, he]
  · intro taskID ht
    simp [GetBatchResults, PrepareURL, hkey, not_le.mpr ht]
  · intro name domain hn hd
    simp [FindEmail, PrepareURL, hkey, hn, hd]
  · simp [GetAccountBalance, PrepareURL, hkey]
  · intro title emails finalURL ht he hj hp
    refine ⟨_, rfl, ?_⟩
    have hlen : emails.length ≠ 0 := by simpa using he
    simp only [ValidateBatch, ht, hlen, if_false, hkey, BatchValidateRequest.Encode, hj,
      DoPostRequest, NewRequest, hp]
    cases env.Do _ with
    | error e => rfl
    | ok response =>
        by_cases hs : response.StatusCode = 200
        · simp only [hs, ne_eq, not_true_eq_false, if_false]
          cases hd : Decode env response.Body ({} : BatchValidateResponse) with
          | mk o e => cases e <;> rfl
        · simp only [hs, ne_eq, not_false_eq_true, if_true]

/-- The four GET endpoints at the calls of the tests with an empty key, against a
transport that would answer 200. -/
theorem empty_key_stops_get_endpoints_witness :
    (Validate (exampleEnv (answerWith 200 "\x7b\x7d")) "test@example.com" (testWorld "")).err =
        some (.Wrap "failed to prepare URL: " .ErrMissingAPIKey)
    ∧ (Validate (exampleEnv (answerWith 200 "\x7b\x7d")) "test@example.com" (testWorld "")).world.sent = []
    ∧ (GetBatchResults (exampleEnv (answerWith 200 "\x7b\x7d")) 12345 (testWorld "")).world.sent = []
    ∧ (FindEmail (exampleEnv (answerWith 200 "\x7b\x7d")) "John Doe" "example.com" (testWorld "")).world.sent
        = []
    ∧ (GetAccountBalance (exampleEnv (answerWith 200 "\x7b\x7d")) (testWorld "")).err =
        some .ErrMissingAPIKey := by
  have h := empty_key_stops_get_endpoints (exampleEnv (answerWith 200 "\x7b\x7d")) (testWorld "") rfl
  refine ⟨?_, ?_, ?_, ?_, ?_⟩
  · rw [h.1 "test@example.com" (by decide)]
  · rw [h.1 "test@example.com" (by decide)]; rfl
  · rw [h.2.1 12345 (by decide)]; rfl
  · rw [h.2.2.1 "John Doe" "example.com" (by decide) (by decide)]; rfl
  · rw [h.2.2.2.1]

/-- C2: an empty or invalid required argument gives a non-nil error and leaves the state
as it was (no request is handed to the transport), for every state, the API key empty or
not: Validate with an empty email; ValidateBatch with an empty title or an empty list;
GetBatchResults with a task id that is not positive; FindEmail with an empty name or an
empty domain. -/
theorem invalid_arguments_fail_locally (env : Env) (w : World) :
    Validate env "" w =
      { response := none, err := some (.New "email cannot be empty"), world := w }
    ∧ (∀ emails, ValidateBatch env "" emails w =
      { response := some {}, err := some (.New "Title is required"), world := w })
    ∧ (∀ title, (ValidateBatch env title [] w).err ≠ none
        ∧ (ValidateBatch env title [] w).world = w
        ∧ (title ≠ "" → ValidateBatch env title [] w =
          { response := some {}, err := some (.New "Email list cannot be empty"), world := w }))
    ∧ (∀ taskID : Int, taskID ≤ 0 → GetBatchResults env taskID w =
      { response := some {}, err := some (.New "TaskID must be greater than 0"), world := w })
    ∧ (∀ name domain, name = "" ∨ domain = "" → FindEmail env name domain w =
      { response := none, err := some (.New "Both name and domain are required"), world := w }) := by
  refine ⟨?_, ?_, ?_, ?_, ?_⟩
  · simp [Validate]
  · intro emails
    simp [ValidateBatch]
  · intro title
    by_cases ht : title = ""
    · simp [ValidateBatch, ht]
    · simp [ValidateBatch, ht]
  · intro taskID ht
    simp [GetBatchResults, ht]
  · intro name domain h
    simp [FindEmail, h]

/-- C2 at concrete calls, with the API key empty: task id 0 and -7, and an empty domain. -/
theorem invalid_arguments_fail_locally_witness :
    (GetBatchResults (exampleEnv (answerWith 200 "\x7b\x7d")) 0 (testWorld "")).err =
        some (.New "TaskID must be greater than 0")
    ∧ (GetBatchResults (exampleEnv (answerWith 200 "\x7b\x7d")) (-7) (testWorld "k")).world.sent = []
    ∧ (FindEmail (exampleEnv (answerWith 200 "\x7b\x7d")) "John Doe" "" (testWorld "")).err =
        some (.New "Both name and domain are required") := by
  have h := invalid_arguments_fail_locally (exampleEnv (answerWith 200 "\x7b\x7d"))
  refine ⟨?_, ?_, ?_⟩
  · rw [(h (testWorld "")).2.2.2.1 0 (by decide)]
  · rw [(h (testWorld "k")).2.2.2.1 (-7) (by decide)]; rfl
  · rw [(h (testWorld "")).2.2.2.2 "John Doe" "" (Or.inr rfl)]

/-! ## PrepareURL -/

/-- C3: with an empty API key PrepareURL returns the empty string and ErrMissingAPIKey
for every endpoint and parameter set (a nil map included), in every environment: the join
is not consulted (the result is the same when joining would fail), the parameters are not
touched and the call does not panic. -/
theorem PrepareURL_empty_key (env : Env) (endpoint : String) (params : Option Values)
    (w : World) (hkey : w.API_KEY = "") :
    PrepareURL env endpoint params w =
      { url := "", err := some .ErrMissingAPIKey, params := params, world := w,
        panic := none } := by
  simp [PrepareURL, hkey]

/-- C3 with a base URI that cannot be joined: the error is still ErrMissingAPIKey. -/
theorem PrepareURL_empty_key_witness :
    PrepareURL (brokenJoinEnv (answerWith 200 "\x7b\x7d")) ENDPOINT_VALIDATE
        (some [("email", ["a@b.com"])]) { URI := "ht tp://%zz", API_KEY := "" } =
      { url := "", err := some .ErrMissingAPIKey, params := some [("email", ["a@b.com"])],
        world := { URI := "ht tp://%zz", API_KEY := "" }, panic := none } :=
  PrepareURL_empty_key (brokenJoinEnv (answerWith 200 "\x7b\x7d")) ENDPOINT_VALIDATE
    (some [("email", ["a@b.com"])]) { URI := "ht tp://%zz", API_KEY := "" } rfl

/-- C4, as stated, fails for the nil parameter map: with a non-empty API key the call
panics at `params.Set` and returns no URL, although the join would succeed. With an empty
API key the same call returns ErrMissingAPIKey. -/
theorem PrepareURL_nil_params_panics :
    PrepareURL (exampleEnv (answerWith 200 "\x7b\x7d")) ENDPOINT_VALIDATE none
        (testWorld "test_api_key") =
      { url := "", err := none, params := none, world := testWorld "test_api_key",
        panic := some "assignment to entry in nil map" }
    ∧ (exampleEnv (answerWith 200 "\x7b\x7d")).JoinPath (testWorld "test_api_key").URI
        ENDPOINT_VALIDATE = .ok "https://app.emailverify.io/api/v1/validate"
    ∧ (PrepareURL (exampleEnv (answerWith 200 "\x7b\x7d")) ENDPOINT_VALIDATE none
        (testWorld "")).panic = none := by
  refine ⟨by decide, rfl, by decide⟩

/-- C4 (amended): with a non-empty API key, a parameter map that is not nil and a join that
succeeds with `finalURL`, PrepareURL returns, without a panic, `finalURL`, a question mark
and the encoding of the parameters in which `key` has exactly the one value API key and
every other key has the values it had; the encoding is the `&`-joined list of the escaped
`name=value` pairs, among them `key=` and the escaped API key. With the spec's model of
the join, a base URI with or without a final slash and an endpoint with or without an
initial slash give the same URL, with exactly one slash between the two. On the nil map
the call panics whatever the join does. -/
theorem PrepareURL_success (env : Env) (endpoint : String) (params : Values) (w : World)
    (finalURL : String) (hkey : w.API_KEY ≠ "")
    (hjoin : env.JoinPath w.URI endpoint = .ok finalURL) :
    PrepareURL env endpoint (some params) w =
      { url := finalURL ++ "?" ++ (params.Set "key" w.API_KEY).Encode, err := none,
        params := some (params.Set "key" w.API_KEY), world := w, panic := none }
    ∧ (params.Set "key" w.API_KEY).values "key" = [w.API_KEY]
    ∧ (∀ k, k ≠ "key" → (params.Set "key" w.API_KEY).values k = params.values k)
    ∧ (params.Set "key" w.API_KEY).Encode =
        "&".intercalate (encodedPairs (params.Set "key" w.API_KEY))
    ∧ ("key=" ++ QueryEscape w.API_KEY) ∈ encodedPairs (params.Set "key" w.API_KEY)
    ∧ (env.JoinPath = specJoinPath → ∀ base ep b e : String,
        base.data.getLast? ≠ some '/' → ep.data.head? ≠ some '/' →
        (b = base ∨ b = base ++ "/") → (e = ep ∨ e = "/" ++ ep) →
        (PrepareURL env e (some params) { w with URI := b }).url =
          base ++ "/" ++ ep ++ "?" ++ (params.Set "key" w.API_KEY).Encode)
    ∧ (PrepareURL env endpoint none w).panic = some "assignment to entry in nil map" := by
  refine ⟨?_, values_Set_same _ _ _, fun k hk => values_Set_other _ _ _ _ hk, rfl,
    key_pair_mem_encodedPairs params w.API_KEY, ?_, ?_⟩
  · simp [PrepareURL, hkey, hjoin]
  · intro henv base ep b e hbase hep hb he
    have hj := specJoinPath_one_slash base ep b e hbase hep hb he
    simp [PrepareURL, hkey, henv, hj]
  · simp [PrepareURL, hkey]

/-- The amended C4 at the call Validate makes in the tests, with the base URI ending in a
slash, an old `key` in the map, and a name outside ASCII with a space in it. -/
theorem PrepareURL_success_witness :
    PrepareURL (exampleEnv (answerWith 200 "\x7b\x7d")) ENDPOINT_VALIDATE
        (some [("email", ["valid@example.com"]), ("key", ["old", "older"]),
          ("name", ["Zoë Müller"])])
        { URI := "https://app.emailverify.io/", API_KEY := "test_api_key" } =
      { url := "https://app.emailverify.io/api/v1/validate?email=valid%40example.com&key=test_api_key&name=Zo%C3%AB+M%C3%BCller",
        err := none,
        params := some [("key", ["test_api_key"]), ("email", ["valid@example.com"]),
          ("name", ["Zoë Müller"])],
        world := { URI := "https://app.emailverify.io/", API_KEY := "test_api_key" },
        panic := none } := by
  have h := (PrepareURL_success (exampleEnv (answerWith 200 "\x7b\x7d")) ENDPOINT_VALIDATE
    [("email", ["valid@example.com"]), ("key", ["old", "older"]), ("name", ["Zoë Müller"])]
    { URI := "https://app.emailverify.io/", API_KEY := "test_api_key" }
    "https://app.emailverify.io/api/v1/validate" (by decide) (by rfl)).1
  rw [h]
  decide

/-! ## The error normaliser and the request executors -/

/-- C5: when the body of a response decodes as a map of strings `m`, for every status
code the message of the error is "API error ", the decimal status code, ": " and the
values of `m`, one per key and each exactly once, in some order, joined with ", "; so the
message contains the status code and every value. When the body starts with a JSON
object of string members with pairwise different keys, `m` is the list of those members. -/
theorem ErrorFromResponse_decoded (env : Env) (response : Response) (m : StringMap)
    (hread : response.Body.readErr = none)
    (hdec : Decode_stringMap { data := response.Body.data } = .ok m) :
    ∃ vs : List String, vs.Perm (m.map Prod.snd)
      ∧ (m.map Prod.fst).Nodup
      ∧ ErrorFromResponse env response =
          some (.New ("API error " ++ toString response.StatusCode ++ ": " ++
            ", ".intercalate vs))
      ∧ Contains ("API error " ++ toString response.StatusCode ++ ": " ++ ", ".intercalate vs)
          (toString response.StatusCode)
      ∧ (∀ v ∈ m.map Prod.snd,
          Contains ("API error " ++ toString response.StatusCode ++ ": " ++
            ", ".intercalate vs) v)
      ∧ (∀ pairs : List (String × String),
          Decoder_scan { data := response.Body.data } =
            .ok (.object (pairs.map fun p => (p.1, JValue.string p.2))) →
          (pairs.map Prod.fst).Nodup → m = pairs) := by
  have hperm : ((env.mapRange m).map Prod.snd).Perm (m.map Prod.snd) :=
    (env.mapRange_perm m).map _
  refine ⟨(env.mapRange m).map Prod.snd, hperm, Decode_stringMap_keys_nodup _ _ hdec,
    ?_, ?_, ?_, ?_⟩
  · simp [ErrorFromResponse, ReadAll, hread, hdec]
  · exact Contains_append_right _ _ _ (Contains_append_right _ _ _
      (Contains_append_left _ _ _ (Contains_self _)))
  · intro v hv
    exact Contains_append_left _ _ _ (Contains_intercalate _ _ _ (hperm.mem_iff.mpr hv))
  · intro pairs hscan hnodup
    have h := Decode_stringMap_of_strings _ pairs hscan hnodup
    rw [hdec] at h
    exact Except.ok.inj h

/-- C5 at the body of the tests: status 400 and the object with the one member "error";
the message contains "Missing parameter: key." and the status code. -/
theorem ErrorFromResponse_decoded_witness :
    ∃ vs : List String,
      ErrorFromResponse (exampleEnv (answerWith 200 ""))
          { StatusCode := 400, Body := { data := "\x7b\"error\": \"Missing parameter: key.\"\x7d" } } =
        some (.New ("API error " ++ toString (400 : Int) ++ ": " ++ ", ".intercalate vs))
      ∧ Contains ("API error " ++ toString (400 : Int) ++ ": " ++ ", ".intercalate vs) "400"
      ∧ Contains ("API error " ++ toString (400 : Int) ++ ": " ++ ", ".intercalate vs)
          "Missing parameter: key." := by
  obtain ⟨vs, _, _, h1, h2, h3, _⟩ := ErrorFromResponse_decoded (exampleEnv (answerWith 200 ""))
    { StatusCode := 400, Body := { data := "\x7b\"error\": \"Missing parameter: key.\"\x7d" } }
    [("error", "Missing parameter: key.")] rfl (by rfl)
  exact ⟨vs, h1, h2, h3 _ (by decide)⟩

/-- C6, as stated, fails for a JSON object followed by trailing text: the decoder stops at
the closing brace, the body counts as decoded, and the message is built from the values
only; it does not contain the raw body. The same happens for the body `null`. -/
theorem ErrorFromResponse_trailing_text_decodes :
    ErrorFromResponse (exampleEnv (answerWith 200 ""))
        { StatusCode := 401,
          Body := { data := "\x7b\"error\":\"Invalid API key\"\x7d <html>Unauthorized</html>" } } =
      some (.New "API error 401: Invalid API key")
    ∧ ¬ Contains (GoError.New "API error 401: Invalid API key").Error
        "\x7b\"error\":\"Invalid API key\"\x7d <html>Unauthorized</html>"
    ∧ ErrorFromResponse (exampleEnv (answerWith 200 ""))
        { StatusCode := 500, Body := { data := "null" } } = some (.New "API error 500: ")
    ∧ ¬ Contains (GoError.New "API error 500: ").Error "null" := by
  decide

/-- C6 (amended): when the first JSON value of the body cannot be assigned to a map of
strings (the text does not start with a complete JSON value, or that value is neither
`null` nor an object whose member values are all strings or `null`), the message is
"API error (status ", the decimal status code, "): " and the raw body, so it contains
both. Text after a first value that is complete at its closing bracket is not looked at:
a body that decodes keeps its decoded message when any text is appended. -/
theorem ErrorFromResponse_undecodable (env : Env) (response : Response)
    (hread : response.Body.readErr = none)
    (hbad : ∀ v, Decoder_scan { data := response.Body.data } = .ok v →
      decodesAsStringMap v = false) :
    ErrorFromResponse env response =
        some (.New ("API error (status " ++ toString response.StatusCode ++ "): " ++
          response.Body.data))
    ∧ Contains ("API error (status " ++ toString response.StatusCode ++ "): " ++
          response.Body.data) (toString response.StatusCode)
    ∧ Contains ("API error (status " ++ toString response.StatusCode ++ "): " ++
          response.Body.data) response.Body.data
    ∧ (∀ (code : Int) (body trailing : String) (v : JValue) (m : StringMap),
        scanAll body.data = .done v → Decode_stringMap { data := body } = .ok m →
        ErrorFromResponse env { StatusCode := code, Body := { data := body ++ trailing } } =
          ErrorFromResponse env { StatusCode := code, Body := { data := body } }) := by
  obtain ⟨e, he⟩ := Decode_stringMap_error_of_not_accepted _ hbad
  refine ⟨?_, ?_, ?_, ?_⟩
  · simp [ErrorFromResponse, ReadAll, hread, he]
  · exact Contains_append_right _ _ _ (Contains_append_right _ _ _
      (Contains_append_left _ _ _ (Contains_self _)))
  · exact Contains_append_left _ _ _ (Contains_self _)
  · intro code body trailing v m hdone hm
    simp [ErrorFromResponse, ReadAll, Decode_stringMap_append_of_done body trailing v hdone, hm]

/-- The amended C6 at three bodies: plain text, an object with a number, an array. -/
theorem ErrorFromResponse_undecodable_witness :
    ErrorFromResponse (exampleEnv (answerWith 200 ""))
        { StatusCode := 502, Body := { data := "Bad Gateway" } } =
      some (.New "API error (status 502): Bad Gateway")
    ∧ ErrorFromResponse (exampleEnv (answerWith 200 ""))
        { StatusCode := 400, Body := { data := "\x7b\"error\":\"x\",\"code\":7\x7d" } } =
      some (.New "API error (status 400): \x7b\"error\":\"x\",\"code\":7\x7d")
    ∧ ErrorFromResponse (exampleEnv (answerWith 200 ""))
        { StatusCode := 400, Body := { data := "[\"x\"]" } } =
      some (.New "API error (status 400): [\"x\"]") := by
  refine ⟨?_, ?_, ?_⟩
  · exact (ErrorFromResponse_undecodable (exampleEnv (answerWith 200 ""))
      { StatusCode := 502, Body := { data := "Bad Gateway" } } rfl
      (by
        intro v hv
        have h : Decoder_scan { data := "Bad Gateway" } = .error .syntaxError := rfl
        rw [h] at hv
        cases hv)).1
  · exact (ErrorFromResponse_undecodable (exampleEnv (answerWith 200 ""))
      { StatusCode := 400, Body := { data := "\x7b\"error\":\"x\",\"code\":7\x7d" } } rfl
      (by
        intro v hv
        have h : v = .object [("error", .string "x"), ("code", .number "7")] :=
          (Except.ok.inj hv).symm
        subst h
        rfl)).1
  · exact (ErrorFromResponse_undecodable (exampleEnv (answerWith 200 ""))
      { StatusCode := 400, Body := { data := "[\"x\"]" } } rfl
      (by
        intro v hv
        have h : v = .array [.string "x"] := (Except.ok.inj hv).symm
        subst h
        rfl)).1

/-- C7: when the transport answers with a status code other than 200, whatever the body,
DoGetRequest and DoPostRequest return exactly the error ErrorFromResponse makes of the
response and leave the caller's target as it was; and ErrorFromResponse never returns
nil. -/
theorem non200_returns_normalised_error {T : Type} [JSONTarget T] (env : Env)
    (url payload : String) (object : T) (w : World) (hurl : env.ParseURL url = none) :
    (∀ response, env.Do { Method := "GET", URL := url } = .ok response →
      response.StatusCode ≠ 200 →
      DoGetRequest env url object w =
        { err := ErrorFromResponse env response, object := object,
          world := { w with sent := w.sent ++ [{ Method := "GET", URL := url }] } })
    ∧ (∀ response,
      env.Do { Method := "POST", URL := url, ContentType := some "application/json",
               Payload := some payload } = .ok response →
      response.StatusCode ≠ 200 →
      DoPostRequest env url payload object w =
        { err := ErrorFromResponse env response, object := object,
          world := { w with sent := w.sent ++
            [{ Method := "POST", URL := url, ContentType := some "application/json",
               Payload := some payload }] } })
    ∧ (∀ response, ErrorFromResponse env response ≠ none) := by
  refine ⟨?_, ?_, ?_⟩
  · intro response hdo hstatus
    simp [DoGetRequest, NewRequest, hurl, hdo, hstatus]
  · intro response hdo hstatus
    simp [DoPostRequest, NewRequest, hurl, hdo, hstatus]
  · intro response
    unfold ErrorFromResponse
    split
    · simp
    · split <;> simp

/-- C7 at status 201 with a body that would decode into the target: the error is the
normalised one and the target keeps its zero values. -/
theorem non200_returns_normalised_error_witness :
    DoGetRequest (exampleEnv (answerWith 201 "\x7b\"status\":\"valid\"\x7d"))
        "https://app.emailverify.io/api/v1/validate?key=k" ({} : ValidateResponse)
        (testWorld "k") =
      { err := some (.New "API error 201: valid"),
        object := { Email := "", Status := "", SubStatus := "" },
        world := { testWorld "k" with
          sent := [{ Method := "GET", URL := "https://app.emailverify.io/api/v1/validate?key=k" }] } } := by
  rw [(non200_returns_normalised_error (exampleEnv (answerWith 201 "\x7b\"status\":\"valid\"\x7d"))
    "https://app.emailverify.io/api/v1/validate?key=k" "" ({} : ValidateResponse)
    (testWorld "k") rfl).1 _ rfl (by decide)]
  decide

/-! ## Decoding a successful answer -/

/-- C8: for a non-empty email and a non-empty API key, when the transport answers the
request of Validate with status 200 and a body whose first JSON value is an object with
exactly one member for each of the fields email, status and sub_status, each a string,
Validate returns a nil error and a result whose Email, Status and SubStatus are those
strings, and IsValid holds exactly when the status string is "valid". -/
theorem Validate_success (env : Env) (w : World) (email finalURL : String)
    (response : Response) (members : List (String × JValue)) (kE kS kSS e s ss : String)
    (hemail : email ≠ "") (hkey : w.API_KEY ≠ "")
    (hjoin : env.JoinPath w.URI ENDPOINT_VALIDATE = .ok finalURL)
    (hurl : env.ParseURL
      (finalURL ++ "?" ++ ((Values.Set [] "email" email).Set "key" w.API_KEY).Encode) = none)
    (hdo : env.Do
      { Method := "GET"
        URL := finalURL ++ "?" ++ ((Values.Set [] "email" email).Set "key" w.API_KEY).Encode } =
        .ok response)
    (hstatus : response.StatusCode = 200)
    (hbody : Decoder_scan response.Body = .ok (.object members))
    (hE : members.filter (fun m => fieldMatches m.1 "email") = [(kE, .string e)])
    (hS : members.filter (fun m => fieldMatches m.1 "status") = [(kS, .string s)])
    (hSS : members.filter (fun m => fieldMatches m.1 "sub_status") = [(kSS, .string ss)]) :
    Validate env email w =
      { response := some { Email := e, Status := s, SubStatus := ss }, err := none,
        world := { w with sent := w.sent ++
          [{ Method := "GET"
             URL := finalURL ++ "?" ++
              ((Values.Set [] "email" email).Set "key" w.API_KEY).Encode }] } }
    ∧ (({ Email := e, Status := s, SubStatus := ss } : ValidateResponse).IsValid = true ↔
        s = "valid") := by
  have hstr : ∀ m ∈ members, (∃ x, m.2 = .string x) ∨ (fieldMatches m.1 "email" = false
      ∧ fieldMatches m.1 "status" = false ∧ fieldMatches m.1 "sub_status" = false) := by
    intro m hm
    cases h1 : fieldMatches m.1 "email" with
    | true => exact Or.inl ⟨e, mem_singleton_filter hm h1 hE⟩
    | false =>
      cases h2 : fieldMatches m.1 "status" with
      | true => exact Or.inl ⟨s, mem_singleton_filter hm h2 hS⟩
      | false =>
        cases h3 : fieldMatches m.1 "sub_status" with
        | true => exact Or.inl ⟨ss, mem_singleton_filter hm h3 hSS⟩
        | false => exact Or.inr ⟨rfl, rfl, rfl⟩
  have hdec : Decode env response.Body ({} : ValidateResponse) =
      ({ Email := e, Status := s, SubStatus := ss }, none) := by
    unfold Decode
    rw [hbody]
    exact ValidateResponse.unmarshal_given members {} e s ss (Or.inr ⟨kE, hE⟩)
      (Or.inr ⟨kS, hS⟩) (Or.inr ⟨kSS, hSS⟩) hstr
  constructor
  · simp [Validate, hemail, PrepareURL, hkey, hjoin, DoGetRequest, NewRequest, hurl, hdo,
      hstatus, hdec]
  · simp [ValidateResponse.IsValid, STATUS_VALID]

/-- C8 at the body of the spec's example. -/
theorem Validate_success_witness :
    Validate (exampleEnv (answerWith 200
        "\x7b\"email\":\"a@b.com\",\"status\":\"valid\",\"sub_status\":\"permitted\"\x7d"))
        "a@b.com" (testWorld "test_api_key") =
      { response := some { Email := "a@b.com", Status := "valid", SubStatus := "permitted" },
        err := none,
        world := { testWorld "test_api_key" with
          sent :=
            [{ Method := "GET"
               URL := "https://app.emailverify.io/api/v1/validate?email=a%40b.com&key=test_api_key" }] } }
    ∧ ({ Email := "a@b.com", Status := "valid", SubStatus := "permitted" } :
        ValidateResponse).IsValid = true := by
  have h := Validate_success (exampleEnv (answerWith 200
      "\x7b\"email\":\"a@b.com\",\"status\":\"valid\",\"sub_status\":\"permitted\"\x7d"))
    (testWorld "test_api_key") "a@b.com" "https://app.emailverify.io/api/v1/validate"
    { StatusCode := 200, Body := { data :=
      "\x7b\"email\":\"a@b.com\",\"status\":\"valid\",\"sub_status\":\"permitted\"\x7d" } }
    [("email", .string "a@b.com"), ("status", .string "valid"),
     ("sub_status", .string "permitted")]
    "email" "status" "sub_status" "a@b.com" "valid" "permitted"
    (by decide) (by decide) rfl rfl rfl rfl rfl rfl rfl rfl
  refine ⟨?_, h.2.mpr rfl⟩
  rw [h.1]
  decide

/-! ### Type conflicts, exactly -/

theorem storeString_fits (v : JValue) (cur : String) :
    (storeString v cur).2 = none ↔ fitsString v = true := by
  cases v <;> simp [storeString, fitsString]

theorem storeInt_fits (v : JValue) (cur : Int) :
    (storeInt v cur).2 = none ↔ fitsInt v = true := by
  cases v with
  | number lit =>
      simp only [storeInt, fitsInt]
      cases parseInt64 lit <;> simp
  | _ => simp [storeInt, fitsInt]

theorem storeFloat_fits (outOfRange : String → Bool) (v : JValue) (cur : Float64) :
    (storeFloat outOfRange v cur).2 = none ↔ fitsFloat outOfRange v = true := by
  cases v with
  | number lit =>
      simp only [storeFloat, fitsFloat]
      cases outOfRange lit <;> simp
  | _ => simp [storeFloat, fitsFloat]

theorem saveError_eq_none (a b : error) : saveError a b = none ↔ a = none ∧ b = none := by
  cases a <;> simp [saveError]

theorem foldl_memberStep_fits {T : Type} (setField : String → JValue → T → T × error)
    (P : String × JValue → Bool)
    (h : ∀ k v t, (setField k v t).2 = none ↔ P (k, v) = true)
    (members : List (String × JValue)) (acc : T × error) :
    (members.foldl (memberStep setField) acc).2 = none ↔
      acc.2 = none ∧ members.all P = true := by
  induction members generalizing acc with
  | nil => simp
  | cons m ms ih =>
      rw [List.foldl_cons, ih]
      simp only [memberStep, saveError_eq_none, h, List.all_cons, Bool.and_eq_true]
      tauto

theorem unmarshalStruct_fits {T : Type} (typeName : String)
    (setField : String → JValue → T → T × error)
    (fields : List (String × (JValue → Bool)))
    (h : ∀ k v t, (setField k v t).2 = none ↔ fitsFields fields (k, v) = true)
    (v : JValue) (t : T) :
    (unmarshalStruct typeName setField v t).2 = none ↔ fitsStruct fields v = true := by
  cases v with
  | object members =>
      rw [unmarshalStruct_object, foldl_memberStep_fits setField _ h]
      simp [fitsStruct]
  | _ => simp [unmarshalStruct, fitsStruct]

theorem storeElems_fits {T : Type} (elem : JValue → T → T × error) (zero : T)
    (P : JValue → Bool) (h : ∀ j c, (elem j c).2 = none ↔ P j = true)
    (items : List JValue) (cur : List T) :
    (storeElems elem zero items cur).2 = none ↔ items.all P = true := by
  induction items generalizing cur with
  | nil => simp [storeElems]
  | cons j js ih =>
      simp only [storeElems, saveError_eq_none, h, ih, List.all_cons, Bool.and_eq_true]

theorem storeSlice_fits {T : Type} (typeName : String) (elem : JValue → T → T × error)
    (zero : T) (P : JValue → Bool) (h : ∀ j c, (elem j c).2 = none ↔ P j = true)
    (v : JValue) (cur : List T) :
    (storeSlice typeName elem zero v cur).2 = none ↔ fitsSlice P v = true := by
  cases v with
  | array items => simp only [storeSlice, fitsSlice, storeElems_fits elem zero P h]
  | _ => simp [storeSlice, fitsSlice]

theorem ValidateResponse_setField_fits (k : String) (v : JValue)
    (t : ValidateResponse) :
    (ValidateResponse.setField k v t).2 = none ↔
      fitsFields ValidateResponse.fields (k, v) = true := by
  by_cases h1 : fieldMatches k "email" = true
  · have e2 := fieldMatches_other k "email" "status" (by decide) h1
    have e3 := fieldMatches_other k "email" "sub_status" (by decide) h1
    simp [ValidateResponse.setField, fitsFields, ValidateResponse.fields, h1, e2, e3,
      storeString_fits, storeInt_fits, storeFloat_fits]
  · by_cases h2 : fieldMatches k "status" = true
    · have e3 := fieldMatches_other k "status" "sub_status" (by decide) h2
      simp [ValidateResponse.setField, fitsFields, ValidateResponse.fields, h1, h2, e3,
        storeString_fits, storeInt_fits, storeFloat_fits]
    · by_cases h3 : fieldMatches k "sub_status" = true
      · simp [ValidateResponse.setField, fitsFields, ValidateResponse.fields, h1, h2, h3,
          storeString_fits, storeInt_fits, storeFloat_fits]
      · simp [ValidateResponse.setField, fitsFields, ValidateResponse.fields, h1, h2, h3]

theorem EmailBatchResult_setField_fits (k : String) (v : JValue)
    (t : EmailBatchResult) :
    (EmailBatchResult.setField k v t).2 = none ↔
      fitsFields EmailBatchResult.fields (k, v) = true := by
  by_cases h1 : fieldMatches k "address" = true
  · have e2 := fieldMatches_other k "address" "status" (by decide) h1
    have e3 := fieldMatches_other k "address" "sub_status" (by decide) h1
    simp [EmailBatchResult.setField, fitsFields, EmailBatchResult.fields, h1, e2, e3,
      storeString_fits, storeInt_fits, storeFloat_fits]
  · by_cases h2 : fieldMatches k "status" = true
    · have e3 := fieldMatches_other k "status" "sub_status" (by decide) h2
      simp [EmailBatchResult.setField, fitsFields, EmailBatchResult.fields, h1, h2, e3,
        storeString_fits, storeInt_fits, storeFloat_fits]
    · by_cases h3 : fieldMatches k "sub_status" = true
      · simp [EmailBatchResult.setField, fitsFields, EmailBatchResult.fields, h1, h2, h3,
          storeString_fits, storeInt_fits, storeFloat_fits]
      · simp [EmailBatchResult.setField, fitsFields, EmailBatchResult.fields, h1, h2, h3]

theorem BatchValidateResultsWrapper_setField_fits (k : String) (v : JValue)
    (t : BatchValidateResultsWrapper) :
    (BatchValidateResultsWrapper.setField k v t).2 = none ↔
      fitsFields BatchValidateResultsWrapper.fields (k, v) = true := by
  have hs := storeSlice_fits "[]emailverifygo.EmailBatchResult"
    (unmarshalStruct "emailverifygo.EmailBatchResult" EmailBatchResult.setField) {}
    (fitsStruct EmailBatchResult.fields)
    (unmarshalStruct_fits "emailverifygo.EmailBatchResult" EmailBatchResult.setField
      EmailBatchResult.fields EmailBatchResult_setField_fits)
  by_cases h1 : fieldMatches k "email_batch" = true
  · simp [BatchValidateResultsWrapper.setField, fitsFields, BatchValidateResultsWrapper.fields,
      h1, storeString_fits, storeInt_fits, storeFloat_fits, hs]
  · simp [BatchValidateResultsWrapper.setField, fitsFields, BatchValidateResultsWrapper.fields,
      h1]

theorem BatchValidateResponse_setField_fits (k : String) (v : JValue)
    (t : BatchValidateResponse) :
    (BatchValidateResponse.setField k v t).2 = none ↔
      fitsFields BatchValidateResponse.fields (k, v) = true := by
  by_cases h1 : fieldMatches k "status" = true
  · have e2 := fieldMatches_other k "status" "task_id" (by decide) h1
    have e3 := fieldMatches_other k "status" "count_submitted" (by decide) h1
    have e4 := fieldMatches_other k "status" "count_duplicates_removed" (by decide) h1
    have e5 := fieldMatches_other k "status" "count_rejected_emails" (by decide) h1
    have e6 := fieldMatches_other k "status" "count_processing" (by decide) h1
    simp [BatchValidateResponse.setField, fitsFields, BatchValidateResponse.fields, h1, e2, e3,
      e4, e5, e6, storeString_fits, storeInt_fits, storeFloat_fits]
  · by_cases h2 : fieldMatches k "task_id" = true
    · have e3 := fieldMatches_other k "task_id" "count_submitted" (by decide) h2
      have e4 := fieldMatches_other k "task_id" "count_duplicates_removed" (by decide) h2
      have e5 := fieldMatches_other k "task_id" "count_rejected_emails" (by decide) h2
      have e6 := fieldMatches_other k "task_id" "count_processing" (by decide) h2
      simp [BatchValidateResponse.setField, fitsFields, BatchValidateResponse.fields, h1, h2,
        e3, e4, e5, e6, storeString_fits, storeInt_fits, storeFloat_fits]
    · by_cases h3 : fieldMatches k "count_submitted" = true
      · have e4 := fieldMatches_other k "count_submitted" "count_duplicates_removed" (by decide) h3
        have e5 := fieldMatches_other k "count_submitted" "count_rejected_emails" (by decide) h3
        have e6 := fieldMatches_other k "count_submitted" "count_processing" (by decide) h3
        simp [BatchValidateResponse.setField, fitsFields, BatchValidateResponse.fields, h1, h2,
          h3, e4, e5, e6, storeString_fits, storeInt_fits, storeFloat_fits]
      · by_cases h4 : fieldMatches k "count_duplicates_removed" = true
        · have e5 :=
            fieldMatches_other k "count_duplicates_removed" "count_rejected_emails" (by decide) h4
          have e6 :=
            fieldMatches_other k "count_duplicates_removed" "count_processing" (by decide) h4
          simp [BatchValidateResponse.setField, fitsFields, BatchValidateResponse.fields, h1,
            h2, h3, h4, e5, e6, storeString_fits, storeInt_fits, storeFloat_fits]
        · by_cases h5 : fieldMatches k "count_rejected_emails" = true
          · have e6 :=
              fieldMatches_other k "count_rejected_emails" "count_processing" (by decide) h5
            simp [BatchValidateResponse.setField, fitsFields, BatchValidateResponse.fields, h1,
              h2, h3, h4, h5, e6, storeString_fits, storeInt_fits, storeFloat_fits]
          · by_cases h6 : fieldMatches k "count_processing" = true
            · simp [BatchValidateResponse.setField, fitsFields, BatchValidateResponse.fields,
                h1, h2, h3, h4, h5, h6, storeString_fits, storeInt_fits, storeFloat_fits]
            · simp [BatchValidateResponse.setField, fitsFields, BatchValidateResponse.fields,
                h1, h2, h3, h4, h5, h6]

theorem BatchResultResponse_setField_fits (env : Env) (k : String) (v : JValue)
    (t : BatchResultResponse) :
    (BatchResultResponse.setField env k v t).2 = none ↔
      fitsFields (BatchResultResponse.fields env) (k, v) = true := by
  have hs := unmarshalStruct_fits "emailverifygo.BatchValidateResultsWrapper"
    BatchValidateResultsWrapper.setField BatchValidateResultsWrapper.fields
    BatchValidateResultsWrapper_setField_fits
  by_cases h1 : fieldMatches k "count_checked" = true
  · have e2 := fieldMatches_other k "count_checked" "count_total" (by decide) h1
    have e3 := fieldMatches_other k "count_checked" "task_id" (by decide) h1
    have e4 := fieldMatches_other k "count_checked" "name" (by decide) h1
    have e5 := fieldMatches_other k "count_checked" "status" (by decide) h1
    have e6 := fieldMatches_other k "count_checked" "progress_percentage" (by decide) h1
    have e7 := fieldMatches_other k "count_checked" "results" (by decide) h1
    simp [BatchResultResponse.setField, fitsFields, BatchResultResponse.fields, h1, e2, e3, e4,
      e5, e6, e7, storeString_fits, storeInt_fits, storeFloat_fits, hs]
  · by_cases h2 : fieldMatches k "count_total" = true
    · have e3 := fieldMatches_other k "count_total" "task_id" (by decide) h2
      have e4 := fieldMatches_other k "count_total" "name" (by decide) h2
      have e5 := fieldMatches_other k "count_total" "status" (by decide) h2
      have e6 := fieldMatches_other k "count_total" "progress_percentage" (by decide) h2
      have e7 := fieldMatches_other k "count_total" "results" (by decide) h2
      simp [BatchResultResponse.setField, fitsFields, BatchResultResponse.fields, h1, h2, e3,
        e4, e5, e6, e7, storeString_fits, storeInt_fits, storeFloat_fits, hs]
    · by_cases h3 : fieldMatches k "task_id" = true
      · have e4 := fieldMatches_other k "task_id" "name" (by decide) h3
        have e5 := fieldMatches_other k "task_id" "status" (by decide) h3
        have e6 := fieldMatches_other k "task_id" "progress_percentage" (by decide) h3
        have e7 := fieldMatches_other k "task_id" "results" (by decide) h3
        simp [BatchResultResponse.setField, fitsFields, BatchResultResponse.fields, h1, h2, h3,
          e4, e5, e6, e7, storeString_fits, storeInt_fits, storeFloat_fits, hs]
      · by_cases h4 : fieldMatches k "name" = true
        · have e5 := fieldMatches_other k "name" "status" (by decide) h4
          have e6 := fieldMatches_other k "name" "progress_percentage" (by decide) h4
          have e7 := fieldMatches_other k "name" "results" (by decide) h4
          simp [BatchResultResponse.setField, fitsFields, BatchResultResponse.fields, h1, h2,
            h3, h4, e5, e6, e7, storeString_fits, storeInt_fits, storeFloat_fits, hs]
        · by_cases h5 : fieldMatches k "status" = true
          · have e6 := fieldMatches_other k "status" "progress_percentage" (by decide) h5
            have e7 := fieldMatches_other k "status" "results" (by decide) h5
            simp [BatchResultResponse.setField, fitsFields, BatchResultResponse.fields, h1, h2,
              h3, h4, h5, e6, e7, storeString_fits, storeInt_fits, storeFloat_fits, hs]
          · by_cases h6 : fieldMatches k "progress_percentage" = true
            · have e7 := fieldMatches_other k "progress_percentage" "results" (by decide) h6
              simp [BatchResultResponse.setField, fitsFields, BatchResultResponse.fields, h1,
                h2, h3, h4, h5, h6, e7, storeString_fits, storeInt_fits, storeFloat_fits, hs]
            · by_cases h7 : fieldMatches k "results" = true
              · simp [BatchResultResponse.setField, fitsFields, BatchResultResponse.fields, h1,
                  h2, h3, h4, h5, h6, h7, storeString_fits, storeInt_fits, storeFloat_fits, hs]
              · simp [BatchResultResponse.setField, fitsFields, BatchResultResponse.fields, h1,
                  h2, h3, h4, h5, h6, h7]

theorem FindEmailResponse_setField_fits (k : String) (v : JValue)
    (t : FindEmailResponse) :
    (FindEmailResponse.setField k v t).2 = none ↔
      fitsFields FindEmailResponse.fields (k, v) = true := by
  by_cases h1 : fieldMatches k "email" = true
  · have e2 := fieldMatches_other k "email" "status" (by decide) h1
    simp [FindEmailResponse.setField, fitsFields, FindEmailResponse.fields, h1, e2,
      storeString_fits, storeInt_fits, storeFloat_fits]
  · by_cases h2 : fieldMatches k "status" = true
    · simp [FindEmailResponse.setField, fitsFields, FindEmailResponse.fields, h1, h2,
        storeString_fits, storeInt_fits, storeFloat_fits]
    · simp [FindEmailResponse.setField, fitsFields, FindEmailResponse.fields, h1, h2]

theorem AccountBalanceResponse_setField_fits (k : String) (v : JValue)
    (t : AccountBalanceResponse) :
    (AccountBalanceResponse.setField k v t).2 = none ↔
      fitsFields AccountBalanceResponse.fields (k, v) = true := by
  by_cases h1 : fieldMatches k "api_status" = true
  · have e2 := fieldMatches_other k "api_status" "daily_credits_limit" (by decide) h1
    have e3 := fieldMatches_other k "api_status" "referral_credits" (by decide) h1
    have e4 := fieldMatches_other k "api_status" "remaining_credits" (by decide) h1
    have e5 := fieldMatches_other k "api_status" "remaining_daily_credits" (by decide) h1
    have e6 := fieldMatches_other k "api_status" "bonus_credits" (by decide) h1
    simp [AccountBalanceResponse.setField, fitsFields, AccountBalanceResponse.fields, h1, e2,
      e3, e4, e5, e6, storeString_fits, storeInt_fits, storeFloat_fits]
  · by_cases h2 : fieldMatches k "daily_credits_limit" = true
    · have e3 := fieldMatches_other k "daily_credits_limit" "referral_credits" (by decide) h2
      have e4 := fieldMatches_other k "daily_credits_limit" "remaining_credits" (by decide) h2
      have e5 :=
        fieldMatches_other k "daily_credits_limit" "remaining_daily_credits" (by decide) h2
      have e6 := fieldMatches_other k "daily_credits_limit" "bonus_credits" (by decide) h2
      simp [AccountBalanceResponse.setField, fitsFields, AccountBalanceResponse.fields, h1, h2,
        e3, e4, e5, e6, storeString_fits, storeInt_fits, storeFloat_fits]
    · by_cases h3 : fieldMatches k "referral_credits" = true
      · have e4 := fieldMatches_other k "referral_credits" "remaining_credits" (by decide) h3
        have e5 := fieldMatches_other k "referral_credits" "remaining_daily_credits" (by decide) h3
        have e6 := fieldMatches_other k "referral_credits" "bonus_credits" (by decide) h3
        simp [AccountBalanceResponse.setField, fitsFields, AccountBalanceResponse.fields, h1,
          h2, h3, e4, e5, e6, storeString_fits, storeInt_fits, storeFloat_fits]
      · by_cases h4 : fieldMatches k "remaining_credits" = true
        · have e5 :=
            fieldMatches_other k "remaining_credits" "remaining_daily_credits" (by decide) h4
          have e6 := fieldMatches_other k "remaining_credits" "bonus_credits" (by decide) h4
          simp [AccountBalanceResponse.setField, fitsFields, AccountBalanceResponse.fields, h1,
            h2, h3, h4, e5, e6, storeString_fits, storeInt_fits, storeFloat_fits]
        · by_cases h5 : fieldMatches k "remaining_daily_credits" = true
          · have e6 :=
              fieldMatches_other k "remaining_daily_credits" "bonus_credits" (by decide) h5
            simp [AccountBalanceResponse.setField, fitsFields, AccountBalanceResponse.fields,
              h1, h2, h3, h4, h5, e6, storeString_fits, storeInt_fits, storeFloat_fits]
          · by_cases h6 : fieldMatches k "bonus_credits" = true
            · simp [AccountBalanceResponse.setField, fitsFields, AccountBalanceResponse.fields,
                h1, h2, h3, h4, h5, h6, storeString_fits, storeInt_fits, storeFloat_fits]
            · simp [AccountBalanceResponse.setField, fitsFields, AccountBalanceResponse.fields,
                h1, h2, h3, h4, h5, h6]

theorem Decode_of_scan {T : Type} [JSONTarget T] (env : Env) (body : Body) (object : T)
    (v : JValue) (hv : Decoder_scan body = .ok v) :
    Decode env body object = JSONTarget.unmarshal env v object := by
  simp [Decode, hv]

theorem DoGetRequest_err_none_iff {T : Type} [JSONTarget T] (env : Env) (url : String)
    (object : T) (w : World) (response : Response) (v : JValue)
    (hurl : env.ParseURL url = none) (hstatus : response.StatusCode = 200)
    (hdo : env.Do { Method := "GET", URL := url } = .ok response)
    (hv : Decoder_scan response.Body = .ok v) :
    (DoGetRequest env url object w).err = none ↔
      (JSONTarget.unmarshal env v object).2 = none := by
  simp only [DoGetRequest, NewRequest, hurl, hdo, hstatus, ne_eq, not_true_eq_false,
    if_false, Decode_of_scan env response.Body object v hv]
  cases h : JSONTarget.unmarshal env v object with
  | mk o e => cases e <;> simp

theorem DoPostRequest_err_none_iff {T : Type} [JSONTarget T] (env : Env)
    (url payload : String) (object : T) (w : World) (response : Response) (v : JValue)
    (hurl : env.ParseURL url = none) (hstatus : response.StatusCode = 200)
    (hdo : env.Do { Method := "POST", URL := url, ContentType := some "application/json",
                    Payload := some payload } = .ok response)
    (hv : Decoder_scan response.Body = .ok v) :
    (DoPostRequest env url payload object w).err = none ↔
      (JSONTarget.unmarshal env v object).2 = none := by
  simp only [DoPostRequest, NewRequest, hurl, hdo, hstatus, ne_eq, not_true_eq_false,
    if_false, Decode_of_scan env response.Body object v hv]
  cases h : JSONTarget.unmarshal env v object with
  | mk o e => cases e <;> simp

theorem unmarshal_fits (env : Env) (v : JValue) :
    (∀ r : ValidateResponse,
        (JSONTarget.unmarshal env v r).2 = none ↔ fitsStruct ValidateResponse.fields v = true)
    ∧ (∀ r : BatchValidateResponse,
        (JSONTarget.unmarshal env v r).2 = none ↔
          fitsStruct BatchValidateResponse.fields v = true)
    ∧ (∀ r : BatchResultResponse,
        (JSONTarget.unmarshal env v r).2 = none ↔
          fitsStruct (BatchResultResponse.fields env) v = true)
    ∧ (∀ r : FindEmailResponse,
        (JSONTarget.unmarshal env v r).2 = none ↔ fitsStruct FindEmailResponse.fields v = true)
    ∧ (∀ r : AccountBalanceResponse,
        (JSONTarget.unmarshal env v r).2 = none ↔
          fitsStruct AccountBalanceResponse.fields v = true) :=
  ⟨fun r => unmarshalStruct_fits _ _ _ ValidateResponse_setField_fits v r,
   fun r => unmarshalStruct_fits _ _ _ BatchValidateResponse_setField_fits v r,
   fun r => unmarshalStruct_fits _ _ _ (BatchResultResponse_setField_fits env) v r,
   fun r => unmarshalStruct_fits _ _ _ FindEmailResponse_setField_fits v r,
   fun r => unmarshalStruct_fits _ _ _ AccountBalanceResponse_setField_fits v r⟩

/-- C9, as stated, fails for a valid JSON value followed by trailing text: at status 200
the decoder stops at the end of the first value, so DoGetRequest and DoPostRequest return
a nil error and the target holds the decoded fields. -/
theorem trailing_text_is_accepted_at_200 :
    DoGetRequest (exampleEnv (answerWith 200
        "\x7b\"email\":\"a@b.com\",\"status\":\"valid\",\"sub_status\":\"permitted\"\x7d <!-- cached -->"))
        "https://app.emailverify.io/api/v1/validate?email=a%40b.com&key=k"
        ({} : ValidateResponse) (testWorld "k") =
      { err := none,
        object := { Email := "a@b.com", Status := "valid", SubStatus := "permitted" },
        world := { testWorld "k" with
          sent :=
            [{ Method := "GET"
               URL := "https://app.emailverify.io/api/v1/validate?email=a%40b.com&key=k" }] } }
    ∧ (DoPostRequest (exampleEnv (answerWith 200 "\x7b\"status\":\"success\",\"task_id\":12345\x7d]]"))
        "https://app.emailverify.io/api/v1/validate-batch" "\x7b\x7d"
        ({} : BatchValidateResponse) (testWorld "k")).err = none := by
  decide

/-- C9 (amended): at status 200 DoGetRequest and DoPostRequest return the error of
decoding the first JSON value of the body into the target, wrapped as "failed to decode
JSON response: ", and nil when there is none. Decoding fails when the body does not start
with a complete JSON value (an empty body included) and when the value conflicts with the
target: a value that is neither an object nor `null` for each of the five response types,
and a member that is not of the kind of the field it selects. Text after a first value
that is complete at its closing bracket is ignored. A member whose key selects no field
changes nothing and is no error, and a field that no member selects keeps its value.
For each of the five response types the conflict is exact, for the decoding and for both
executors: the error is nil if and only if the first value is `null` or an object in which
every member whose key selects a field has a value that the field's declared type takes
(a string for a string, a 64-bit integer literal for an int, a number in range for a
float64, an object of fitting members for the nested struct, an array of fitting objects
for the slice, `null` for any of them). -/
theorem decode_at_200 {T : Type} [JSONTarget T] (env : Env) (url payload : String)
    (object : T) (w : World) (response : Response) (hurl : env.ParseURL url = none)
    (hstatus : response.StatusCode = 200) :
    (env.Do { Method := "GET", URL := url } = .ok response →
      DoGetRequest env url object w =
        { err := (Decode env response.Body object).2.map
            (GoError.Wrap "failed to decode JSON response: "),
          object := (Decode env response.Body object).1,
          world := { w with sent := w.sent ++ [{ Method := "GET", URL := url }] } })
    ∧ (env.Do { Method := "POST", URL := url, ContentType := some "application/json",
                Payload := some payload } = .ok response →
      DoPostRequest env url payload object w =
        { err := (Decode env response.Body object).2.map
            (GoError.Wrap "failed to decode JSON response: "),
          object := (Decode env response.Body object).1,
          world := { w with sent := w.sent ++
            [{ Method := "POST", URL := url, ContentType := some "application/json",
               Payload := some payload }] } })
    ∧ (∀ e, Contains (GoError.Wrap "failed to decode JSON response: " e).Error
        "failed to decode JSON response")
    ∧ (∀ f, Decoder_scan response.Body = .error f →
        Decode env response.Body object = (object, some f.toError))
    ∧ (∀ v, Decoder_scan response.Body = .ok v →
        Decode env response.Body object = JSONTarget.unmarshal env v object)
    ∧ Decoder_scan { data := "" } = .error .eof
    ∧ (∀ (body trailing : String) (v : JValue), scanAll body.data = .done v →
        Decoder_scan { data := body ++ trailing } = .ok v)
    ∧ (∀ (v : JValue), v ≠ .null → (∀ members, v ≠ .object members) →
        (∀ r : ValidateResponse, (JSONTarget.unmarshal env v r).2 ≠ none)
        ∧ (∀ r : BatchValidateResponse, (JSONTarget.unmarshal env v r).2 ≠ none)
        ∧ (∀ r : BatchResultResponse, (JSONTarget.unmarshal env v r).2 ≠ none)
        ∧ (∀ r : FindEmailResponse, (JSONTarget.unmarshal env v r).2 ≠ none)
        ∧ (∀ r : AccountBalanceResponse, (JSONTarget.unmarshal env v r).2 ≠ none))
    ∧ (∀ (v : JValue) (cur : String),
        (storeString v cur).2 = none ↔ (v = .null ∨ ∃ s, v = .string s))
    ∧ (∀ (v : JValue) (cur : Int),
        (storeInt v cur).2 = none ↔
          (v = .null ∨ ∃ lit n, v = .number lit ∧ parseInt64 lit = some n))
    ∧ (∀ (v : JValue) (cur : Float64),
        (storeFloat env.floatOutOfRange v cur).2 = none ↔
          (v = .null ∨ ∃ lit, v = .number lit ∧ env.floatOutOfRange lit = false))
    ∧ ((∀ key v (r : ValidateResponse),
          (∀ tag ∈ ValidateResponse.tags, fieldMatches key tag = false) →
          ValidateResponse.setField key v r = (r, none))
      ∧ (∀ key v (r : BatchValidateResponse),
          (∀ tag ∈ BatchValidateResponse.tags, fieldMatches key tag = false) →
          BatchValidateResponse.setField key v r = (r, none))
      ∧ (∀ key v (r : BatchResultResponse),
          (∀ tag ∈ BatchResultResponse.tags, fieldMatches key tag = false) →
          BatchResultResponse.setField env key v r = (r, none))
      ∧ (∀ key v (r : FindEmailResponse),
          (∀ tag ∈ FindEmailResponse.tags, fieldMatches key tag = false) →
          FindEmailResponse.setField key v r = (r, none))
      ∧ (∀ key v (r : AccountBalanceResponse),
          (∀ tag ∈ AccountBalanceResponse.tags, fieldMatches key tag = false) →
          AccountBalanceResponse.setField key v r = (r, none)))
    ∧ ((KeepsField ValidateResponse.setField "email" (·.Email)
        ∧ KeepsField ValidateResponse.setField "status" (·.Status)
        ∧ KeepsField ValidateResponse.setField "sub_status" (·.SubStatus))
      ∧ (KeepsField BatchValidateResponse.setField "status" (·.Status)
        ∧ KeepsField BatchValidateResponse.setField "task_id" (·.TaskID)
        ∧ KeepsField BatchValidateResponse.setField "count_submitted" (·.CountSubmitted)
        ∧ KeepsField BatchValidateResponse.setField "count_duplicates_removed"
            (·.CountDuplicatesRemoved)
        ∧ KeepsField BatchValidateResponse.setField "count_rejected_emails" (·.CountRejected)
        ∧ KeepsField BatchValidateResponse.setField "count_processing" (·.CountProcessing))
      ∧ (KeepsField (BatchResultResponse.setField env) "count_checked" (·.CountChecked)
        ∧ KeepsField (BatchResultResponse.setField env) "count_total" (·.CountTotal)
        ∧ KeepsField (BatchResultResponse.setField env) "task_id" (·.TaskID)
        ∧ KeepsField (BatchResultResponse.setField env) "name" (·.Name)
        ∧ KeepsField (BatchResultResponse.setField env) "status" (·.Status)
        ∧ KeepsField (BatchResultResponse.setField env) "progress_percentage"
            (·.ProgressPercentage)
        ∧ KeepsField (BatchResultResponse.setField env) "results" (·.Results))
      ∧ (KeepsField FindEmailResponse.setField "email" (·.Email)
        ∧ KeepsField FindEmailResponse.setField "status" (·.Status))
      ∧ (KeepsField AccountBalanceResponse.setField "api_status" (·.APIStatus)
        ∧ KeepsField AccountBalanceResponse.setField "daily_credits_limit"
            (·.DailyCreditsLimit)
        ∧ KeepsField AccountBalanceResponse.setField "referral_credits" (·.ReferralCredits)
        ∧ KeepsField AccountBalanceResponse.setField "remaining_credits" (·.RemainingCredits)
        ∧ KeepsField AccountBalanceResponse.setField "remaining_daily_credits"
            (·.RemainingDailyCredits)
        ∧ KeepsField AccountBalanceResponse.setField "bonus_credits" (·.BonusCredits)))
    ∧ (∀ v : JValue,
        (∀ r : ValidateResponse,
          (JSONTarget.unmarshal env v r).2 = none ↔
            fitsStruct ValidateResponse.fields v = true)
        ∧ (∀ r : BatchValidateResponse,
          (JSONTarget.unmarshal env v r).2 = none ↔
            fitsStruct BatchValidateResponse.fields v = true)
        ∧ (∀ r : BatchResultResponse,
          (JSONTarget.unmarshal env v r).2 = none ↔
            fitsStruct (BatchResultResponse.fields env) v = true)
        ∧ (∀ r : FindEmailResponse,
          (JSONTarget.unmarshal env v r).2 = none ↔
            fitsStruct FindEmailResponse.fields v = true)
        ∧ (∀ r : AccountBalanceResponse,
          (JSONTarget.unmarshal env v r).2 = none ↔
            fitsStruct AccountBalanceResponse.fields v = true))
    ∧ (∀ v : JValue, Decoder_scan response.Body = .ok v →
        env.Do { Method := "GET", URL := url } = .ok response →
        (∀ r : ValidateResponse,
          (DoGetRequest env url r w).err = none ↔ fitsStruct ValidateResponse.fields v = true)
        ∧ (∀ r : BatchValidateResponse,
          (DoGetRequest env url r w).err = none ↔
            fitsStruct BatchValidateResponse.fields v = true)
        ∧ (∀ r : BatchResultResponse,
          (DoGetRequest env url r w).err = none ↔
            fitsStruct (BatchResultResponse.fields env) v = true)
        ∧ (∀ r : FindEmailResponse,
          (DoGetRequest env url r w).err = none ↔ fitsStruct FindEmailResponse.fields v = true)
        ∧ (∀ r : AccountBalanceResponse,
          (DoGetRequest env url r w).err = none ↔
            fitsStruct AccountBalanceResponse.fields v = true))
    ∧ (∀ v : JValue, Decoder_scan response.Body = .ok v →
        env.Do { Method := "POST", URL := url, ContentType := some "application/json",
                 Payload := some payload } = .ok response →
        (∀ r : ValidateResponse,
          (DoPostRequest env url payload r w).err = none ↔
            fitsStruct ValidateResponse.fields v = true)
        ∧ (∀ r : BatchValidateResponse,
          (DoPostRequest env url payload r w).err = none ↔
            fitsStruct BatchValidateResponse.fields v = true)
        ∧ (∀ r : BatchResultResponse,
          (DoPostRequest env url payload r w).err = none ↔
            fitsStruct (BatchResultResponse.fields env) v = true)
        ∧ (∀ r : FindEmailResponse,
          (DoPostRequest env url payload r w).err = none ↔
            fitsStruct FindEmailResponse.fields v = true)
        ∧ (∀ r : AccountBalanceResponse,
          (DoPostRequest env url payload r w).err = none ↔
            fitsStruct AccountBalanceResponse.fields v = true)) := by
  refine ⟨?_, ?_, ?_, ?_, ?_, rfl, ?_, ?_, storeString_no_error_iff, storeInt_no_error_iff,
    storeFloat_no_error_iff _, ?_, ?_, unmarshal_fits env, ?_, ?_⟩
  · intro hdo
    simp only [DoGetRequest, NewRequest, hurl, hdo, hstatus, ne_eq, not_true_eq_false,
      if_false]
    cases h : Decode env response.Body object with
    | mk o e => cases e <;> rfl
  · intro hdo
    simp only [DoPostRequest, NewRequest, hurl, hdo, hstatus, ne_eq, not_true_eq_false,
      if_false]
    cases h : Decode env response.Body object with
    | mk o e => cases e <;> rfl
  · intro e
    exact Contains_append_right _ _ _ (by decide)
  · intro f hf
    simp [Decode, hf]
  · intro v hv
    simp [Decode, hv]
  · intro body trailing v h
    have h2 := scanAll_append_of_done body.data trailing.data v h
    simp [Decoder_scan, String.data_append, h2]
  · intro v hnull hobj
    refine ⟨?_, ?_, ?_, ?_, ?_⟩ <;> intro r <;>
      simp [JSONTarget.unmarshal, unmarshalStruct_of_scalar _ _ v _ hnull hobj]
  · exact ⟨ValidateResponse_setField_unknown_key, BatchValidateResponse_setField_unknown_key,
      BatchResultResponse_setField_unknown_key env, FindEmailResponse_setField_unknown_key,
      AccountBalanceResponse_setField_unknown_key⟩
  · exact ⟨ValidateResponse_keeps_fields, BatchValidateResponse_keeps_fields,
      BatchResultResponse_keeps_fields env, FindEmailResponse_keeps_fields,
      AccountBalanceResponse_keeps_fields⟩
  · intro v hv hdo
    have hu := unmarshal_fits env v
    exact ⟨fun r => (DoGetRequest_err_none_iff env url r w response v hurl hstatus hdo hv).trans
        (hu.1 r),
      fun r => (DoGetRequest_err_none_iff env url r w response v hurl hstatus hdo hv).trans
        (hu.2.1 r),
      fun r => (DoGetRequest_err_none_iff env url r w response v hurl hstatus hdo hv).trans
        (hu.2.2.1 r),
      fun r => (DoGetRequest_err_none_iff env url r w response v hurl hstatus hdo hv).trans
        (hu.2.2.2.1 r),
      fun r => (DoGetRequest_err_none_iff env url r w response v hurl hstatus hdo hv).trans
        (hu.2.2.2.2 r)⟩
  · intro v hv hdo
    have hu := unmarshal_fits env v
    exact ⟨fun r => (DoPostRequest_err_none_iff env url payload r w response v hurl hstatus
        hdo hv).trans (hu.1 r),
      fun r => (DoPostRequest_err_none_iff env url payload r w response v hurl hstatus
        hdo hv).trans (hu.2.1 r),
      fun r => (DoPostRequest_err_none_iff env url payload r w response v hurl hstatus
        hdo hv).trans (hu.2.2.1 r),
      fun r => (DoPostRequest_err_none_iff env url payload r w response v hurl hstatus
        hdo hv).trans (hu.2.2.2.1 r),
      fun r => (DoPostRequest_err_none_iff env url payload r w response v hurl hstatus
        hdo hv).trans (hu.2.2.2.2 r)⟩

/-- The amended C9 at answers with status 200: an empty body, a body cut off inside the
object, a number where the field is a string, a number inside an entry of the nested array
where the field is a string, a number that is not an integer where the field is an int,
a boolean where the last field is a string, and, for the POST executor, a string where
the field is an int; each gives a decode error. -/
theorem decode_at_200_witness :
    (DoGetRequest (exampleEnv (answerWith 200 "")) "https://app.emailverify.io/x?key=k"
        ({} : ValidateResponse) (testWorld "k")).err =
      some (.Wrap "failed to decode JSON response: " (.New "EOF"))
    ∧ (DoGetRequest (exampleEnv (answerWith 200 "\x7b\"email\":\"a@b.com\",\"sta"))
        "https://app.emailverify.io/x?key=k" ({} : ValidateResponse) (testWorld "k")).err =
      some (.Wrap "failed to decode JSON response: " (.New "unexpected EOF"))
    ∧ (DoGetRequest
        (exampleEnv (answerWith 200 "\x7b\"email\":5,\"unknown\":[],\"status\":\"valid\"\x7d"))
        "https://app.emailverify.io/x?key=k" ({} : ValidateResponse) (testWorld "k")).err =
      some (.Wrap "failed to decode JSON response: " (typeError "number 5" "string"))
    ∧ (DoGetRequest
        (exampleEnv (answerWith 200
          "\x7b\"results\":\x7b\"email_batch\":[\x7b\"address\":\"a@b.com\"\x7d,\x7b\"address\":5\x7d]\x7d\x7d"))
        "https://app.emailverify.io/x?key=k" ({} : BatchResultResponse) (testWorld "k")).err =
      some (.Wrap "failed to decode JSON response: " (typeError "number 5" "string"))
    ∧ (DoGetRequest (exampleEnv (answerWith 200 "\x7b\"remaining_credits\":1.5\x7d"))
        "https://app.emailverify.io/x?key=k" ({} : AccountBalanceResponse)
        (testWorld "k")).err ≠ none
    ∧ (DoGetRequest
        (exampleEnv (answerWith 200 "\x7b\"status\":\"valid\",\"SUB_STATUS\":true\x7d"))
        "https://app.emailverify.io/x?key=k" ({} : ValidateResponse) (testWorld "k")).err =
      some (.Wrap "failed to decode JSON response: " (typeError "bool" "string"))
    ∧ (DoPostRequest
        (exampleEnv (answerWith 200 "\x7b\"status\":\"success\",\"task_id\":\"12345\"\x7d"))
        "https://app.emailverify.io/api/v1/validate-batch" "\x7b\x7d"
        ({} : BatchValidateResponse) (testWorld "k")).err =
      some (.Wrap "failed to decode JSON response: " (typeError "string" "int")) := by
  refine ⟨?_, ?_, ?_, ?_, ?_, ?_, ?_⟩
  · rw [(decode_at_200 (exampleEnv (answerWith 200 "")) "https://app.emailverify.io/x?key=k" ""
      ({} : ValidateResponse) (testWorld "k") { StatusCode := 200, Body := { data := "" } }
      rfl rfl).1 rfl]
    decide
  · rw [(decode_at_200 (exampleEnv (answerWith 200 "\x7b\"email\":\"a@b.com\",\"sta"))
      "https://app.emailverify.io/x?key=k" "" ({} : ValidateResponse) (testWorld "k")
      { StatusCode := 200, Body := { data := "\x7b\"email\":\"a@b.com\",\"sta" } } rfl rfl).1 rfl]
    decide
  · rw [(decode_at_200
      (exampleEnv (answerWith 200 "\x7b\"email\":5,\"unknown\":[],\"status\":\"valid\"\x7d"))
      "https://app.emailverify.io/x?key=k" "" ({} : ValidateResponse) (testWorld "k")
      { StatusCode := 200,
        Body := { data := "\x7b\"email\":5,\"unknown\":[],\"status\":\"valid\"\x7d" } } rfl rfl).1 rfl]
    decide
  · rw [(decode_at_200
      (exampleEnv (answerWith 200
        "\x7b\"results\":\x7b\"email_batch\":[\x7b\"address\":\"a@b.com\"\x7d,\x7b\"address\":5\x7d]\x7d\x7d"))
      "https://app.emailverify.io/x?key=k" "" ({} : BatchResultResponse) (testWorld "k")
      { StatusCode := 200,
        Body := { data :=
          "\x7b\"results\":\x7b\"email_batch\":[\x7b\"address\":\"a@b.com\"\x7d,\x7b\"address\":5\x7d]\x7d\x7d" } }
      rfl rfl).1 rfl]
    decide
  · intro h
    have hfit := ((decode_at_200
      (exampleEnv (answerWith 200 "\x7b\"remaining_credits\":1.5\x7d"))
      "https://app.emailverify.io/x?key=k" "" ({} : AccountBalanceResponse) (testWorld "k")
      { StatusCode := 200, Body := { data := "\x7b\"remaining_credits\":1.5\x7d" } }
      rfl rfl).2.2.2.2.2.2.2.2.2.2.2.2.2.2.1
      (.object [("remaining_credits", .number "1.5")]) rfl rfl).2.2.2.2
      ({} : AccountBalanceResponse)
    exact absurd (hfit.mp h) (by decide)
  · rw [(decode_at_200
      (exampleEnv (answerWith 200 "\x7b\"status\":\"valid\",\"SUB_STATUS\":true\x7d"))
      "https://app.emailverify.io/x?key=k" "" ({} : ValidateResponse) (testWorld "k")
      { StatusCode := 200,
        Body := { data := "\x7b\"status\":\"valid\",\"SUB_STATUS\":true\x7d" } } rfl rfl).1 rfl]
    decide
  · rw [(decode_at_200
      (exampleEnv (answerWith 200 "\x7b\"status\":\"success\",\"task_id\":\"12345\"\x7d"))
      "https://app.emailverify.io/api/v1/validate-batch" "\x7b\x7d"
      ({} : BatchValidateResponse) (testWorld "k")
      { StatusCode := 200,
        Body := { data := "\x7b\"status\":\"success\",\"task_id\":\"12345\"\x7d" } }
      rfl rfl).2.1 rfl]
    decide

/-! ## The API key on the wire -/

/-- C10, as stated, fails for the POST of ValidateBatch: the request goes to the joined
URL with nothing appended, so its URL has no query string and no `key` parameter; the key
travels in the JSON body only. -/
theorem ValidateBatch_url_has_no_key :
    (ValidateBatch (exampleEnv (answerWith 200 "\x7b\"status\":\"success\",\"task_id\":12345\x7d"))
        "Test Batch" ["valid@example.com", "invalid@example.com"]
        (testWorld "test_api_key")).world.sent =
      [{ Method := "POST", URL := "https://app.emailverify.io/api/v1/validate-batch",
         ContentType := some "application/json",
         Payload := some
          "\x7b\"title\":\"Test Batch\",\"key\":\"test_api_key\",\"email_batch\":[\x7b\"address\":\"valid@example.com\"\x7d,\x7b\"address\":\"invalid@example.com\"\x7d]\x7d\n" }]
    ∧ rawQuery "https://app.emailverify.io/api/v1/validate-batch" = ""
    ∧ ¬ Contains "https://app.emailverify.io/api/v1/validate-batch" "key" := by
  decide

/-- C10 (amended): every request that Validate, GetBatchResults, FindEmail or
GetAccountBalance hands to the transport is a GET whose URL is the joined URL, a question
mark and the encoding of the parameters with `key` set to the API key (which is then not
empty); `key=` followed by the escaped API key is one of the encoded pairs, and when the
joined URL has no `?` and no `#` the encoding is the raw query of the URL. The POST of
ValidateBatch goes to the joined URL itself, with the API key in the `key` field of its
JSON body. -/
theorem get_requests_carry_key (env : Env) (w : World) :
    (∀ email, (Validate env email w).world.sent = w.sent
      ∨ ∃ finalURL, env.JoinPath w.URI ENDPOINT_VALIDATE = .ok finalURL ∧ w.API_KEY ≠ ""
        ∧ (Validate env email w).world.sent = w.sent ++
          [{ Method := "GET"
             URL := finalURL ++ "?" ++
              ((Values.Set [] "email" email).Set "key" w.API_KEY).Encode }])
    ∧ (∀ taskID : Int, (GetBatchResults env taskID w).world.sent = w.sent
      ∨ ∃ finalURL, env.JoinPath w.URI ENDPOINT_BATCH_RESULT = .ok finalURL ∧ w.API_KEY ≠ ""
        ∧ (GetBatchResults env taskID w).world.sent = w.sent ++
          [{ Method := "GET"
             URL := finalURL ++ "?" ++
              ((Values.Set [] "task_id" (toString taskID)).Set "key" w.API_KEY).Encode }])
    ∧ (∀ name domain, (FindEmail env name domain w).world.sent = w.sent
      ∨ ∃ finalURL, env.JoinPath w.URI ENDPOINT_EMAIL_FINDER = .ok finalURL ∧ w.API_KEY ≠ ""
        ∧ (FindEmail env name domain w).world.sent = w.sent ++
          [{ Method := "GET"
             URL := finalURL ++ "?" ++
              (((Values.Set [] "name" name).Set "domain" domain).Set "key" w.API_KEY).Encode }])
    ∧ ((GetAccountBalance env w).world.sent = w.sent
      ∨ ∃ finalURL, env.JoinPath w.URI ENDPOINT_ACCOUNT_BALANCE = .ok finalURL
        ∧ w.API_KEY ≠ ""
        ∧ (GetAccountBalance env w).world.sent = w.sent ++
          [{ Method := "GET"
             URL := finalURL ++ "?" ++ (Values.Set [] "key" w.API_KEY).Encode }])
    ∧ (∀ params : Values,
        ("key=" ++ QueryEscape w.API_KEY) ∈ encodedPairs (params.Set "key" w.API_KEY)
        ∧ (params.Set "key" w.API_KEY).Encode =
            "&".intercalate (encodedPairs (params.Set "key" w.API_KEY))
        ∧ (params.Set "key" w.API_KEY).Get "key" = w.API_KEY)
    ∧ (∀ (finalURL : String) (params : Values), '?' ∉ finalURL.data → '#' ∉ finalURL.data →
        rawQuery (finalURL ++ "?" ++ params.Encode) = params.Encode)
    ∧ (∀ title emails, (ValidateBatch env title emails w).world.sent = w.sent
      ∨ ∃ finalURL body, env.JoinPath w.URI ENDPOINT_VALIDATE_BATCH = .ok finalURL
        ∧ BatchValidateRequest.Encode
            { Title := title, Key := w.API_KEY,
              EmailBatch := emails.map fun a => { Address := a } } = .ok body
        ∧ (ValidateBatch env title emails w).world.sent = w.sent ++
          [{ Method := "POST", URL := finalURL, ContentType := some "application/json",
             Payload := some body }]) := by
  refine ⟨?_, ?_, ?_, ?_, ?_, ?_, ?_⟩
  · intro email
    by_cases he : email = ""
    · left; simp [Validate, he]
    · by_cases hk : w.API_KEY = ""
      · left; simp [Validate, he, PrepareURL, hk]
      · cases hj : env.JoinPath w.URI ENDPOINT_VALIDATE with
        | error e => left; simp [Validate, he, PrepareURL, hk, hj]
        | ok finalURL =>
          cases hp : env.ParseURL (finalURL ++ "?" ++
              ((Values.Set [] "email" email).Set "key" w.API_KEY).Encode) with
          | some e => left; simp [Validate, he, PrepareURL, hk, hj, DoGetRequest_world, hp]
          | none =>
            right
            exact ⟨finalURL, rfl, hk,
              by simp [Validate, he, PrepareURL, hk, hj, DoGetRequest_world, hp]⟩
  · intro taskID
    by_cases ht : taskID ≤ 0
    · left; simp [GetBatchResults, ht]
    · by_cases hk : w.API_KEY = ""
      · left; simp [GetBatchResults, ht, PrepareURL, hk]
      · cases hj : env.JoinPath w.URI ENDPOINT_BATCH_RESULT with
        | error e => left; simp [GetBatchResults, ht, PrepareURL, hk, hj]
        | ok finalURL =>
          cases hp : env.ParseURL (finalURL ++ "?" ++
              ((Values.Set [] "task_id" (toString taskID)).Set "key" w.API_KEY).Encode) with
          | some e =>
            left; simp [GetBatchResults, ht, PrepareURL, hk, hj, DoGetRequest_world, hp]
          | none =>
            right
            exact ⟨finalURL, rfl, hk,
              by simp [GetBatchResults, ht, PrepareURL, hk, hj, DoGetRequest_world, hp]⟩
  · intro name domain
    by_cases hn : name = "" ∨ domain = ""
    · left; simp [FindEmail, hn]
    · by_cases hk : w.API_KEY = ""
      · left; simp [FindEmail, hn, PrepareURL, hk]
      · cases hj : env.JoinPath w.URI ENDPOINT_EMAIL_FINDER with
        | error e => left; simp [FindEmail, hn, PrepareURL, hk, hj]
        | ok finalURL =>
          cases hp : env.ParseURL (finalURL ++ "?" ++
              (((Values.Set [] "name" name).Set "domain" domain).Set "key" w.API_KEY).Encode) with
          | some e => left; simp [FindEmail, hn, PrepareURL, hk, hj, DoGetRequest_world, hp]
          | none =>
            right
            exact ⟨finalURL, rfl, hk,
              by simp [FindEmail, hn, PrepareURL, hk, hj, DoGetRequest_world, hp]⟩
  · by_cases hk : w.API_KEY = ""
    · left; simp [GetAccountBalance, PrepareURL, hk]
    · cases hj : env.JoinPath w.URI ENDPOINT_ACCOUNT_BALANCE with
      | error e => left; simp [GetAccountBalance, PrepareURL, hk, hj]
      | ok finalURL =>
        cases hp : env.ParseURL (finalURL ++ "?" ++ (Values.Set [] "key" w.API_KEY).Encode) with
        | some e => left; simp [GetAccountBalance, PrepareURL, hk, hj, DoGetRequest_world, hp]
        | none =>
          right
          exact ⟨finalURL, rfl, hk,
            by simp [GetAccountBalance, PrepareURL, hk, hj, DoGetRequest_world, hp]⟩
  · intro params
    refine ⟨key_pair_mem_encodedPairs params w.API_KEY, rfl, ?_⟩
    simp [Values.Get, values_Set_same]
  · intro finalURL params h1 h2
    exact rawQuery_append finalURL _ h1 h2 (Encode_no_hash params)
  · intro title emails
    by_cases ht : title = ""
    · left; simp [ValidateBatch, ht]
    · by_cases he : emails.length = 0
      · left; simp [ValidateBatch, ht, he]
      · cases hj : env.JoinPath w.URI ENDPOINT_VALIDATE_BATCH with
        | error e => left; simp [ValidateBatch, ht, he, BatchValidateRequest.Encode, hj]
        | ok finalURL =>
          cases hp : env.ParseURL finalURL with
          | some e =>
            left
            simp [ValidateBatch, ht, he, BatchValidateRequest.Encode, hj, DoPostRequest_world, hp]
          | none =>
            right
            exact ⟨finalURL, _, rfl, rfl, by
              simp only [ValidateBatch, ht, he, if_false, BatchValidateRequest.Encode, hj,
                DoPostRequest_world, hp]⟩

/-- The amended C10 at the call of the tests: the one request of Validate, its raw query
and the value of `key`. -/
theorem get_requests_carry_key_witness :
    (Validate (exampleEnv (answerWith 200 "\x7b\x7d")) "valid@example.com"
        (testWorld "test_api_key")).world.sent =
      [{ Method := "GET"
         URL := "https://app.emailverify.io/api/v1/validate?email=valid%40example.com&key=test_api_key" }]
    ∧ rawQuery
        "https://app.emailverify.io/api/v1/validate?email=valid%40example.com&key=test_api_key" =
      "email=valid%40example.com&key=test_api_key"
    ∧ "key=test_api_key" ∈
        encodedPairs ((Values.Set [] "email" "valid@example.com").Set "key" "test_api_key") := by
  have h := get_requests_carry_key (exampleEnv (answerWith 200 "\x7b\x7d")) (testWorld "test_api_key")
  refine ⟨?_, ?_, (h.2.2.2.2.1 _).1⟩
  · rcases h.1 "valid@example.com" with h1 | ⟨finalURL, hj, _, h1⟩
    · exact absurd h1 (by decide)
    · rw [h1]
      have : finalURL = "https://app.emailverify.io/api/v1/validate" := (Except.ok.inj hj).symm
      subst this
      decide
  · exact h.2.2.2.2.2.1 "https://app.emailverify.io/api/v1/validate"
      ((Values.Set [] "email" "valid@example.com").Set "key" "test_api_key")
      (by decide) (by decide)


/-! ## The batch request on the wire -/

theorem hexVal_lowerhex : ∀ d, d < 16 → hexVal (lowerhex d) = some d := by decide

theorem Char_ofNat_toNat (c : Char) : Char.ofNat c.toNat = c := by
  have hv : c.toNat.isValidChar := c.valid
  unfold Char.ofNat
  rw [dif_pos hv]
  rfl

theorem Char_not_surrogate (c : Char) : ¬ (0xD800 ≤ c.toNat ∧ c.toNat < 0xE000) := by
  have hv : c.toNat.isValidChar := c.valid
  unfold Nat.isValidChar at hv
  omega

/-- What the scanner keeps for the character `c` written by the encoder: the character
itself, or the code unit of its escape. -/
theorem scan_jsonEscapeChar (c : Char) (acc : List StrUnit) (stack : List Frame) :
    ∃ u, (u = .ch c ∨ u = .u c.toNat) ∧
      (jsonEscapeChar c).foldl scanStep (.run (.inString acc) stack) =
        .run (.inString (u :: acc)) stack := by
  unfold jsonEscapeChar
  split_ifs with h1 h2 h3 h4 h5 h6 h7 h8 h9
  · refine ⟨.ch c, Or.inl rfl, ?_⟩
    rcases h1 with rfl | rfl <;> rfl
  · refine ⟨.ch c, Or.inl rfl, ?_⟩
    have : c = Char.ofNat 8 := by rw [← h2, Char_ofNat_toNat]
    subst this; rfl
  · refine ⟨.ch c, Or.inl rfl, ?_⟩
    have : c = Char.ofNat 12 := by rw [← h3, Char_ofNat_toNat]
    subst this; rfl
  · subst h4; exact ⟨_, Or.inl rfl, rfl⟩
  · subst h5; exact ⟨_, Or.inl rfl, rfl⟩
  · subst h6; exact ⟨_, Or.inl rfl, rfl⟩
  · refine ⟨.u c.toNat, Or.inr rfl, ?_⟩
    have hlt : c.toNat < 256 := by
      rcases h7 with h | rfl | rfl | rfl
      · omega
      all_goals decide
    have ha := hexVal_lowerhex (c.toNat / 16) (by omega)
    have hb := hexVal_lowerhex (c.toNat % 16) (Nat.mod_lt _ (by decide))
    have h0 : hexVal '0' = some 0 := by decide
    have hq : ('\\' : Char) ≠ '"' := by decide
    have hu : ('u' : Char) ≠ '"' := by decide
    simp only [List.foldl, scanStep, h0, ha, hb, if_true, if_neg hq]
    have hn : ((0 * 16 + 0) * 16 + c.toNat / 16) * 16 + c.toNat % 16 = c.toNat := by omega
    rw [hn]
  · refine ⟨.u c.toNat, Or.inr rfl, ?_⟩
    rw [h8]; rfl
  · refine ⟨.u c.toNat, Or.inr rfl, ?_⟩
    rw [h9]; rfl
  · refine ⟨.ch c, Or.inl rfl, ?_⟩
    have hq : c ≠ '"' := fun h => h1 (Or.inl h)
    have hb : c ≠ '\\' := fun h => h1 (Or.inr h)
    have hlt : ¬ c.toNat < 0x20 := fun h => h7 (Or.inl h)
    simp only [List.foldl, scanStep, if_neg hq, if_neg hb, if_neg hlt]

theorem unquoteUnits_of_units (cs : List Char) (us : List StrUnit)
    (h : List.Forall₂ (fun c u => u = StrUnit.ch c ∨ u = StrUnit.u c.toNat) cs us) :
    unquoteUnits us = cs := by
  induction h with
  | nil => rfl
  | @cons c u cs us hu _ ih =>
      rcases hu with rfl | rfl
      · simp only [unquoteUnits, ih]
      · have hr : runeOfUnit c.toNat = c := by
          unfold runeOfUnit
          rw [if_neg (Char_not_surrogate c), Char_ofNat_toNat]
        cases us with
        | nil => simp only [unquoteUnits, hr, ← ih]
        | cons v vs =>
            cases v with
            | ch d => simp only [unquoteUnits, hr, ← ih]
            | u b =>
                have hc := Char_not_surrogate c
                have hn : ¬ (0xD800 ≤ c.toNat ∧ c.toNat < 0xDC00 ∧ 0xDC00 ≤ b ∧ b < 0xE000) := by
                  omega
                rw [unquoteUnits, if_neg hn, hr, ih]

theorem scan_escaped_chars (cs : List Char) (acc : List StrUnit) (stack : List Frame) :
    ∃ us, List.Forall₂ (fun c u => u = StrUnit.ch c ∨ u = StrUnit.u c.toNat) cs us ∧
      (cs.flatMap jsonEscapeChar).foldl scanStep (.run (.inString acc) stack) =
        .run (.inString (us.reverse ++ acc)) stack := by
  induction cs generalizing acc with
  | nil => exact ⟨[], List.Forall₂.nil, rfl⟩
  | cons c cs ih =>
      obtain ⟨u, hu, hstep⟩ := scan_jsonEscapeChar c acc stack
      obtain ⟨us, hus, hrest⟩ := ih (u :: acc)
      refine ⟨u :: us, List.Forall₂.cons hu hus, ?_⟩
      rw [List.flatMap_cons, List.foldl_append, hstep, hrest]
      simp

/-- The scanner reads the literal the encoder writes for `s` back as the string `s`. -/
theorem scan_jsonQuote (s : String) (stack : List Frame) :
    (jsonQuote s).data.foldl scanStep (.run .beginValue stack) = attach stack (.string s) := by
  obtain ⟨us, hus, hscan⟩ := scan_escaped_chars s.data [] stack
  have hd : (jsonQuote s).data = '"' :: (s.data.flatMap jsonEscapeChar ++ ['"']) := by
    simp [jsonQuote, String.data_append]
  have h1 : scanStep (.run .beginValue stack) '"' = .run (.inString []) stack := rfl
  rw [hd, List.foldl_cons, h1, List.foldl_append, hscan]
  simp only [List.foldl, scanStep, if_true, List.append_nil, List.reverse_reverse,
    unquoteUnits_of_units _ _ hus]

theorem intercalate_go_data (sep : String) (rest : List String) (acc : String) :
    (String.intercalate.go acc sep rest).data =
      acc.data ++ rest.flatMap (fun x => sep.data ++ x.data) := by
  induction rest generalizing acc with
  | nil => simp [String.intercalate.go]
  | cons a as ih =>
      rw [String.intercalate.go, ih]
      simp [String.data_append, List.append_assoc]

/-- One element of `email_batch` through the scanner. -/
theorem scan_address_item (e : String) (items : List JValue)
    (members : List (String × JValue)) (k : String) (m : Mode)
    (hm : m = .beginValue ∨ m = .beginValueOrEmpty) :
    ("\x7b\"address\":" ++ jsonQuote e ++ "\x7d").data.foldl scanStep
        (.run m [.arr items, .obj members (some k)]) =
      .run .afterElem
        [.arr (.object [("address", .string e)] :: items), .obj members (some k)] := by
  have h1 : "\x7b\"address\":".data.foldl scanStep (.run m [.arr items, .obj members (some k)]) =
      .run .beginValue [.obj [] (some "address"), .arr items, .obj members (some k)] := by
    rcases hm with rfl | rfl <;> rfl
  rw [String.data_append, String.data_append, List.foldl_append, List.foldl_append, h1,
    scan_jsonQuote]
  rfl

theorem scan_address_items (es : List String) (items : List JValue)
    (members : List (String × JValue)) (k : String) :
    ((es.map fun e => "\x7b\"address\":" ++ jsonQuote e ++ "\x7d").flatMap
        fun y => ",".data ++ y.data).foldl
        scanStep (.run .afterElem [.arr items, .obj members (some k)]) =
      .run .afterElem
        [.arr ((es.map fun e => JValue.object [("address", .string e)]).reverse ++ items),
         .obj members (some k)] := by
  induction es generalizing items with
  | nil => rfl
  | cons e es ih =>
      have h1 : ",".data.foldl scanStep (.run .afterElem [.arr items, .obj members (some k)]) =
          .run .beginValue [.arr items, .obj members (some k)] := rfl
      rw [List.map_cons, List.flatMap_cons, List.foldl_append, List.foldl_append, h1,
        scan_address_item e items members k _ (Or.inl rfl), ih]
      simp

theorem batch_text_data (a b c d q1 q2 x : String) (xs : List String) :
    (a ++ q1 ++ b ++ q2 ++ c ++ ",".intercalate (x :: xs) ++ d).data =
      a.data ++ (q1.data ++ (b.data ++ (q2.data ++ (c.data ++ (x.data ++
        ((xs.flatMap fun y => ",".data ++ y.data) ++ d.data)))))) := by
  simp only [String.intercalate, intercalate_go_data, String.data_append, List.append_assoc]

/-- The text the encoder writes for a batch request with at least one address decodes as
the object of its three fields, the addresses in the order of the request. -/
theorem Decoder_scan_Encode (title key : String) (e : String) (es : List String) :
    ∃ payload,
      BatchValidateRequest.Encode
        { Title := title, Key := key,
          EmailBatch := (e :: es).map fun email => { Address := email } } = .ok payload
      ∧ Decoder_scan { data := payload } =
        .ok (.object [("title", .string title), ("key", .string key),
          ("email_batch",
            .array ((e :: es).map fun email => .object [("address", .string email)]))]) := by
  refine ⟨_, rfl, ?_⟩
  have hmap : (((e :: es).map fun email => ({ Address := email } : EmailAddress)).map
        fun a => "\x7b\"address\":" ++ jsonQuote a.Address ++ "\x7d") =
      ("\x7b\"address\":" ++ jsonQuote e ++ "\x7d") ::
        es.map fun e => "\x7b\"address\":" ++ jsonQuote e ++ "\x7d" := by
    rw [List.map_map]; rfl
  have hscan : scanAll ("\x7b\"title\":" ++ jsonQuote title ++ ",\"key\":" ++ jsonQuote key ++
      ",\"email_batch\":[" ++
      ",".intercalate (((e :: es).map fun email => ({ Address := email } : EmailAddress)).map
        fun a => "\x7b\"address\":" ++ jsonQuote a.Address ++ "\x7d") ++
      "]\x7d\n").data =
      .done (.object [("title", .string title), ("key", .string key),
        ("email_batch",
          .array ((e :: es).map fun email => .object [("address", .string email)]))]) := by
    have h1 : "\x7b\"title\":".data.foldl scanStep (.run .beginValue []) =
        .run .beginValue [.obj [] (some "title")] := rfl
    have h2 : ",\"key\":".data.foldl scanStep
        (.run .afterElem [.obj [("title", .string title)] none]) =
        .run .beginValue [.obj [("title", .string title)] (some "key")] := rfl
    have h3 : ",\"email_batch\":[".data.foldl scanStep
        (.run .afterElem [.obj [("key", .string key), ("title", .string title)] none]) =
        .run .beginValueOrEmpty
          [.arr [], .obj [("key", .string key), ("title", .string title)]
            (some "email_batch")] := rfl
    have h4 : ∀ items : List JValue, "]\x7d\n".data.foldl scanStep
        (.run .afterElem
          [.arr items, .obj [("key", .string key), ("title", .string title)]
            (some "email_batch")]) =
        .done (.object [("title", .string title), ("key", .string key),
          ("email_batch", .array items.reverse)]) := fun _ => rfl
    unfold scanAll
    rw [hmap, batch_text_data, List.foldl_append, h1, List.foldl_append, scan_jsonQuote]
    rw [show attach [.obj [] (some "title")] (.string title) =
      .run .afterElem [.obj [("title", .string title)] none] from rfl]
    rw [List.foldl_append, h2, List.foldl_append, scan_jsonQuote]
    rw [show attach [.obj [("title", .string title)] (some "key")] (.string key) =
      .run .afterElem [.obj [("key", .string key), ("title", .string title)] none] from rfl]
    rw [List.foldl_append, h3, List.foldl_append,
      scan_address_item e _ _ _ _ (Or.inr rfl), List.foldl_append, scan_address_items, h4]
    simp
  unfold Decoder_scan
  rw [hscan]

theorem ValidateBatch_sent (env : Env) (w : World) (title : String) (emails : List String)
    (payload : String) (htitle : title ≠ "") (hemails : emails ≠ [])
    (henc : BatchValidateRequest.Encode
      { Title := title, Key := w.API_KEY,
        EmailBatch := emails.map fun email => { Address := email } } = .ok payload) :
    (ValidateBatch env title emails w).world =
      match env.JoinPath w.URI ENDPOINT_VALIDATE_BATCH with
      | .error _ => w
      | .ok finalURL =>
          match env.ParseURL finalURL with
          | some _ => w
          | none => { w with sent := w.sent ++
              [{ Method := "POST", URL := finalURL, ContentType := some "application/json",
                 Payload := some payload }] } := by
  have hlen : emails.length ≠ 0 := fun h => hemails (List.length_eq_zero.mp h)
  unfold ValidateBatch
  simp only [if_neg htitle, if_neg hlen, henc]
  cases hj : env.JoinPath w.URI ENDPOINT_VALIDATE_BATCH with
  | error err => rfl
  | ok finalURL =>
      simp only [DoPostRequest_world]

/-- C11: for every non-empty title and every non-empty list of emails, whatever the
environment and the state, the only request ValidateBatch can hand to the transport is
one POST whose body is the encoding of the request data, and that body is JSON text which
decodes as an object with exactly the members title (the given title), key (the
configured API key) and email_batch, an array with one object of the single member
address per input email, as many as the emails and in their order, duplicates kept. The
request is sent whenever the URL can be joined and parsed. -/
theorem ValidateBatch_posts_batch (env : Env) (w : World) (title : String)
    (emails : List String) (htitle : title ≠ "") (hemails : emails ≠ []) :
    ∃ payload,
      BatchValidateRequest.Encode
        { Title := title, Key := w.API_KEY,
          EmailBatch := emails.map fun email => { Address := email } } = .ok payload
      ∧ ((ValidateBatch env title emails w).world.sent = w.sent
        ∨ ∃ finalURL, env.JoinPath w.URI ENDPOINT_VALIDATE_BATCH = .ok finalURL
          ∧ (ValidateBatch env title emails w).world.sent = w.sent ++
            [{ Method := "POST", URL := finalURL, ContentType := some "application/json",
               Payload := some payload }])
      ∧ (∀ finalURL, env.JoinPath w.URI ENDPOINT_VALIDATE_BATCH = .ok finalURL →
          env.ParseURL finalURL = none →
          (ValidateBatch env title emails w).world.sent = w.sent ++
            [{ Method := "POST", URL := finalURL, ContentType := some "application/json",
               Payload := some payload }])
      ∧ Decoder_scan { data := payload } =
        .ok (.object [("title", .string title), ("key", .string w.API_KEY),
          ("email_batch",
            .array (emails.map fun email => .object [("address", .string email)]))])
      ∧ (emails.map fun email => JValue.object [("address", .string email)]).length =
          emails.length
      ∧ ∀ (i : Nat) (hi : i < emails.length),
          (emails.map fun email => JValue.object [("address", .string email)])[i]? =
            some (.object [("address", .string (emails.get ⟨i, hi⟩))]) := by
  obtain ⟨e, es, rfl⟩ := List.exists_cons_of_ne_nil hemails
  obtain ⟨payload, henc, hdec⟩ := Decoder_scan_Encode title w.API_KEY e es
  have hw := ValidateBatch_sent env w title (e :: es) payload htitle hemails henc
  refine ⟨payload, henc, ?_, ?_, hdec, List.length_map _ _, ?_⟩
  · rw [hw]
    cases hj : env.JoinPath w.URI ENDPOINT_VALIDATE_BATCH with
    | error err => exact Or.inl rfl
    | ok finalURL =>
        cases hp : env.ParseURL finalURL with
        | some err => exact Or.inl (by simp only [hp])
        | none => exact Or.inr ⟨finalURL, rfl, by simp only [hp]⟩
  · intro finalURL hj hp
    rw [hw, hj]
    simp only [hp]
  · intro i hi
    rw [List.getElem?_map, List.getElem?_eq_getElem hi]
    rfl

set_option maxRecDepth 100000 in
/-- C11 at a call with a repeated address and an address with characters the encoder
escapes: the text posted and what it decodes to. -/
theorem ValidateBatch_posts_batch_witness :
    (ValidateBatch (exampleEnv (answerWith 200 "\x7b\"status\":\"success\",\"task_id\":12345\x7d"))
        "Test Batch" ["valid@example.com", "valid@example.com", "<x>@example.com"]
        (testWorld "test_api_key")).world.sent =
      [{ Method := "POST", URL := "https://app.emailverify.io/api/v1/validate-batch",
         ContentType := some "application/json",
         Payload := some
          "\x7b\"title\":\"Test Batch\",\"key\":\"test_api_key\",\"email_batch\":[\x7b\"address\":\"valid@example.com\"\x7d,\x7b\"address\":\"valid@example.com\"\x7d,\x7b\"address\":\"\\u003cx\\u003e@example.com\"\x7d]\x7d\n" }]
    ∧ Decoder_scan { data :=
          "\x7b\"title\":\"Test Batch\",\"key\":\"test_api_key\",\"email_batch\":[\x7b\"address\":\"valid@example.com\"\x7d,\x7b\"address\":\"valid@example.com\"\x7d,\x7b\"address\":\"\\u003cx\\u003e@example.com\"\x7d]\x7d\n" } =
        .ok (.object [("title", .string "Test Batch"), ("key", .string "test_api_key"),
          ("email_batch", .array
            [.object [("address", .string "valid@example.com")],
             .object [("address", .string "valid@example.com")],
             .object [("address", .string "<x>@example.com")]])]) := by
  obtain ⟨payload, henc, -, hsent, hdec, -, -⟩ :=
    ValidateBatch_posts_batch
      (exampleEnv (answerWith 200 "\x7b\"status\":\"success\",\"task_id\":12345\x7d"))
      (testWorld "test_api_key") "Test Batch"
      ["valid@example.com", "valid@example.com", "<x>@example.com"] (by decide) (by decide)
  have hp : payload =
      "\x7b\"title\":\"Test Batch\",\"key\":\"test_api_key\",\"email_batch\":[\x7b\"address\":\"valid@example.com\"\x7d,\x7b\"address\":\"valid@example.com\"\x7d,\x7b\"address\":\"\\u003cx\\u003e@example.com\"\x7d]\x7d\n" :=
    (Except.ok.inj henc).symm.trans (by decide)
  subst hp
  exact ⟨hsent "https://app.emailverify.io/api/v1/validate-batch" rfl rfl, hdec⟩

/-! ## Batch results -/

theorem BatchResultResponse_setField_count_checked (env : Env) (key : String) (v : JValue)
    (r : BatchResultResponse) (h : fieldMatches key "count_checked" = true) :
    BatchResultResponse.setField env key v r =
      ({ r with CountChecked := (storeInt v r.CountChecked).1 },
        (storeInt v r.CountChecked).2) := by
  simp only [BatchResultResponse.setField, h, Bool.false_eq_true, if_false,
    if_true]

theorem BatchResultResponse_setField_count_total (env : Env) (key : String) (v : JValue)
    (r : BatchResultResponse) (h : fieldMatches key "count_total" = true) :
    BatchResultResponse.setField env key v r =
      ({ r with CountTotal := (storeInt v r.CountTotal).1 },
        (storeInt v r.CountTotal).2) := by
  have e0 := fieldMatches_other key "count_total" "count_checked" (by decide) h
  simp only [BatchResultResponse.setField, h, e0, Bool.false_eq_true, if_false,
    if_true]

theorem BatchResultResponse_setField_task_id (env : Env) (key : String) (v : JValue)
    (r : BatchResultResponse) (h : fieldMatches key "task_id" = true) :
    BatchResultResponse.setField env key v r =
      ({ r with TaskID := (storeInt v r.TaskID).1 },
        (storeInt v r.TaskID).2) := by
  have e0 := fieldMatches_other key "task_id" "count_checked" (by decide) h
  have e1 := fieldMatches_other key "task_id" "count_total" (by decide) h
  simp only [BatchResultResponse.setField, h, e0, e1, Bool.false_eq_true, if_false,
    if_true]

theorem BatchResultResponse_setField_name (env : Env) (key : String) (v : JValue)
    (r : BatchResultResponse) (h : fieldMatches key "name" = true) :
    BatchResultResponse.setField env key v r =
      ({ r with Name := (storeString v r.Name).1 },
        (storeString v r.Name).2) := by
  have e0 := fieldMatches_other key "name" "count_checked" (by decide) h
  have e1 := fieldMatches_other key "name" "count_total" (by decide) h
  have e2 := fieldMatches_other key "name" "task_id" (by decide) h
  simp only [BatchResultResponse.setField, h, e0, e1, e2, Bool.false_eq_true, if_false,
    if_true]

theorem BatchResultResponse_setField_status (env : Env) (key : String) (v : JValue)
    (r : BatchResultResponse) (h : fieldMatches key "status" = true) :
    BatchResultResponse.setField env key v r =
      ({ r with Status := (storeString v r.Status).1 },
        (storeString v r.Status).2) := by
  have e0 := fieldMatches_other key "status" "count_checked" (by decide) h
  have e1 := fieldMatches_other key "status" "count_total" (by decide) h
  have e2 := fieldMatches_other key "status" "task_id" (by decide) h
  have e3 := fieldMatches_other key "status" "name" (by decide) h
  simp only [BatchResultResponse.setField, h, e0, e1, e2, e3, Bool.false_eq_true, if_false,
    if_true]

theorem BatchResultResponse_setField_progress_percentage (env : Env) (key : String) (v : JValue)
    (r : BatchResultResponse) (h : fieldMatches key "progress_percentage" = true) :
    BatchResultResponse.setField env key v r =
      ({ r with ProgressPercentage := (storeFloat env.floatOutOfRange v r.ProgressPercentage).1 },
        (storeFloat env.floatOutOfRange v r.ProgressPercentage).2) := by
  have e0 := fieldMatches_other key "progress_percentage" "count_checked" (by decide) h
  have e1 := fieldMatches_other key "progress_percentage" "count_total" (by decide) h
  have e2 := fieldMatches_other key "progress_percentage" "task_id" (by decide) h
  have e3 := fieldMatches_other key "progress_percentage" "name" (by decide) h
  have e4 := fieldMatches_other key "progress_percentage" "status" (by decide) h
  simp only [BatchResultResponse.setField, h, e0, e1, e2, e3, e4, Bool.false_eq_true, if_false,
    if_true]

theorem BatchResultResponse_setField_results (env : Env) (key : String) (v : JValue)
    (r : BatchResultResponse) (h : fieldMatches key "results" = true) :
    BatchResultResponse.setField env key v r =
      ({ r with Results := (unmarshalStruct "emailverifygo.BatchValidateResultsWrapper"
          BatchValidateResultsWrapper.setField v r.Results).1 },
        (unmarshalStruct "emailverifygo.BatchValidateResultsWrapper"
          BatchValidateResultsWrapper.setField v r.Results).2) := by
  have e0 := fieldMatches_other key "results" "count_checked" (by decide) h
  have e1 := fieldMatches_other key "results" "count_total" (by decide) h
  have e2 := fieldMatches_other key "results" "task_id" (by decide) h
  have e3 := fieldMatches_other key "results" "name" (by decide) h
  have e4 := fieldMatches_other key "results" "status" (by decide) h
  have e5 := fieldMatches_other key "results" "progress_percentage" (by decide) h
  simp only [BatchResultResponse.setField, h, e0, e1, e2, e3, e4, e5, Bool.false_eq_true, if_false,
    if_true]

theorem EmailBatchResult_setField_address (key : String) (v : JValue) (r : EmailBatchResult)
    (h : fieldMatches key "address" = true) :
    EmailBatchResult.setField key v r =
      ({ r with Address := (storeString v r.Address).1 }, (storeString v r.Address).2) := by
  simp only [EmailBatchResult.setField, h, Bool.false_eq_true, if_false,
    if_true]

theorem EmailBatchResult_setField_status (key : String) (v : JValue) (r : EmailBatchResult)
    (h : fieldMatches key "status" = true) :
    EmailBatchResult.setField key v r =
      ({ r with Status := (storeString v r.Status).1 }, (storeString v r.Status).2) := by
  have e0 := fieldMatches_other key "status" "address" (by decide) h
  simp only [EmailBatchResult.setField, h, e0, Bool.false_eq_true, if_false,
    if_true]

theorem EmailBatchResult_setField_sub_status (key : String) (v : JValue) (r : EmailBatchResult)
    (h : fieldMatches key "sub_status" = true) :
    EmailBatchResult.setField key v r =
      ({ r with SubStatus := (storeString v r.SubStatus).1 }, (storeString v r.SubStatus).2) := by
  have e0 := fieldMatches_other key "sub_status" "address" (by decide) h
  have e1 := fieldMatches_other key "sub_status" "status" (by decide) h
  simp only [EmailBatchResult.setField, h, e0, e1, Bool.false_eq_true, if_false,
    if_true]

theorem foldl_memberStep_single {T α : Type} (setField : String → JValue → T → T × error)
    (tag : String) (view : T → α) (store : JValue → α → α × error)
    (hmiss : ∀ k v t, fieldMatches k tag = false → view (setField k v t).1 = view t)
    (hhit : ∀ k v t, fieldMatches k tag = true →
      view (setField k v t).1 = (store v (view t)).1)
    (members : List (String × JValue)) (acc : T × error) (k : String) (v : JValue)
    (h : members.filter (fun m => fieldMatches m.1 tag) = [(k, v)]) :
    view (members.foldl (memberStep setField) acc).1 = (store v (view acc.1)).1 := by
  induction members generalizing acc with
  | nil => cases h
  | cons m ms ih =>
      rw [List.foldl_cons]
      cases hm : fieldMatches m.1 tag with
      | false =>
          rw [List.filter_cons_of_neg (by simp [hm])] at h
          rw [ih _ h]
          have hv : view (memberStep setField acc m).1 = view acc.1 := hmiss _ _ _ hm
          rw [hv]
      | true =>
          rw [List.filter_cons_of_pos (by simp [hm])] at h
          have h1 : m = (k, v) := (List.cons.inj h).1
          have h2 := (List.cons.inj h).2
          rw [foldl_memberStep_view setField tag view hmiss ms _
            (fun x hx => by
              have : x ∉ ms.filter (fun m => fieldMatches m.1 tag) := by rw [h2]; simp
              by_contra hne
              exact this (List.mem_filter.mpr ⟨hx, by simpa using hne⟩))]
          have hv : view (memberStep setField acc m).1 = (store m.2 (view acc.1)).1 :=
            hhit _ _ _ hm
          rw [hv, h1]

theorem EmailBatchResult_unmarshal_entry (v : JValue) (r cur : EmailBatchResult)
    (h : EntryOf v r) :
    unmarshalStruct "emailverifygo.EmailBatchResult" EmailBatchResult.setField v cur =
      (r, none) := by
  obtain ⟨ems, rfl, ⟨kA, hA⟩, ⟨kS, hS⟩, ⟨kSS, hSS⟩⟩ := h
  rw [unmarshalStruct_object]
  have hmissA : ∀ k v (t : EmailBatchResult), fieldMatches k "address" = false →
      (EmailBatchResult.setField k v t).1.Address = t.Address := by
    intro k v t h
    simp only [EmailBatchResult.setField, h, Bool.false_eq_true, if_false]
    split_ifs <;> rfl
  have hmissS : ∀ k v (t : EmailBatchResult), fieldMatches k "status" = false →
      (EmailBatchResult.setField k v t).1.Status = t.Status := by
    intro k v t h
    simp only [EmailBatchResult.setField, h, Bool.false_eq_true, if_false]
    split_ifs <;> rfl
  have hmissSS : ∀ k v (t : EmailBatchResult), fieldMatches k "sub_status" = false →
      (EmailBatchResult.setField k v t).1.SubStatus = t.SubStatus := by
    intro k v t h
    simp only [EmailBatchResult.setField, h, Bool.false_eq_true, if_false]
    split_ifs <;> rfl
  have h1 := foldl_memberStep_single EmailBatchResult.setField "address" (·.Address)
    storeString hmissA
    (fun k v t h => by rw [EmailBatchResult_setField_address k v t h]) ems (cur, none) kA _ hA
  have h2 := foldl_memberStep_single EmailBatchResult.setField "status" (·.Status)
    storeString hmissS
    (fun k v t h => by rw [EmailBatchResult_setField_status k v t h]) ems (cur, none) kS _ hS
  have h3 := foldl_memberStep_single EmailBatchResult.setField "sub_status" (·.SubStatus)
    storeString hmissSS
    (fun k v t h => by rw [EmailBatchResult_setField_sub_status k v t h]) ems (cur, none)
    kSS _ hSS
  have h4 := foldl_memberStep_no_error EmailBatchResult.setField ems cur (by
    intro m hm t
    cases c1 : fieldMatches m.1 "address" with
    | true =>
        rw [EmailBatchResult_setField_address _ _ _ c1, mem_singleton_filter hm c1 hA]
        rfl
    | false =>
      cases c2 : fieldMatches m.1 "status" with
      | true =>
          rw [EmailBatchResult_setField_status _ _ _ c2, mem_singleton_filter hm c2 hS]
          rfl
      | false =>
        cases c3 : fieldMatches m.1 "sub_status" with
        | true =>
            rw [EmailBatchResult_setField_sub_status _ _ _ c3,
              mem_singleton_filter hm c3 hSS]
            rfl
        | false =>
            rw [EmailBatchResult_setField_unknown_key]
            intro tag htag
            simp only [EmailBatchResult.tags, List.mem_cons, List.mem_singleton,
              List.not_mem_nil, or_false] at htag
            rcases htag with rfl | rfl | rfl <;> assumption)
  generalize ems.foldl (memberStep EmailBatchResult.setField) (cur, none) = res at *
  obtain ⟨⟨a, b, c⟩, err⟩ := res
  obtain ⟨ra, rb, rc⟩ := r
  simp only [storeString] at h1 h2 h3 h4
  rw [h1, h2, h3, h4]

theorem storeElems_entries (items : List JValue) (results : List EmailBatchResult)
    (h : List.Forall₂ EntryOf items results) (cur : List EmailBatchResult) :
    storeElems (unmarshalStruct "emailverifygo.EmailBatchResult" EmailBatchResult.setField)
      {} items cur = (results, none) := by
  induction h generalizing cur with
  | nil => rfl
  | cons hv _ ih =>
      simp only [storeElems, EmailBatchResult_unmarshal_entry _ _ _ hv, ih, saveError]

theorem ResultsWrapper_unmarshal (rmembers : List (String × JValue)) (kB : String)
    (items : List JValue) (results : List EmailBatchResult)
    (cur : BatchValidateResultsWrapper)
    (hB : rmembers.filter (fun m => fieldMatches m.1 "email_batch") = [(kB, .array items)])
    (hE : List.Forall₂ EntryOf items results) :
    unmarshalStruct "emailverifygo.BatchValidateResultsWrapper"
      BatchValidateResultsWrapper.setField (.object rmembers) cur =
        ({ EmailBatch := results }, none) := by
  rw [unmarshalStruct_object]
  have hstep : ∀ (m : String × JValue), m ∈ rmembers → ∀ t : BatchValidateResultsWrapper,
      BatchValidateResultsWrapper.setField m.1 m.2 t =
        if fieldMatches m.1 "email_batch" then ({ EmailBatch := results }, none)
        else (t, none) := by
    intro m hm t
    cases c : fieldMatches m.1 "email_batch" with
    | true =>
        simp only [BatchValidateResultsWrapper.setField, c, if_true,
          mem_singleton_filter hm c hB, storeSlice, storeElems_entries items results hE]
    | false =>
        simp only [BatchValidateResultsWrapper.setField, c, Bool.false_eq_true, if_false]
  have h1 := foldl_memberStep_single BatchValidateResultsWrapper.setField "email_batch"
    (·.EmailBatch)
    (storeSlice "[]emailverifygo.EmailBatchResult"
      (unmarshalStruct "emailverifygo.EmailBatchResult" EmailBatchResult.setField) {})
    (by
      intro k v t h
      simp only [BatchValidateResultsWrapper.setField, h, Bool.false_eq_true, if_false])
    (by
      intro k v t h
      simp only [BatchValidateResultsWrapper.setField, h, if_true])
    rmembers (cur, none) kB _ hB
  have h4 := foldl_memberStep_no_error BatchValidateResultsWrapper.setField rmembers cur (by
    intro m hm t
    rw [hstep m hm t]
    split <;> rfl)
  generalize rmembers.foldl (memberStep BatchValidateResultsWrapper.setField) (cur, none) =
    res at *
  obtain ⟨⟨a⟩, err⟩ := res
  simp only [storeSlice, storeElems_entries items results hE] at h1 h4
  rw [h1, h4]


theorem BatchResultResponse_unmarshal_given (env : Env) (members : List (String × JValue))
    (cur : BatchResultResponse) (kT lit : String) (tid : Int) (kN name kS status kR : String)
    (rmembers : List (String × JValue)) (kB : String) (items : List JValue)
    (results : List EmailBatchResult)
    (hT : members.filter (fun m => fieldMatches m.1 "task_id") = [(kT, .number lit)])
    (hlit : parseInt64 lit = some tid)
    (hN : members.filter (fun m => fieldMatches m.1 "name") = [(kN, .string name)])
    (hS : members.filter (fun m => fieldMatches m.1 "status") = [(kS, .string status)])
    (hR : members.filter (fun m => fieldMatches m.1 "results") = [(kR, .object rmembers)])
    (hB : rmembers.filter (fun m => fieldMatches m.1 "email_batch") = [(kB, .array items)])
    (hE : List.Forall₂ EntryOf items results)
    (hInt : ∀ m ∈ members,
      (fieldMatches m.1 "count_checked" = true ∨ fieldMatches m.1 "count_total" = true) →
      m.2 = .null ∨ ∃ l n, m.2 = .number l ∧ parseInt64 l = some n)
    (hFloat : ∀ m ∈ members, fieldMatches m.1 "progress_percentage" = true →
      m.2 = .null ∨ ∃ l, m.2 = .number l ∧ env.floatOutOfRange l = false) :
    ∃ r : BatchResultResponse,
      unmarshalStruct "emailverifygo.BatchResultResponse" (BatchResultResponse.setField env)
        (.object members) cur = (r, none)
      ∧ r.TaskID = tid ∧ r.Name = name ∧ r.Status = status
      ∧ r.Results = { EmailBatch := results } := by
  rw [unmarshalStruct_object]
  have hmiss : ∀ {α : Type} (tag : String) (view : BatchResultResponse → α),
      (∀ k v t, fieldMatches k tag = false →
        view (BatchResultResponse.setField env k v t).1 = view t) →
      ∀ k v t, fieldMatches k tag = false →
        view (BatchResultResponse.setField env k v t).1 = view t := fun _ _ h => h
  have h1 := foldl_memberStep_single (BatchResultResponse.setField env) "task_id" (·.TaskID)
    storeInt
    (by
      intro k v t h
      simp only [BatchResultResponse.setField, h, Bool.false_eq_true, if_false]
      split_ifs <;> rfl)
    (fun k v t h => by rw [BatchResultResponse_setField_task_id env k v t h])
    members (cur, none) kT _ hT
  have h2 := foldl_memberStep_single (BatchResultResponse.setField env) "name" (·.Name)
    storeString
    (by
      intro k v t h
      simp only [BatchResultResponse.setField, h, Bool.false_eq_true, if_false]
      split_ifs <;> rfl)
    (fun k v t h => by rw [BatchResultResponse_setField_name env k v t h])
    members (cur, none) kN _ hN
  have h3 := foldl_memberStep_single (BatchResultResponse.setField env) "status" (·.Status)
    storeString
    (by
      intro k v t h
      simp only [BatchResultResponse.setField, h, Bool.false_eq_true, if_false]
      split_ifs <;> rfl)
    (fun k v t h => by rw [BatchResultResponse_setField_status env k v t h])
    members (cur, none) kS _ hS
  have h4 := foldl_memberStep_single (BatchResultResponse.setField env) "results" (·.Results)
    (unmarshalStruct "emailverifygo.BatchValidateResultsWrapper"
      BatchValidateResultsWrapper.setField)
    (by
      intro k v t h
      simp only [BatchResultResponse.setField, h, Bool.false_eq_true, if_false]
      split_ifs <;> rfl)
    (fun k v t h => by rw [BatchResultResponse_setField_results env k v t h])
    members (cur, none) kR _ hR
  have h5 := foldl_memberStep_no_error (BatchResultResponse.setField env) members cur (by
    intro m hm t
    cases c1 : fieldMatches m.1 "count_checked" with
    | true =>
        rw [BatchResultResponse_setField_count_checked _ _ _ _ c1]
        exact (storeInt_no_error_iff _ _).mpr (hInt m hm (Or.inl c1))
    | false =>
    cases c2 : fieldMatches m.1 "count_total" with
    | true =>
        rw [BatchResultResponse_setField_count_total _ _ _ _ c2]
        exact (storeInt_no_error_iff _ _).mpr (hInt m hm (Or.inr c2))
    | false =>
    cases c3 : fieldMatches m.1 "task_id" with
    | true =>
        rw [BatchResultResponse_setField_task_id _ _ _ _ c3, mem_singleton_filter hm c3 hT]
        exact (storeInt_no_error_iff _ _).mpr (Or.inr ⟨lit, tid, rfl, hlit⟩)
    | false =>
    cases c4 : fieldMatches m.1 "name" with
    | true =>
        rw [BatchResultResponse_setField_name _ _ _ _ c4, mem_singleton_filter hm c4 hN]
        rfl
    | false =>
    cases c5 : fieldMatches m.1 "status" with
    | true =>
        rw [BatchResultResponse_setField_status _ _ _ _ c5, mem_singleton_filter hm c5 hS]
        rfl
    | false =>
    cases c6 : fieldMatches m.1 "progress_percentage" with
    | true =>
        rw [BatchResultResponse_setField_progress_percentage _ _ _ _ c6]
        exact (storeFloat_no_error_iff _ _ _).mpr (hFloat m hm c6)
    | false =>
    cases c7 : fieldMatches m.1 "results" with
    | true =>
        rw [BatchResultResponse_setField_results _ _ _ _ c7, mem_singleton_filter hm c7 hR,
          ResultsWrapper_unmarshal rmembers kB items results _ hB hE]
    | false =>
        rw [BatchResultResponse_setField_unknown_key]
        intro tag htag
        simp only [BatchResultResponse.tags, List.mem_cons, List.mem_singleton,
          List.not_mem_nil, or_false] at htag
        rcases htag with rfl | rfl | rfl | rfl | rfl | rfl | rfl <;> assumption)
  generalize members.foldl (memberStep (BatchResultResponse.setField env)) (cur, none) =
    res at *
  obtain ⟨r, err⟩ := res
  simp only [storeInt, hlit, storeString,
    ResultsWrapper_unmarshal rmembers kB items results _ hB hE] at h1 h2 h3 h4 h5
  exact ⟨r, by rw [h5], h1, h2, h3, h4⟩

/-- C12: for a positive task id and a non-empty API key, when the transport answers the
request with status 200 and a well-formed body (an object with exactly one member for
each of task_id, name, status and results, of the right kinds; results an object with
exactly one member email_batch, an array of n entries, each an object with exactly one
string member for each of address, status and sub_status; any counts integers and any
progress percentage a number), GetBatchResults returns a nil error and a result whose
Results.EmailBatch has exactly n elements, the i-th with the Address, Status and SubStatus
of the i-th entry, and whose TaskID, Name and Status are those of the body. -/
theorem GetBatchResults_success (env : Env) (w : World) (taskID : Int) (finalURL : String)
    (response : Response) (members : List (String × JValue)) (kT lit : String) (tid : Int)
    (kN name kS status kR : String) (rmembers : List (String × JValue)) (kB : String)
    (items : List JValue) (results : List EmailBatchResult)
    (htask : 0 < taskID) (hkey : w.API_KEY ≠ "")
    (hjoin : env.JoinPath w.URI ENDPOINT_BATCH_RESULT = .ok finalURL)
    (hurl : env.ParseURL (finalURL ++ "?" ++
      ((Values.Set [] "task_id" (toString taskID)).Set "key" w.API_KEY).Encode) = none)
    (hdo : env.Do
      { Method := "GET"
        URL := finalURL ++ "?" ++
          ((Values.Set [] "task_id" (toString taskID)).Set "key" w.API_KEY).Encode } =
        .ok response)
    (hstatus : response.StatusCode = 200)
    (hbody : Decoder_scan response.Body = .ok (.object members))
    (hT : members.filter (fun m => fieldMatches m.1 "task_id") = [(kT, .number lit)])
    (hlit : parseInt64 lit = some tid)
    (hN : members.filter (fun m => fieldMatches m.1 "name") = [(kN, .string name)])
    (hS : members.filter (fun m => fieldMatches m.1 "status") = [(kS, .string status)])
    (hR : members.filter (fun m => fieldMatches m.1 "results") = [(kR, .object rmembers)])
    (hB : rmembers.filter (fun m => fieldMatches m.1 "email_batch") = [(kB, .array items)])
    (hE : List.Forall₂ EntryOf items results)
    (hInt : ∀ m ∈ members,
      (fieldMatches m.1 "count_checked" = true ∨ fieldMatches m.1 "count_total" = true) →
      m.2 = .null ∨ ∃ l n, m.2 = .number l ∧ parseInt64 l = some n)
    (hFloat : ∀ m ∈ members, fieldMatches m.1 "progress_percentage" = true →
      m.2 = .null ∨ ∃ l, m.2 = .number l ∧ env.floatOutOfRange l = false) :
    ∃ r : BatchResultResponse,
      GetBatchResults env taskID w =
        { response := some r, err := none,
          world := { w with sent := w.sent ++
            [{ Method := "GET"
               URL := finalURL ++ "?" ++
                ((Values.Set [] "task_id" (toString taskID)).Set "key" w.API_KEY).Encode }] } }
      ∧ r.Results.EmailBatch = results
      ∧ r.Results.EmailBatch.length = items.length
      ∧ (∀ (i : Nat) (hi : i < items.length) (hr : i < r.Results.EmailBatch.length),
          EntryOf (items.get ⟨i, hi⟩) (r.Results.EmailBatch.get ⟨i, hr⟩))
      ∧ r.TaskID = tid ∧ r.Name = name ∧ r.Status = status := by
  obtain ⟨r, hr, h1, h2, h3, h4⟩ := BatchResultResponse_unmarshal_given env members {} kT lit
    tid kN name kS status kR rmembers kB items results hT hlit hN hS hR hB hE hInt hFloat
  have hdec : Decode env response.Body ({} : BatchResultResponse) = (r, none) := by
    unfold Decode
    rw [hbody]
    exact hr
  have hres : r.Results.EmailBatch = results := by rw [h4]
  refine ⟨r, ?_, hres, ?_, ?_, h1, h2, h3⟩
  · simp [GetBatchResults, not_le.mpr htask, PrepareURL, hkey, hjoin, DoGetRequest, NewRequest,
      hurl, hdo, hstatus, hdec]
  · rw [hres]; exact hE.length_eq.symm
  · intro i hi hr'
    subst hres
    exact List.Forall₂.get hE hi hr'

set_option maxRecDepth 100000 in
/-- C12 at the answer of the test TestGetBatchResultsSuccess: three entries give three
results, in the order of the array. -/
theorem GetBatchResults_success_witness :
    ∃ r : BatchResultResponse,
      GetBatchResults (exampleEnv (answerWith 200 MOCK_BATCH_RESULTS_RESPONSE)) 12345
          (testWorld "test_api_key") =
        { response := some r, err := none,
          world := { testWorld "test_api_key" with
            sent :=
              [{ Method := "GET"
                 URL := "https://app.emailverify.io/api/v1/get-result-bulk-verification-task?key=test_api_key&task_id=12345" }] } }
      ∧ r.Results.EmailBatch =
          [{ Address := "valid@example.com", Status := "valid", SubStatus := "permitted" },
           { Address := "invalid@example.com", Status := "invalid",
             SubStatus := "mailbox_not_found" },
           { Address := "test@example.com", Status := "invalid",
             SubStatus := "no_dns_entries" }]
      ∧ r.TaskID = 12345 ∧ r.Name = "Test Batch" ∧ r.Status = "verified" := by
  obtain ⟨r, h, hres, -, -, hT, hN, hS⟩ :=
    GetBatchResults_success (exampleEnv (answerWith 200 MOCK_BATCH_RESULTS_RESPONSE))
      (testWorld "test_api_key") 12345
      "https://app.emailverify.io/api/v1/get-result-bulk-verification-task"
      { StatusCode := 200, Body := { data := MOCK_BATCH_RESULTS_RESPONSE } }
      [("count_checked", .number "3"), ("count_total", .number "3"),
       ("name", .string "Test Batch"), ("progress_percentage", .number "100"),
       ("task_id", .number "12345"), ("status", .string "verified"),
       ("results", .object [("email_batch", .array
          [.object [("address", .string "valid@example.com"), ("status", .string "valid"),
             ("sub_status", .string "permitted")],
           .object [("address", .string "invalid@example.com"), ("status", .string "invalid"),
             ("sub_status", .string "mailbox_not_found")],
           .object [("address", .string "test@example.com"), ("status", .string "invalid"),
             ("sub_status", .string "no_dns_entries")]])])]
      "task_id" "12345" 12345 "name" "Test Batch" "status" "verified" "results"
      [("email_batch", .array
          [.object [("address", .string "valid@example.com"), ("status", .string "valid"),
             ("sub_status", .string "permitted")],
           .object [("address", .string "invalid@example.com"), ("status", .string "invalid"),
             ("sub_status", .string "mailbox_not_found")],
           .object [("address", .string "test@example.com"), ("status", .string "invalid"),
             ("sub_status", .string "no_dns_entries")]])]
      "email_batch"
      [.object [("address", .string "valid@example.com"), ("status", .string "valid"),
         ("sub_status", .string "permitted")],
       .object [("address", .string "invalid@example.com"), ("status", .string "invalid"),
         ("sub_status", .string "mailbox_not_found")],
       .object [("address", .string "test@example.com"), ("status", .string "invalid"),
         ("sub_status", .string "no_dns_entries")]]
      [{ Address := "valid@example.com", Status := "valid", SubStatus := "permitted" },
       { Address := "invalid@example.com", Status := "invalid",
         SubStatus := "mailbox_not_found" },
       { Address := "test@example.com", Status := "invalid", SubStatus := "no_dns_entries" }]
      (by decide) (by decide) rfl rfl rfl rfl rfl rfl rfl rfl rfl rfl rfl
      (List.Forall₂.cons ⟨_, rfl, ⟨_, rfl⟩, ⟨_, rfl⟩, ⟨_, rfl⟩⟩
        (List.Forall₂.cons ⟨_, rfl, ⟨_, rfl⟩, ⟨_, rfl⟩, ⟨_, rfl⟩⟩
          (List.Forall₂.cons ⟨_, rfl, ⟨_, rfl⟩, ⟨_, rfl⟩, ⟨_, rfl⟩⟩ List.Forall₂.nil)))
      (by
        intro m hm
        simp only [List.mem_cons, List.mem_singleton, List.not_mem_nil, or_false] at hm
        rcases hm with rfl | rfl | rfl | rfl | rfl | rfl | rfl
        · exact fun _ => Or.inr ⟨"3", 3, rfl, rfl⟩
        · exact fun _ => Or.inr ⟨"3", 3, rfl, rfl⟩
        all_goals exact fun h => absurd h (by decide))
      (by
        intro m hm
        simp only [List.mem_cons, List.mem_singleton, List.not_mem_nil, or_false] at hm
        rcases hm with rfl | rfl | rfl | rfl | rfl | rfl | rfl
        case inr.inr.inr.inl => exact fun _ => Or.inr ⟨"100", rfl, rfl⟩
        all_goals exact fun h => absurd h (by decide))
  exact ⟨r, h, hres, hT, hN, hS⟩

/-! ## The email finder -/

/-- C13: for every FindEmailResponse, IsFound is true if and only if Status is "found".
When the transport answers the request of FindEmail with status 200 and a body whose JSON
value is the object with email "null" and status "not_found", FindEmail returns a nil error
and a result with Status "not_found" and Email "null" (the string of four characters, not
the empty string), for which IsFound is false. -/
theorem FindEmail_not_found (env : Env) (w : World) (name domain finalURL : String)
    (response : Response) (hname : name ≠ "") (hdomain : domain ≠ "")
    (hkey : w.API_KEY ≠ "")
    (hjoin : env.JoinPath w.URI ENDPOINT_EMAIL_FINDER = .ok finalURL)
    (hurl : env.ParseURL (finalURL ++ "?" ++
      (((Values.Set [] "name" name).Set "domain" domain).Set "key" w.API_KEY).Encode) = none)
    (hdo : env.Do
      { Method := "GET"
        URL := finalURL ++ "?" ++
          (((Values.Set [] "name" name).Set "domain" domain).Set "key" w.API_KEY).Encode } =
        .ok response)
    (hstatus : response.StatusCode = 200)
    (hbody : Decoder_scan response.Body =
      .ok (.object [("email", .string "null"), ("status", .string "not_found")])) :
    (∀ f : FindEmailResponse, f.IsFound = true ↔ f.Status = "found")
    ∧ FindEmail env name domain w =
      { response := some { Email := "null", Status := "not_found" }, err := none,
        world := { w with sent := w.sent ++
          [{ Method := "GET"
             URL := finalURL ++ "?" ++
              (((Values.Set [] "name" name).Set "domain" domain).Set "key"
                w.API_KEY).Encode }] } }
    ∧ ({ Email := "null", Status := "not_found" } : FindEmailResponse).IsFound = false
    ∧ ("null" : String).length = 4 ∧ ("null" : String) ≠ "" := by
  have hdec : Decode env response.Body ({} : FindEmailResponse) =
      ({ Email := "null", Status := "not_found" }, none) := by
    unfold Decode
    rw [hbody]
    rfl
  refine ⟨?_, ?_, by decide, by decide, by decide⟩
  · intro f
    simp [FindEmailResponse.IsFound]
  · have hnd : ¬ (name = "" ∨ domain = "") := by
      intro h; rcases h with h | h
      · exact hname h
      · exact hdomain h
    simp [FindEmail, hnd, PrepareURL, hkey, hjoin, DoGetRequest, NewRequest, hurl, hdo,
      hstatus, hdec]

/-- C13 at the call and the answer of the test TestFindEmailNotFound. -/
theorem FindEmail_not_found_witness :
    FindEmail (exampleEnv (answerWith 200
        "\x7b\n\t\t\"email\": \"null\",\n\t\t\"status\": \"not_found\"\n\t\x7d"))
        "Jane Smith" "unknown.com" (testWorld "test_api_key") =
      { response := some { Email := "null", Status := "not_found" }, err := none,
        world := { testWorld "test_api_key" with
          sent :=
            [{ Method := "GET"
               URL := "https://app.emailverify.io/api/v1/finder?domain=unknown.com&key=test_api_key&name=Jane+Smith" }] } }
    ∧ ({ Email := "null", Status := "not_found" } : FindEmailResponse).IsFound = false := by
  have h := FindEmail_not_found (exampleEnv (answerWith 200
      "\x7b\n\t\t\"email\": \"null\",\n\t\t\"status\": \"not_found\"\n\t\x7d"))
    (testWorld "test_api_key") "Jane Smith" "unknown.com"
    "https://app.emailverify.io/api/v1/finder"
    { StatusCode := 200, Body := { data :=
      "\x7b\n\t\t\"email\": \"null\",\n\t\t\"status\": \"not_found\"\n\t\x7d" } }
    (by decide) (by decide) (by decide) rfl rfl rfl rfl rfl
  refine ⟨?_, h.2.2.1⟩
  rw [h.2.1]
  decide

/-! ## The frame of PrepareURL -/

theorem PrepareURL_world (env : Env) (endpoint : String) (params : Option Values)
    (w : World) : (PrepareURL env endpoint params w).world = w := by
  unfold PrepareURL
  split
  · rfl
  · cases params with
    | none => rfl
    | some ps =>
        simp only []
        split <;> rfl

theorem DoGetRequest_config {T : Type} [JSONTarget T] (env : Env) (url : String) (object : T)
    (w : World) :
    (DoGetRequest env url object w).world.URI = w.URI
    ∧ (DoGetRequest env url object w).world.API_KEY = w.API_KEY := by
  rw [DoGetRequest_world]
  split <;> exact ⟨rfl, rfl⟩

theorem DoPostRequest_config {T : Type} [JSONTarget T] (env : Env) (url payload : String)
    (object : T) (w : World) :
    (DoPostRequest env url payload object w).world.URI = w.URI
    ∧ (DoPostRequest env url payload object w).world.API_KEY = w.API_KEY := by
  rw [DoPostRequest_world]
  split <;> exact ⟨rfl, rfl⟩

theorem Validate_config (env : Env) (email : String) (w : World) :
    (Validate env email w).world.URI = w.URI
    ∧ (Validate env email w).world.API_KEY = w.API_KEY := by
  unfold Validate
  split
  · exact ⟨rfl, rfl⟩
  · simp only []
    split
    · simp [PrepareURL_world]
    · simp only [PrepareURL_world]; exact DoGetRequest_config _ _ _ _

theorem GetBatchResults_config (env : Env) (taskID : Int) (w : World) :
    (GetBatchResults env taskID w).world.URI = w.URI
    ∧ (GetBatchResults env taskID w).world.API_KEY = w.API_KEY := by
  unfold GetBatchResults
  simp only []
  split
  · exact ⟨rfl, rfl⟩
  · split
    · simp [PrepareURL_world]
    · simp only [PrepareURL_world]; exact DoGetRequest_config _ _ _ _

theorem FindEmail_config (env : Env) (name domain : String) (w : World) :
    (FindEmail env name domain w).world.URI = w.URI
    ∧ (FindEmail env name domain w).world.API_KEY = w.API_KEY := by
  unfold FindEmail
  split
  · exact ⟨rfl, rfl⟩
  · simp only []
    split
    · simp [PrepareURL_world]
    · simp only [PrepareURL_world]; exact DoGetRequest_config _ _ _ _

theorem GetAccountBalance_config (env : Env) (w : World) :
    (GetAccountBalance env w).world.URI = w.URI
    ∧ (GetAccountBalance env w).world.API_KEY = w.API_KEY := by
  unfold GetAccountBalance
  simp only []
  split
  · simp [PrepareURL_world]
  · simp only [PrepareURL_world]; exact DoGetRequest_config _ _ _ _

theorem ValidateBatch_config (env : Env) (title : String) (emails : List String) (w : World) :
    (ValidateBatch env title emails w).world.URI = w.URI
    ∧ (ValidateBatch env title emails w).world.API_KEY = w.API_KEY := by
  unfold ValidateBatch
  simp only []
  split
  · exact ⟨rfl, rfl⟩
  · split
    · exact ⟨rfl, rfl⟩
    · simp only [BatchValidateRequest.Encode]
      split
      · exact ⟨rfl, rfl⟩
      · exact DoPostRequest_config _ _ _ _ _

/-- C14, as stated, fails: PrepareURL does have an effect besides its results. A Go map is
shared with the caller, and the call writes `key` into the caller's parameter map, on the
success path and also when the join fails. -/
theorem PrepareURL_writes_params :
    (PrepareURL (exampleEnv (answerWith 200 "\x7b\x7d")) ENDPOINT_VALIDATE
        (some [("email", ["a@b.com"])]) (testWorld "test_api_key")).params =
      some [("key", ["test_api_key"]), ("email", ["a@b.com"])]
    ∧ (PrepareURL (exampleEnv (answerWith 200 "\x7b\x7d")) ENDPOINT_VALIDATE
        (some [("email", ["a@b.com"])]) (testWorld "test_api_key")).params ≠
      some [("email", ["a@b.com"])]
    ∧ (PrepareURL (brokenJoinEnv (answerWith 200 "\x7b\x7d")) ENDPOINT_VALIDATE
        (some [("email", ["a@b.com"])]) (testWorld "test_api_key")).err =
      some (.Wrap "failed to join URL paths: " (.New "parse: invalid URL"))
    ∧ (PrepareURL (brokenJoinEnv (answerWith 200 "\x7b\x7d")) ENDPOINT_VALIDATE
        (some [("email", ["a@b.com"])]) (testWorld "test_api_key")).params =
      some [("key", ["test_api_key"]), ("email", ["a@b.com"])] := by
  decide

/-- C14 (amended): for every endpoint and parameter map, nil or not, on every path
(ErrMissingAPIKey, a failed join, success, and the panic on a nil map), PrepareURL leaves
the package state as it was: the base URI and the API key are the same after the call as
before it, and no request is handed to the transport. Its effects besides its results are
these. With an empty API key the map is untouched and there is no panic. With a non-empty
API key and a map that is not nil, `key` is set in the caller's map to the API key,
whether the join then succeeds or fails, and there is no panic. With a non-empty API key
and the nil map the call panics at that assignment, before the join, and the map stays
nil. -/
theorem PrepareURL_frame (env : Env) (endpoint : String) (params : Option Values)
    (w : World) :
    (PrepareURL env endpoint params w).world = w
    ∧ (PrepareURL env endpoint params w).world.URI = w.URI
    ∧ (PrepareURL env endpoint params w).world.API_KEY = w.API_KEY
    ∧ (PrepareURL env endpoint params w).world.sent = w.sent
    ∧ (w.API_KEY = "" →
        (PrepareURL env endpoint params w).params = params
        ∧ (PrepareURL env endpoint params w).panic = none)
    ∧ (w.API_KEY ≠ "" → ∀ m : Values, params = some m →
        (PrepareURL env endpoint params w).params = some (m.Set "key" w.API_KEY)
        ∧ (PrepareURL env endpoint params w).panic = none)
    ∧ (w.API_KEY ≠ "" → params = none →
        (PrepareURL env endpoint params w).params = none
        ∧ (PrepareURL env endpoint params w).panic = some "assignment to entry in nil map"
        ∧ (PrepareURL env endpoint params w).url = ""
        ∧ (PrepareURL env endpoint params w).err = none) := by
  have h := PrepareURL_world env endpoint params w
  refine ⟨h, by rw [h], by rw [h], by rw [h], ?_, ?_, ?_⟩
  · intro hk; simp [PrepareURL, hk]
  · intro hk m hm
    subst hm
    simp only [PrepareURL, hk, if_false]
    split <;> exact ⟨rfl, rfl⟩
  · intro hk hm
    subst hm
    simp [PrepareURL, hk]

/-- The amended C14 on the four paths: empty key, failing join, success, nil map. -/
theorem PrepareURL_frame_witness :
    (PrepareURL (exampleEnv (answerWith 200 "\x7b\x7d")) ENDPOINT_VALIDATE
        (some [("email", ["a@b.com"])]) (testWorld "")).params = some [("email", ["a@b.com"])]
    ∧ (PrepareURL (brokenJoinEnv (answerWith 200 "\x7b\x7d")) ENDPOINT_VALIDATE
        (some [("email", ["a@b.com"])]) (testWorld "k")).world = testWorld "k"
    ∧ (PrepareURL (exampleEnv (answerWith 200 "\x7b\x7d")) ENDPOINT_VALIDATE
        (some [("email", ["a@b.com"])]) (testWorld "k")).params =
      some (Values.Set [("email", ["a@b.com"])] "key" "k")
    ∧ (PrepareURL (exampleEnv (answerWith 200 "\x7b\x7d")) ENDPOINT_VALIDATE
        none (testWorld "k")).panic = some "assignment to entry in nil map" :=
  ⟨((PrepareURL_frame (exampleEnv (answerWith 200 "\x7b\x7d")) ENDPOINT_VALIDATE
      (some [("email", ["a@b.com"])]) (testWorld "")).2.2.2.2.1 rfl).1,
   (PrepareURL_frame (brokenJoinEnv (answerWith 200 "\x7b\x7d")) ENDPOINT_VALIDATE
      (some [("email", ["a@b.com"])]) (testWorld "k")).1,
   ((PrepareURL_frame (exampleEnv (answerWith 200 "\x7b\x7d")) ENDPOINT_VALIDATE
      (some [("email", ["a@b.com"])]) (testWorld "k")).2.2.2.2.2.1 (by decide) _ rfl).1,
   ((PrepareURL_frame (exampleEnv (answerWith 200 "\x7b\x7d")) ENDPOINT_VALIDATE
      none (testWorld "k")).2.2.2.2.2.2 (by decide) rfl).2.1⟩

/-! ## The base URI -/

theorem SetURI_ne_empty (newURI : String) (w : World) (h : w.URI ≠ "") :
    (SetURI newURI w).URI ≠ "" := by
  unfold SetURI
  split
  · rename_i hn; exact hn
  · exact h

theorem Call_run_URI_ne_empty (env : Env) (c : Call) (w : World) (h : w.URI ≠ "") :
    (c.run env w).URI ≠ "" := by
  cases c with
  | SetApiKey k => exact h
  | SetURI x => exact SetURI_ne_empty x w h
  | LoadEnvFromFile loaded k u =>
      cases loaded
      · exact h
      · exact SetURI_ne_empty u _ h
  | PrepareURL ep ps => simp only [Call.run, PrepareURL_world]; exact h
  | Validate email => simp only [Call.run, (Validate_config env email w).1]; exact h
  | ValidateBatch t es => simp only [Call.run, (ValidateBatch_config env t es w).1]; exact h
  | GetBatchResults id => simp only [Call.run, (GetBatchResults_config env id w).1]; exact h
  | FindEmail n d => simp only [Call.run, (FindEmail_config env n d w).1]; exact h
  | GetAccountBalance => simp only [Call.run, (GetAccountBalance_config env w).1]; exact h

theorem foldl_run_URI_ne_empty (env : Env) (calls : List Call) (w : World) (h : w.URI ≠ "") :
    (calls.foldl (fun w c => c.run env w) w).URI ≠ "" := by
  induction calls generalizing w with
  | nil => exact h
  | cons c cs ih => exact ih _ (Call_run_URI_ne_empty env c w h)

theorem Getenv_ne_empty (value fallback : String) (h : fallback ≠ "") :
    Getenv value fallback ≠ "" := by
  unfold Getenv
  split
  · rename_i hv; exact hv
  · exact h

/-- C15: the configured base URI is never the empty string. At start-up it is the value
of EMAIL_VERIFY_URI when that is not empty and the default https://app.emailverify.io
otherwise, and it stays non-empty through every sequence of calls of the package's
exported functions. SetURI with the empty string changes nothing, SetURI with a non-empty
string makes GetBaseURI return it, and SetApiKey leaves the base URI alone while it does
set the API key, also to the empty string. -/
theorem base_URI_never_empty (env : Env) (envURI envKey : String) (calls : List Call)
    (w : World) :
    (runCalls env envURI envKey calls).URI ≠ ""
    ∧ GetBaseURI (World.init envURI envKey) = Getenv envURI "https://app.emailverify.io"
    ∧ Getenv "" "https://app.emailverify.io" = "https://app.emailverify.io"
    ∧ (envURI ≠ "" → Getenv envURI "https://app.emailverify.io" = envURI)
    ∧ SetURI "" w = w
    ∧ (∀ x, x ≠ "" → GetBaseURI (SetURI x w) = x ∧ (SetURI x w).API_KEY = w.API_KEY)
    ∧ (∀ k, GetBaseURI (SetApiKey k w) = GetBaseURI w ∧ (SetApiKey k w).API_KEY = k)
    ∧ (SetApiKey "" w).API_KEY = "" := by
  refine ⟨?_, rfl, rfl, ?_, ?_, ?_, ?_, rfl⟩
  · exact foldl_run_URI_ne_empty env calls _ (Getenv_ne_empty _ _ (by decide))
  · intro h; simp [Getenv, h]
  · simp [SetURI]
  · intro x hx; simp [SetURI, hx, GetBaseURI]
  · intro k; exact ⟨rfl, rfl⟩

/-- C15 on a run of the package: start with both variables unset, then SetURI(""),
SetApiKey(""), a failed load, a load that finds an empty URI, a call of Validate and
SetURI to a staging host; and SetURI with a non-empty string on the start-up state. -/
theorem base_URI_never_empty_witness :
    (runCalls (exampleEnv (answerWith 200 "\x7b\x7d")) "" ""
        [.SetURI "", .SetApiKey "", .LoadEnvFromFile false "k" "",
         .LoadEnvFromFile true "k" "", .Validate "a@b.com",
         .SetURI "https://staging.emailverify.io"]).URI = "https://staging.emailverify.io"
    ∧ (runCalls (exampleEnv (answerWith 200 "\x7b\x7d")) "" ""
        [.SetURI "", .SetApiKey "", .LoadEnvFromFile false "k" "",
         .LoadEnvFromFile true "k" ""]).URI = "https://app.emailverify.io"
    ∧ GetBaseURI (SetURI "https://staging.emailverify.io" (World.init "" "")) =
        "https://staging.emailverify.io" := by
  have h := base_URI_never_empty (exampleEnv (answerWith 200 "\x7b\x7d")) "" "" [] (World.init "" "")
  exact ⟨by decide, by decide, (h.2.2.2.2.2.1 "https://staging.emailverify.io" (by decide)).1⟩

end EmailVerify
